import Mathlib

/-!
# SPMSG34: the conflict-resolution scheduling engine

A shallow embedding of the scheduling core of `src/src/SPMSG34.c`
(`time_overlap`, `check_parking_conflict`, `check_essential_conflict`,
`has_time_conflict`, `cancelBooking`, `FCFS_Scheduler`, `Priority_Scheduler`)
and theorems about it.

Modelling conventions.
* C `int` and `time_t` values are `Int`; no arithmetic in the embedded functions
  can overflow (the only arithmetic is a usage counter bounded by the batch).
* C strings are `String`; `strcmp(a, b) == 0` is `a = b`.
* The array `bookings` is a `List Booking`; `bookings[i]` is `nth bookings i`.
* `acceptList` together with `*acceptCounter` is a `List Nat`: the first
  `*acceptCounter` cells of the C array.
* `essentials` together with `essential_count` is a `List String`: the first
  `essential_count` names of the C array.
-/

namespace SPMSG34

/-! ## Constants -/

def MAX_SLOTS : Nat := 3
def MAX_RESOURCES : Nat := 3
def STATUS_PENDING : Int := 0
def STATUS_ACCEPTED : Int := 1
def STATUS_REJECTED : Int := 2
def MAX_STRING_LENGTH : Nat := 20

/-! ## Data model -/

/-- The C `struct Booking`. `essential_count` is the length of `essentials`. -/
structure Booking where
  member : String
  parking_slot : Int
  date : String
  time : String
  duration : Rat
  essentials : List String
  status : Int
  start_time : Int
  end_time : Int
  type : String
deriving DecidableEq

instance : Inhabited Booking :=
  ⟨{ member := "", parking_slot := 0, date := "", time := "", duration := 0,
     essentials := [], status := 0, start_time := 0, end_time := 0, type := "" }⟩

/-- The field `essential_count` of the C struct. -/
def Booking.essential_count (b : Booking) : Nat := b.essentials.length

/-- The cell `bookings[i]`. -/
def nth (bookings : List Booking) (i : Nat) : Booking := (bookings[i]?).getD default

/-- The scheduler's mutable state: the batch and the accepted-index sequence. -/
structure SchedState where
  bookings : List Booking
  acceptList : List Nat
deriving DecidableEq

/-! ## Priority and the essential pair table -/

def get_priority_level (type : String) : Int :=
  if type = "Event" then 3
  else if type = "Reservation" then 2
  else if type = "Parking" then 1
  else 0

def essential_pairs : List (String × String) :=
  [("battery", "cable"), ("locker", "umbrella"), ("inflationservice", "valetpark")]

/-- The C `to_lower_case`: `tolower` on every character. -/
def to_lower_case (str : String) : String := String.mk (str.data.map Char.toLower)

/-- The loop of `get_pair_essential` over the rows of the pair table. -/
def pair_lookup (lower_essential : String) : List (String × String) → Option String
  | [] => none
  | (a, b) :: rest =>
    if lower_essential = a then some b
    else if lower_essential = b then some a
    else pair_lookup lower_essential rest

/-- The C `get_pair_essential`: the argument is copied into a buffer of
`MAX_STRING_LENGTH` bytes (at most 19 characters kept), lower-cased and looked
up; `none` is the C `NULL`. -/
def get_pair_essential (essential : String) : Option String :=
  pair_lookup (to_lower_case (String.mk (essential.data.take (MAX_STRING_LENGTH - 1))))
    essential_pairs

/-! ## ConflictChecker -/

def time_overlap (booking1 booking2 : Booking) : Bool :=
  if booking1.date ≠ booking2.date then false
  else decide (booking1.start_time < booking2.end_time ∧
    booking2.start_time < booking1.end_time)

/-- The innermost loop of `check_essential_conflict`: the number of entries of
the accepted booking that are literally the name `essential`. -/
def name_usage (acceptedBooking : Booking) (essential : String) : Nat :=
  (acceptedBooking.essentials.filter (fun e => decide (e = essential))).length

/-- The body of the loop over the accepted sequence in `check_essential_conflict`:
an accepted booking that does not overlap `item` is skipped, otherwise its
matching entries are added to `total_usage`. -/
def usage_step (item : Booking) (bookings : List Booking) (essential : String)
    (total : Nat) (idx : Nat) : Nat :=
  if time_overlap item (nth bookings idx) = false then total
  else total + name_usage (nth bookings idx) essential

/-- The loop over the accepted sequence that computes `total_usage`. -/
def total_usage (item : Booking) (bookings : List Booking) (acceptList : List Nat)
    (essential : String) : Nat :=
  acceptList.foldl (usage_step item bookings essential) 0

/-- The C `check_essential_conflict`: `0` no conflict, `-1` conflict. -/
def check_essential_conflict (item : Booking) (bookings : List Booking)
    (acceptList : List Nat) : Int :=
  if 0 < item.essential_count then
    if item.essentials.any (fun e => (get_pair_essential e).isNone) then -1
    else if item.essentials.any
        (fun e => decide (MAX_RESOURCES ≤ total_usage item bookings acceptList e)) then -1
    else 0
  else 0

/-- The body of the first loop of `check_parking_conflict`: an accepted booking
that overlaps `item` and holds a slot in range marks that slot unavailable. -/
def mark_slot (item : Booking) (bookings : List Booking) (avail : List Bool) (idx : Nat) :
    List Bool :=
  if time_overlap item (nth bookings idx) = true then
    if 0 ≤ (nth bookings idx).parking_slot ∧
        (nth bookings idx).parking_slot < (MAX_SLOTS : Int) then
      avail.set (nth bookings idx).parking_slot.toNat false
    else avail
  else avail

/-- The first loop of `check_parking_conflict`: the array `available_slots`
(initially all `1`) after the pass over the accepted sequence. -/
def available_slots (item : Booking) (bookings : List Booking) (acceptList : List Nat) :
    List Bool :=
  acceptList.foldl (mark_slot item bookings) (List.replicate MAX_SLOTS true)

/-- The C `check_parking_conflict`: a slot in `0..MAX_SLOTS-1`, or `-1`. -/
def check_parking_conflict (item : Booking) (bookings : List Booking)
    (acceptList : List Nat) : Int :=
  let avail := available_slots item bookings acceptList
  if 0 ≤ item.parking_slot ∧ item.parking_slot < (MAX_SLOTS : Int) ∧
      avail.getD item.parking_slot.toNat false = true then
    item.parking_slot
  else
    match (List.range MAX_SLOTS).find? (fun j => avail.getD j false) with
    | some j => (j : Int)
    | none => -1

def has_time_conflict (item : Booking) (bookings : List Booking) (acceptList : List Nat) :
    Bool :=
  if item.type = "*" then
    decide (check_essential_conflict item bookings acceptList = -1)
  else
    let parking_conflict := decide (check_parking_conflict item bookings acceptList = -1)
    let essential_conflict := decide (check_essential_conflict item bookings acceptList = -1)
    parking_conflict || essential_conflict

def cancelBooking (booking : Booking) : Booking :=
  { booking with status := STATUS_REJECTED, parking_slot := -1 }

/-! ## FCFS scheduler -/

/-- One iteration (index `i`) of the `for` loop of `FCFS_Scheduler`. -/
def FCFS_step (st : SchedState) (i : Nat) : SchedState :=
  if (nth st.bookings i).status ≠ STATUS_PENDING then st
  else
    let bookings1 :=
      if (nth st.bookings i).type ≠ "*" ∧ (nth st.bookings i).parking_slot = -1 then
        st.bookings.set i
          { nth st.bookings i with
            parking_slot := check_parking_conflict (nth st.bookings i) st.bookings st.acceptList }
      else st.bookings
    if (nth bookings1 i).type ≠ "*" ∧ (nth bookings1 i).parking_slot = -1 then
      { bookings := bookings1.set i (cancelBooking (nth bookings1 i)),
        acceptList := st.acceptList }
    else if has_time_conflict (nth bookings1 i) bookings1 st.acceptList = false then
      { bookings := bookings1.set i { nth bookings1 i with status := STATUS_ACCEPTED },
        acceptList := st.acceptList ++ [i] }
    else
      { bookings := bookings1.set i (cancelBooking (nth bookings1 i)),
        acceptList := st.acceptList }

/-- The C `FCFS_Scheduler(bookings, numBookings, acceptList, acceptCounter)`. -/
def FCFS_Scheduler (bookings : List Booking) (numBookings : Nat) (acceptList : List Nat) :
    SchedState :=
  (List.range numBookings).foldl FCFS_step { bookings := bookings, acceptList := acceptList }

/-! ## Priority scheduler -/

/-- One iteration (position `j`) of the backward scan of `Priority_Scheduler`;
`none` is the C value `-1` of `lowestPriorityIndex`. -/
def scan_step (item : Booking) (bookings : List Booking) (acceptList : List Nat)
    (lowestPriorityIndex : Option Nat) (j : Nat) : Option Nat :=
  if time_overlap item (nth bookings (acceptList.getD j 0)) = false then lowestPriorityIndex
  else if get_priority_level (nth bookings (acceptList.getD j 0)).type
      < get_priority_level item.type then some j
  else lowestPriorityIndex

/-- The backward scan `for (j = *acceptCounter - 1; j >= 0; j--)`. -/
def scan_victim (item : Booking) (bookings : List Booking) (acceptList : List Nat) :
    Option Nat :=
  (List.range acceptList.length).reverse.foldl (scan_step item bookings acceptList) none

/-- One iteration (index `i`) of the `for` loop of `Priority_Scheduler`. -/
def Priority_step (st : SchedState) (i : Nat) : SchedState :=
  if (nth st.bookings i).status ≠ STATUS_PENDING then st
  else if has_time_conflict (nth st.bookings i) st.bookings st.acceptList = false then
    let bookings1 := st.bookings.set i { nth st.bookings i with status := STATUS_ACCEPTED }
    let acceptList1 := st.acceptList ++ [i]
    if (nth bookings1 i).type ≠ "*" then
      { bookings := bookings1.set i
          { nth bookings1 i with
            parking_slot := check_parking_conflict (nth bookings1 i) bookings1 acceptList1 },
        acceptList := acceptList1 }
    else { bookings := bookings1, acceptList := acceptList1 }
  else
    match scan_victim (nth st.bookings i) st.bookings st.acceptList with
    | some lowestPriorityIndex =>
      let replacedIndex := st.acceptList.getD lowestPriorityIndex 0
      let bookings1 := st.bookings.set i
        { nth st.bookings i with
          parking_slot := (nth st.bookings replacedIndex).parking_slot,
          status := STATUS_ACCEPTED }
      { bookings := bookings1.set replacedIndex (cancelBooking (nth bookings1 replacedIndex)),
        acceptList := st.acceptList.set lowestPriorityIndex i }
    | none =>
      { bookings := st.bookings.set i (cancelBooking (nth st.bookings i)),
        acceptList := st.acceptList }

/-- The C `Priority_Scheduler(bookings, numBookings, acceptList, acceptCounter)`. -/
def Priority_Scheduler (bookings : List Booking) (numBookings : Nat) (acceptList : List Nat) :
    SchedState :=
  (List.range numBookings).foldl Priority_step { bookings := bookings, acceptList := acceptList }

/-! ## The frame of a booking -/

/-- The fields of a booking that no scheduler writes (status and slot blanked). -/
def Booking.frame (b : Booking) : Booking := { b with status := 0, parking_slot := 0 }

/-! ## Definitions used to state the properties -/

/-- The reading of "slot `s` is occupied" in the specification of
`check_parking_conflict`: some accepted booking that overlaps the candidate in time
holds slot `s`. -/
def slot_occupied (item : Booking) (bookings : List Booking) (acceptList : List Nat)
    (s : Int) : Prop :=
  ∃ idx ∈ acceptList, time_overlap item (nth bookings idx) = true ∧
    (nth bookings idx).parking_slot = s

/-- The six recognized essential names of the specification. -/
def recognized_names : List String :=
  ["battery", "cable", "locker", "umbrella", "inflationservice", "valetpark"]

/-- The count in the words of the specification: the number of accepted bookings that
overlap the candidate in time and request the name. -/
def overlapping_requesters (item : Booking) (bookings : List Booking) (acceptList : List Nat)
    (essential : String) : Nat :=
  (acceptList.filter (fun idx =>
    time_overlap item (nth bookings idx) &&
      decide (essential ∈ (nth bookings idx).essentials))).length

/-- The count the code makes: the number of entries equal to the name in the essentials
of the accepted bookings that overlap the candidate in time. -/
def overlapping_entries (item : Booking) (bookings : List Booking) (acceptList : List Nat)
    (essential : String) : Nat :=
  (acceptList.map (fun idx =>
    if time_overlap item (nth bookings idx) = true then
      (nth bookings idx).essentials.count essential
    else 0)).sum

/-- One iteration on a Pending booking with unassigned slot when nothing is preempted:
accept it (with the slot `check_parking_conflict` finds, unless its type is `*`) when
`has_time_conflict` is false, cancel it otherwise. Both schedulers reduce to this form
(`FCFS_step_direct`, `Priority_step_direct`). -/
def direct_step (st : SchedState) (i : Nat) : SchedState :=
  if has_time_conflict (nth st.bookings i) st.bookings st.acceptList = false then
    { bookings := st.bookings.set i
        { nth st.bookings i with
          status := STATUS_ACCEPTED,
          parking_slot :=
            if (nth st.bookings i).type = "*" then (nth st.bookings i).parking_slot
            else check_parking_conflict (nth st.bookings i) st.bookings st.acceptList },
      acceptList := st.acceptList ++ [i] }
  else
    { bookings := st.bookings.set i (cancelBooking (nth st.bookings i)),
      acceptList := st.acceptList }

/-! ## Concrete batches -/

/-- A Pending booking with unassigned slot, as the intake layer creates it. -/
def mkBooking (member date time : String) (duration : Rat) (essentials : List String)
    (start_time end_time : Int) (type : String) : Booking :=
  { member := member, parking_slot := -1, date := date, time := time, duration := duration,
    essentials := essentials, status := STATUS_PENDING, start_time := start_time,
    end_time := end_time, type := type }

/-- Four Parking requests for 2025-05-10 09:00-10:00 (instants in seconds, UTC). -/
def fourParkings : List Booking :=
  [mkBooking "member_A" "2025-05-10" "09:00" 1 [] 1746867600 1746871200 "Parking",
   mkBooking "member_B" "2025-05-10" "09:00" 1 [] 1746867600 1746871200 "Parking",
   mkBooking "member_C" "2025-05-10" "09:00" 1 [] 1746867600 1746871200 "Parking",
   mkBooking "member_D" "2025-05-10" "09:00" 1 [] 1746867600 1746871200 "Parking"]

/-- Four requests for 2025-05-10 09:00-10:00 that all ask for a battery. -/
def fourBatteries : List Booking :=
  [mkBooking "member_A" "2025-05-10" "09:00" 1 ["battery"] 1746867600 1746871200 "*",
   mkBooking "member_B" "2025-05-10" "09:00" 1 ["battery"] 1746867600 1746871200 "*",
   mkBooking "member_C" "2025-05-10" "09:00" 1 ["battery"] 1746867600 1746871200 "Parking",
   mkBooking "member_D" "2025-05-10" "09:00" 1 ["battery"] 1746867600 1746871200 "*"]

/-- Three Parking requests that fill every slot on 2025-05-10 09:00-10:00, followed by
an Event request for the same window. -/
def threeParkingsThenEvent : List Booking :=
  [mkBooking "member_A" "2025-05-10" "09:00" 1 [] 1746867600 1746871200 "Parking",
   mkBooking "member_B" "2025-05-10" "09:00" 1 [] 1746867600 1746871200 "Parking",
   mkBooking "member_C" "2025-05-10" "09:00" 1 [] 1746867600 1746871200 "Parking",
   mkBooking "member_D" "2025-05-10" "09:00" 1 [] 1746867600 1746871200 "Event"]

/-- A Parking request for 10:00-11:00, three Parking requests for 09:00-10:00 and an
Event request for 09:00-11:00, all on 2025-05-10. -/
def slotOverflowBatch : List Booking :=
  [mkBooking "member_A" "2025-05-10" "10:00" 1 [] 1746871200 1746874800 "Parking",
   mkBooking "member_B" "2025-05-10" "09:00" 1 [] 1746867600 1746871200 "Parking",
   mkBooking "member_C" "2025-05-10" "09:00" 1 [] 1746867600 1746871200 "Parking",
   mkBooking "member_D" "2025-05-10" "09:00" 1 [] 1746867600 1746871200 "Parking",
   mkBooking "member_E" "2025-05-10" "09:00" 2 [] 1746867600 1746874800 "Event"]

/-- An essentials-only request for a locker, three Event requests with a battery and a
Reservation request with a battery, all for 2025-05-10 09:00-10:00. -/
def batteryOverflowBatch : List Booking :=
  [mkBooking "member_A" "2025-05-10" "09:00" 1 ["locker"] 1746867600 1746871200 "*",
   mkBooking "member_B" "2025-05-10" "09:00" 1 ["battery"] 1746867600 1746871200 "Event",
   mkBooking "member_C" "2025-05-10" "09:00" 1 ["battery"] 1746867600 1746871200 "Event",
   mkBooking "member_D" "2025-05-10" "09:00" 1 ["battery"] 1746867600 1746871200 "Event",
   mkBooking "member_E" "2025-05-10" "09:00" 1 ["battery"] 1746867600 1746871200
     "Reservation"]

/-- A Parking request followed by an Event request for the same window that asks for
the unrecognized essential `charger`. -/
def unknownEssentialBatch : List Booking :=
  [mkBooking "member_A" "2025-05-10" "09:00" 1 [] 1746867600 1746871200 "Parking",
   mkBooking "member_B" "2025-05-10" "09:00" 1 ["charger"] 1746867600 1746871200 "Event"]

/-- A single Parking request that asks for the unrecognized essential `Charger`. -/
def unknownCaseBatch : List Booking :=
  [mkBooking "member_A" "2025-05-10" "09:00" 1 ["Charger"] 1746867600 1746871200 "Parking"]

/-- A request with three battery entries followed by a request with one, both Parking
for 2025-05-10 09:00-10:00. -/
def tripleBatteryBatch : List Booking :=
  [mkBooking "member_A" "2025-05-10" "09:00" 1 ["battery", "battery", "battery"]
     1746867600 1746871200 "Parking",
   mkBooking "member_B" "2025-05-10" "09:00" 1 ["battery"] 1746867600 1746871200 "Parking"]

/-- The batch [Parking member_A 09:00 2h, Parking member_B 10:00 2h, Parking member_C
11:00 2h] on 2025-05-10 (instants in seconds, UTC). -/
def staggeredParkings : List Booking :=
  [mkBooking "member_A" "2025-05-10" "09:00" 2 [] 1746867600 1746874800 "Parking",
   mkBooking "member_B" "2025-05-10" "10:00" 2 [] 1746871200 1746878400 "Parking",
   mkBooking "member_C" "2025-05-10" "11:00" 2 [] 1746874800 1746882000 "Parking"]

/-! ## Coordinator: rejected indices -/

/-- One iteration (index `i`) of the coordinator's pass that rebuilds the rejected
indices: `m` is the cursor into the accepted indices. -/
def rejected_step (accepted_idx : List Nat) (st : Nat × List Nat) (i : Nat) :
    Nat × List Nat :=
  if st.1 < accepted_idx.length ∧ i = accepted_idx.getD st.1 0 then (st.1 + 1, st.2)
  else (st.1, st.2 ++ [i])

/-- The coordinator's loop `for (i = 0; i < pending_count; i++)` that fills
`rejected_idx`; `rejected_count` is the length of the result. -/
def rejected_indices (pending_count : Nat) (accepted_idx : List Nat) : List Nat :=
  ((List.range pending_count).foldl (rejected_step accepted_idx) (0, [])).2

/-! ## Intake layer -/

def MAX_USERS : Nat := 5
def MAX_ESSENTIALS : Nat := 6

/-- The table `members`. -/
def members : List String :=
  ["member_A", "member_B", "member_C", "member_D", "member_E"]

/-- What `strncpy(dest, src, n)` leaves in a zeroed buffer: a source of at most `n` bytes
whole, a longer one cut (after `n` bytes in C, after `n` characters here, the same for
ASCII text). -/
def truncate (n : Nat) (src : String) : String := String.mk (src.data.take n)

/-- The bytes of a character in UTF-8, the encoding of the input. -/
def utf8_encode (c : Char) : List Nat :=
  if c.toNat < 0x80 then [c.toNat]
  else if c.toNat < 0x800 then [0xC0 + c.toNat / 64, 0x80 + c.toNat % 64]
  else if c.toNat < 0x10000 then
    [0xE0 + c.toNat / 4096, 0x80 + c.toNat / 64 % 64, 0x80 + c.toNat % 64]
  else
    [0xF0 + c.toNat / 262144, 0x80 + c.toNat / 4096 % 64, 0x80 + c.toNat / 64 % 64,
      0x80 + c.toNat % 64]

/-- A string as the C code sees it: its bytes, each one a `char`. -/
def c_chars (s : String) : List Char :=
  (s.data.foldr (fun c acc => utf8_encode c ++ acc) []).map Char.ofNat

/-- The C `strlen`: the number of bytes. -/
def strlen (s : String) : Nat := (c_chars s).length

/-- Whether `strcpy(dest, src)` with `dest` of `size` bytes stays inside `dest`. -/
def strcpy_fits (size : Nat) (src : String) : Bool := decide (strlen src < size)

/-- The C `isspace` in the C locale. -/
def isspace (c : Char) : Bool :=
  c = ' ' || c = '\t' || c = '\n' || c = '\x0b' || c = '\x0c' || c = '\r'

/-- The conversion `%d` of `sscanf`: leading white space, an optional sign, then at
least one decimal digit; returns the value and the rest of the input. -/
def scan_int (s : List Char) : Option (Int × List Char) :=
  let s1 := s.dropWhile isspace
  let neg := decide (s1.head? = some '-')
  let s2 := if s1.head? = some '-' ∨ s1.head? = some '+' then s1.tail else s1
  let digits := s2.takeWhile Char.isDigit
  if digits = [] then none
  else
    let value : Int := digits.foldl (fun a d => 10 * a + ((d.toNat : Int) - 48)) 0
    some (if neg then -value else value, s2.dropWhile Char.isDigit)

/-- The calls `sscanf(s, "%d-%d-%d", ...)` and `sscanf(s, "%d:%d", ...)`: up to `n`
integers separated by the literal `sep`; the result lists the values converted, so its
length is the return value of `sscanf`. -/
def sscanf_ints (sep : Char) : Nat → List Char → List Int
  | 0, _ => []
  | n + 1, s =>
    match scan_int s with
    | none => []
    | some (v, rest) =>
      match rest with
      | c :: rest1 => if c = sep then v :: sscanf_ints sep n rest1 else [v]
      | [] => [v]

def validate_datetime (date time : String) : Bool :=
  if strlen date ≠ 10 ∨ (c_chars date).getD 4 ' ' ≠ '-' ∨ (c_chars date).getD 7 ' ' ≠ '-' then
    false
  else if strlen time ≠ 5 ∨ (c_chars time).getD 2 ' ' ≠ ':' then false
  else if (sscanf_ints '-' 3 (c_chars date)).length ≠ 3 then false
  else
    match sscanf_ints ':' 2 (c_chars time) with
    | [hour, minute] => decide (0 ≤ hour ∧ hour ≤ 23 ∧ 0 ≤ minute ∧ minute ≤ 59)
    | _ => false

/-- The C `convert_to_time_t`. The library function `mktime` is a parameter: it maps the
fields `tm_year`, `tm_mon`, `tm_mday`, `tm_hour`, `tm_min` (all others zero) to an
instant. Fields that `sscanf` does not convert stay zero. -/
def convert_to_time_t (mktime : Int → Int → Int → Int → Int → Int) (date time : String) :
    Int :=
  let d := sscanf_ints '-' 3 (c_chars date)
  let t := sscanf_ints ':' 2 (c_chars time)
  mktime (d.getD 0 0 - 1900) (d.getD 1 0 - 1) (d.getD 2 0) (t.getD 0 0) (t.getD 1 0)

/-- The quotient `a / b` rounded to the nearest integer, a tie to the even one. -/
def round_half_even (a b : Nat) : Nat :=
  if 2 * (a % b) < b then a / b
  else if b < 2 * (a % b) then a / b + 1
  else if a / b % 2 = 0 then a / b
  else a / b + 1

/-- The position of the leading bit of `n` (0 for `n < 2`), by halving at most `fuel`
times. -/
def floor_log2 : Nat → Nat → Nat
  | 0, _ => 0
  | fuel + 1, n => if n < 2 then 0 else floor_log2 fuel (n / 2) + 1

/-- The integer part of the `float` nearest to `n / d` (24 significant bits, a tie to
the even one): what `(time_t)` makes of a non-negative `float` product whose exact value
is `n / d`. -/
def float_trunc (n d : Nat) : Nat :=
  if n < d then
    if d * (2 ^ 25 - 1) ≤ n * 2 ^ 25 then 1 else 0
  else if 23 ≤ floor_log2 (n / d) (n / d) then
    round_half_even n (d * 2 ^ (floor_log2 (n / d) (n / d) - 23))
      * 2 ^ (floor_log2 (n / d) (n / d) - 23)
  else
    round_half_even (n * 2 ^ (23 - floor_log2 (n / d) (n / d))) d
      / 2 ^ (23 - floor_log2 (n / d) (n / d))

/-- The offset `(time_t)(duration * 3600)`: the product is formed in `float` and then
truncated toward zero. `duration` is the value of the C `float`. -/
def duration_seconds (duration : Rat) : Int :=
  if duration.num < 0 then -((float_trunc (duration.num.natAbs * 3600) duration.den : Nat) : Int)
  else ((float_trunc (duration.num.natAbs * 3600) duration.den : Nat) : Int)

/-- Whether an integer is a value of the 64-bit `time_t`. -/
def time_t_defined (x : Int) : Bool := decide (-(2 : Int) ^ 63 ≤ x ∧ x < (2 : Int) ^ 63)

/-- The intake layer's globals `allBookings` and `invalid_command_count`, and a mark
`undefined_behaviour` set once the C code has written outside a buffer or converted a
`float` outside the range of `time_t`: from then on the C standard does not fix what is
stored, and the other two components say what the calls were asked to store. -/
structure IntakeState where
  allBookings : List Booking
  invalid_command_count : Int
  undefined_behaviour : Bool := false
deriving DecidableEq

/-- The C `create_booking`; `count` is the length of `essentials`, and `duration` is the
value of the C `float`. The loop copies `count` names into `essentials[3][20]`: with
`count > 3` the copies from the fourth on land outside the array (on the fields that
follow it in the struct), which is marked as undefined behaviour; the list then still
holds every name the loop was given. -/
def create_booking (mktime : Int → Int → Int → Int → Int → Int) (st : IntakeState)
    (member date time : String) (duration : Rat) (essentials : List String) (slot : Int)
    (type : String) : IntakeState :=
  if duration = 0 then
    { st with invalid_command_count := st.invalid_command_count + 1 }
  else
    { st with
      allBookings := st.allBookings ++
        [{ member := truncate (MAX_STRING_LENGTH - 1) member,
           parking_slot := slot,
           date := truncate 10 date,
           time := truncate 5 time,
           duration := duration,
           essentials := essentials.map (truncate (MAX_STRING_LENGTH - 1)),
           status := STATUS_PENDING,
           start_time := convert_to_time_t mktime date time,
           end_time := convert_to_time_t mktime date time + duration_seconds duration,
           type := truncate 11 type }],
      undefined_behaviour :=
        st.undefined_behaviour || decide (3 < essentials.length) ||
          !(time_t_defined (duration_seconds duration)) ||
          !(time_t_defined (convert_to_time_t mktime date time + duration_seconds duration)) }

/-- The common body of `add_parking`, `add_reservation`, `book_essentials` and
`add_event`, which differ only in the type they pass on. -/
def add_booking (mktime : Int → Int → Int → Int → Int → Int) (st : IntakeState)
    (member date time : String) (duration : Rat) (essentials : List String)
    (type : String) : IntakeState :=
  if validate_datetime date time = false then
    { st with invalid_command_count := st.invalid_command_count + 1 }
  else create_booking mktime st member date time duration essentials (-1) type

def add_parking (mktime : Int → Int → Int → Int → Int → Int) (st : IntakeState)
    (member date time : String) (duration : Rat) (essentials : List String) : IntakeState :=
  add_booking mktime st member date time duration essentials "Parking"

def add_reservation (mktime : Int → Int → Int → Int → Int → Int) (st : IntakeState)
    (member date time : String) (duration : Rat) (essentials : List String) : IntakeState :=
  add_booking mktime st member date time duration essentials "Reservation"

def book_essentials (mktime : Int → Int → Int → Int → Int → Int) (st : IntakeState)
    (member date time : String) (duration : Rat) (essentials : List String) : IntakeState :=
  add_booking mktime st member date time duration essentials "*"

def add_event (mktime : Int → Int → Int → Int → Int → Int) (st : IntakeState)
    (member date time : String) (duration : Rat) (essentials : List String) : IntakeState :=
  add_booking mktime st member date time duration essentials "Event"

/-- The C `get_member`: a leading dash is removed and the name is looked up. -/
def get_member (member_name : String) : Option String :=
  let clean_name := truncate (MAX_STRING_LENGTH - 1) member_name
  let clean_name1 :=
    if clean_name.data.head? = some '-' then String.mk clean_name.data.tail else clean_name
  members.find? (fun m => decide (clean_name1 = m))

/-- A command line after `strtok` has split it at spaces and `(float)atof` has converted
the fifth token: the command word, the member, date and time tokens, the duration (the
value of the `float`), and the remaining tokens. -/
structure Command where
  name : String
  member_name : String
  date : String
  time : String
  duration : Rat
  tokens : List String
deriving DecidableEq

/-- The body of the loop that collects the essentials: a final `;` is cut off. -/
def strip_semicolon (token : String) : String :=
  if token.data.getLast? = some ';' then String.mk token.data.dropLast else token

/-- Whether every `strcpy` of `command_processor` stays inside its buffer:
`member_name[20]`, `date[11]`, `time[6]` and the rows of `essentials[6][20]`. -/
def strcpy_all_fit (cmd : Command) : Bool :=
  strcpy_fits MAX_STRING_LENGTH cmd.member_name && strcpy_fits 11 cmd.date &&
    strcpy_fits 6 cmd.time &&
    ((cmd.tokens.take MAX_ESSENTIALS).map strip_semicolon).all (strcpy_fits MAX_STRING_LENGTH)

/-- The state after the `strcpy` calls of `command_processor`. -/
def after_strcpy (st : IntakeState) (cmd : Command) : IntakeState :=
  { st with undefined_behaviour := st.undefined_behaviour || !(strcpy_all_fit cmd) }

/-- The C `command_processor` on a command with at least five tokens. -/
def command_processor (mktime : Int → Int → Int → Int → Int → Int) (st : IntakeState)
    (cmd : Command) : IntakeState :=
  let essentials := (cmd.tokens.take MAX_ESSENTIALS).map strip_semicolon
  if cmd.name = "addParking" then
    match get_member cmd.member_name with
    | none =>
      { after_strcpy st cmd with invalid_command_count := st.invalid_command_count + 1 }
    | some member =>
      add_parking mktime (after_strcpy st cmd) member cmd.date cmd.time cmd.duration essentials
  else if cmd.name = "addReservation" then
    match get_member cmd.member_name with
    | none =>
      { after_strcpy st cmd with invalid_command_count := st.invalid_command_count + 1 }
    | some member =>
      add_reservation mktime (after_strcpy st cmd) member cmd.date cmd.time cmd.duration
        essentials
  else if cmd.name = "bookEssentials" then
    match get_member cmd.member_name with
    | none =>
      { after_strcpy st cmd with invalid_command_count := st.invalid_command_count + 1 }
    | some member =>
      book_essentials mktime (after_strcpy st cmd) member cmd.date cmd.time cmd.duration
        essentials
  else if cmd.name = "addEvent" then
    match get_member cmd.member_name with
    | none =>
      { after_strcpy st cmd with invalid_command_count := st.invalid_command_count + 1 }
    | some member =>
      add_event mktime (after_strcpy st cmd) member cmd.date cmd.time cmd.duration essentials
  else st

/-- The instant `mktime` returns when the time zone is UTC: a month outside 0..11 is
carried into the year, then days are counted from the civil date, a day, hour or minute
outside its range carrying over by the count itself. -/
def mktime_utc (tm_year tm_mon tm_mday tm_hour tm_min : Int) : Int :=
  let y0 := tm_year + 1900 + tm_mon / 12
  let m0 := tm_mon % 12 + 1
  let y := if m0 ≤ 2 then y0 - 1 else y0
  let era := y / 400
  let yoe := y - era * 400
  let mp := (m0 + 9) % 12
  let doy := (153 * mp + 2) / 5 + tm_mday - 1
  let doe := yoe * 365 + yoe / 4 - yoe / 100 + doy
  let days := era * 146097 + doe - 719468
  days * 86400 + tm_hour * 3600 + tm_min * 60

/-- `addEvent -member_B 2025-05-10 09:00 1.0 charger;` -/
def unknownEssentialCommand : Command :=
  { name := "addEvent", member_name := "-member_B", date := "2025-05-10", time := "09:00",
    duration := 1, tokens := ["charger;"] }

/-- `addParking -member_A 2025-05-10 09:00 -1.0 battery;` -/
def negativeDurationCommand : Command :=
  { name := "addParking", member_name := "-member_A", date := "2025-05-10", time := "09:00",
    duration := -1, tokens := ["battery;"] }

/-- `addParking -member_A 2025-05-10 09:00 1.0 battery cable locker umbrella;` -/
def fourEssentialsCommand : Command :=
  { name := "addParking", member_name := "-member_A", date := "2025-05-10", time := "09:00",
    duration := 1, tokens := ["battery", "cable", "locker", "umbrella;"] }

/-! ## Coordinator: scheduling and analysis passes -/

/-- The coordinator's table `algorithms`. -/
def algorithms : List String := ["fcfs", "prio"]

/-- The C `struct SchedulerResults`. -/
structure SchedulerResults where
  accepted_idx : List Nat
  accepted_count : Nat
  rejected_idx : List Nat
  rejected_count : Nat
  total_received : Nat
deriving DecidableEq

/-- What the Scheduler stage computes for one request: the accepted indices
(`acceptCount` is the length). -/
def scheduler_stage (algorithm : String) (pending : List Booking) (pending_count : Nat) :
    List Nat :=
  if algorithm = "fcfs" then (FCFS_Scheduler pending pending_count []).acceptList
  else if algorithm = "prio" then (Priority_Scheduler pending pending_count []).acceptList
  else []

/-- The coordinator's variables that outlive one pass of its first loop: the local
`acceptCounter` and the globals `fcfs_results` and `prio_results`. -/
structure CoordinatorVars where
  acceptCounter : Nat
  fcfs_results : SchedulerResults
  prio_results : SchedulerResults
deriving DecidableEq

/-- One pass (algorithm index `a`) of the coordinator's first loop over a non-empty
batch when every acknowledgment arrives: `acceptCounter` and `results[a]` are set from
what the Scheduler stage returns. -/
def coordinator_schedule (pending_bookings : List Booking) (v : CoordinatorVars) (a : Nat) :
    CoordinatorVars :=
  let accepted := scheduler_stage (algorithms.getD a "") pending_bookings pending_bookings.length
  let res : SchedulerResults :=
    { accepted_idx := accepted,
      accepted_count := accepted.length,
      rejected_idx := rejected_indices pending_bookings.length accepted,
      rejected_count := (rejected_indices pending_bookings.length accepted).length,
      total_received := pending_bookings.length }
  if a = 0 then { v with acceptCounter := accepted.length, fcfs_results := res }
  else { v with acceptCounter := accepted.length, prio_results := res }

/-- What the coordinator writes to the Analysis stage for one algorithm.
`reads_past_buffer` marks a `write` that takes more cells from `accepted_idx` than the
buffer holds: the cells beyond it are not fixed by the program, and `accepted_idx` then
lists only the cells of the buffer. -/
structure AnalysisMessage where
  algorithm : String
  pending_count : Nat
  pending_bookings : List Booking
  accepted_count : Nat
  accepted_idx : List Nat
  invalid_command_count : Int
  reads_past_buffer : Bool
deriving DecidableEq

/-- One pass (algorithm index `a`) of the coordinator's second loop: the count written
is the local `acceptCounter`, and `acceptCounter` cells of `results[a]->accepted_idx`
are written. -/
def analysis_message (pending_bookings : List Booking) (v : CoordinatorVars)
    (invalid_command_count : Int) (a : Nat) : AnalysisMessage :=
  { algorithm := algorithms.getD a "",
    pending_count := pending_bookings.length,
    pending_bookings := pending_bookings,
    accepted_count := v.acceptCounter,
    accepted_idx :=
      ((if a = 0 then v.fcfs_results else v.prio_results).accepted_idx).take v.acceptCounter,
    invalid_command_count := invalid_command_count,
    reads_past_buffer :=
      decide ((if a = 0 then v.fcfs_results else v.prio_results).accepted_idx.length
        < v.acceptCounter) }

/-- The command `printBookings -ALL;` on a non-empty batch when every acknowledgment
arrives: both algorithms are scheduled in turn, then both are forwarded to the Analysis
stage. -/
def printBookings_ALL (allBookings : List Booking) (v : CoordinatorVars)
    (invalid_command_count : Int) : List AnalysisMessage :=
  let v1 := (List.range 2).foldl (coordinator_schedule allBookings) v
  (List.range 2).map (analysis_message allBookings v1 invalid_command_count)

/-- Three Parking requests for 09:00-10:00, an Event request for 09:00-12:00 and three
Parking requests for 10:00-11:00, all on 2025-05-10. -/
def sevenBookings : List Booking :=
  [mkBooking "member_A" "2025-05-10" "09:00" 1 [] 1746867600 1746871200 "Parking",
   mkBooking "member_B" "2025-05-10" "09:00" 1 [] 1746867600 1746871200 "Parking",
   mkBooking "member_C" "2025-05-10" "09:00" 1 [] 1746867600 1746871200 "Parking",
   mkBooking "member_D" "2025-05-10" "09:00" 3 [] 1746867600 1746878400 "Event",
   mkBooking "member_A" "2025-05-10" "10:00" 1 [] 1746871200 1746874800 "Parking",
   mkBooking "member_B" "2025-05-10" "10:00" 1 [] 1746871200 1746874800 "Parking",
   mkBooking "member_C" "2025-05-10" "10:00" 1 [] 1746871200 1746874800 "Parking"]

/-- The coordinator's variables at program start. -/
def initialVars : CoordinatorVars :=
  { acceptCounter := 0,
    fcfs_results := { accepted_idx := [], accepted_count := 0, rejected_idx := [],
                      rejected_count := 0, total_received := 0 },
    prio_results := { accepted_idx := [], accepted_count := 0, rejected_idx := [],
                      rejected_count := 0, total_received := 0 } }

/-! ## Exchange between the coordinator and the Scheduler stage -/

/-- What travels over a pipe between the coordinator and the Scheduler stage. -/
inductive Message where
  | tag (algorithm : String)
  | count (n : Nat)
  | batch (pending : List Booking)
  | ack (text : String)
  | indices (l : List Nat)
deriving DecidableEq

/-- The `read` the Scheduler stage is blocked in. -/
inductive StagePhase where
  | awaitAlgorithm
  | awaitCount (algorithm : String)
  | awaitBatch (algorithm : String) (pending_count : Nat)
  | awaitOkay (acceptList : List Nat)
  | awaitRecv (acceptList : List Nat)
  | awaitList
  | desynchronized
  | exited
deriving DecidableEq

/-- One `read` of the Scheduler stage's loop returning with what the coordinator wrote,
up to the next `read`: the new phase and what the stage writes back. The replies
`ACK_ALGO`, `ACK_READ` and `ACK_SENT` are written whatever was read; when what was read
is not what the phase expects the stage goes on with bytes it misreads
(`desynchronized`). -/
def scheduler_stage_step : StagePhase → Message → StagePhase × List Message
  | .awaitAlgorithm, .tag algorithm =>
      if algorithm = "EXIT" then (.exited, [])
      else (.awaitCount algorithm, [.ack "ACK_ALGO"])
  | .awaitAlgorithm, _ => (.desynchronized, [.ack "ACK_ALGO"])
  | .awaitCount algorithm, .count pending_count =>
      if pending_count > 0 then (.awaitBatch algorithm pending_count, [.ack "ACK_READ"])
      else (.awaitAlgorithm, [.ack "ACK_READ"])
  | .awaitCount _, _ => (.desynchronized, [.ack "ACK_READ"])
  | .awaitBatch algorithm pending_count, .batch pending =>
      (.awaitOkay (scheduler_stage algorithm pending pending_count), [.ack "ACK_SENT"])
  | .awaitBatch _ _, _ => (.desynchronized, [.ack "ACK_SENT"])
  | .awaitOkay acceptList, m =>
      if m = .ack "ACK_OKAY" then (.awaitRecv acceptList, [.count acceptList.length])
      else (.exited, [])
  | .awaitRecv acceptList, m =>
      if m = .ack "ACK_RECV" then (.awaitList, [.indices acceptList])
      else (.exited, [])
  | .awaitList, m =>
      if m = .ack "ACK_LIST" then (.awaitAlgorithm, [])
      else (.exited, [])
  | .desynchronized, _ => (.desynchronized, [])
  | .exited, _ => (.exited, [])

/-- How the coordinator's exchange with the Scheduler stage ends for one algorithm. -/
inductive RunOutcome where
  | scheduled (accepted_idx : List Nat)
  | missing_ACK_ALGO
  | no_pending_bookings
  | missing_ACK_READ
  | missing_ACK_SENT
  | missing_result
deriving DecidableEq

/-- The outcome of one exchange, the phase the Scheduler stage is left in, and the
invalid-command counter. -/
structure RunResult where
  outcome : RunOutcome
  stage : StagePhase
  invalid_command_count : Int
deriving DecidableEq

/-- The coordinator's exchange with the Scheduler stage for one algorithm, in the order
of the source: the tag is written and `ACK_ALGO` awaited, then an empty batch ends the
run, then the count, the batch and the three acknowledgments are exchanged. A reply that
is not the expected one ends the run. -/
def coordinator_run (algorithm : String) (allBookings : List Booking) (stage : StagePhase)
    (invalid_command_count : Int) : RunResult :=
  let r1 := scheduler_stage_step stage (.tag algorithm)
  if r1.2 ≠ [.ack "ACK_ALGO"] then ⟨.missing_ACK_ALGO, r1.1, invalid_command_count⟩
  else if allBookings.length = 0 then ⟨.no_pending_bookings, r1.1, invalid_command_count + 1⟩
  else
    let r2 := scheduler_stage_step r1.1 (.count allBookings.length)
    if r2.2 ≠ [.ack "ACK_READ"] then ⟨.missing_ACK_READ, r2.1, invalid_command_count⟩
    else
      let r3 := scheduler_stage_step r2.1 (.batch allBookings)
      if r3.2 ≠ [.ack "ACK_SENT"] then ⟨.missing_ACK_SENT, r3.1, invalid_command_count⟩
      else
        let r4 := scheduler_stage_step r3.1 (.ack "ACK_OKAY")
        match r4.2 with
        | [.count acceptCounter] =>
            let r5 := scheduler_stage_step r4.1 (.ack "ACK_RECV")
            match r5.2 with
            | [.indices l] =>
                let r6 := scheduler_stage_step r5.1 (.ack "ACK_LIST")
                ⟨.scheduled (l.take acceptCounter), r6.1, invalid_command_count⟩
            | _ => ⟨.missing_result, r5.1, invalid_command_count⟩
        | _ => ⟨.missing_result, r4.1, invalid_command_count⟩

/-! ## Exchange between the coordinator and the Output stage -/

/-- The `read` the Output stage is blocked in, with the counts it has received. -/
inductive OutputPhase where
  | awaitAlgorithm
  | awaitCount
  | awaitList (schedCount : Nat)
  | awaitAcceptCount
  | awaitIndices (acceptCount : Nat)
  | desynchronized
  | exited
deriving DecidableEq

/-- The next `read` of the Output stage's loop, given what is in its pipe: `none` when
the `read` has nothing to return, otherwise the new phase, what is left in the pipe and
what the stage writes back. A `read` of zero bytes returns 0 at once, so the reply
guarded by `read(...) > 0` is not written. -/
def output_stage_step : OutputPhase → List Message →
    Option (OutputPhase × List Message × List Message)
  | .awaitAlgorithm, .tag algorithm :: rest =>
      if algorithm = "EXIT" then some (.exited, rest, [])
      else some (.awaitCount, rest, [.ack "ACK_ALGO"])
  | .awaitAlgorithm, _ :: rest => some (.desynchronized, rest, [.ack "ACK_ALGO"])
  | .awaitAlgorithm, [] => none
  | .awaitCount, .count schedCount :: rest =>
      some (.awaitList schedCount, rest, [.ack "ACK_COUNTER"])
  | .awaitCount, _ :: rest => some (.desynchronized, rest, [.ack "ACK_COUNTER"])
  | .awaitCount, [] => none
  | .awaitList schedCount, pipe =>
      if schedCount = 0 then some (.awaitAcceptCount, pipe, [])
      else
        match pipe with
        | .batch _ :: rest => some (.awaitAcceptCount, rest, [.ack "ACK_LIST"])
        | _ :: rest => some (.desynchronized, rest, [.ack "ACK_LIST"])
        | [] => none
  | .awaitAcceptCount, .count acceptCount :: rest =>
      some (.awaitIndices acceptCount, rest, [.ack "ACK_COUNTER"])
  | .awaitAcceptCount, _ :: rest => some (.desynchronized, rest, [.ack "ACK_COUNTER"])
  | .awaitAcceptCount, [] => none
  | .awaitIndices acceptCount, pipe =>
      if acceptCount = 0 then some (.awaitAlgorithm, pipe, [])
      else
        match pipe with
        | .indices _ :: rest => some (.awaitAlgorithm, rest, [.ack "ACK_INDX"])
        | _ :: rest => some (.desynchronized, rest, [.ack "ACK_INDX"])
        | [] => none
  | .desynchronized, _ => none
  | .exited, _ => none

/-- Where the coordinator is in forwarding one result to the Output stage. -/
inductive ForwardPhase where
  | sendAlgorithm
  | awaitAckAlgo
  | awaitAckCounter
  | awaitAckList
  | awaitAckAccepted
  | awaitAckIndx
  | done
  | aborted
deriving DecidableEq

/-- The next step of the coordinator's forwarding of one result to the Output stage,
given the replies in its pipe: `none` when its `read` has nothing to return or the
forwarding is over, otherwise the new phase, what is left in the pipe and what the
coordinator writes. A `write` of zero bytes puts nothing in the pipe. -/
def coordinator_forward_step (algorithm : String) (pending_bookings : List Booking)
    (acceptCounter : Nat) (accepted_idx : List Nat) :
    ForwardPhase → List Message → Option (ForwardPhase × List Message × List Message)
  | .sendAlgorithm, replies => some (.awaitAckAlgo, replies, [.tag algorithm])
  | .awaitAckAlgo, m :: rest =>
      if m = .ack "ACK_ALGO" then
        some (.awaitAckCounter, rest, [.count pending_bookings.length])
      else some (.aborted, rest, [])
  | .awaitAckCounter, m :: rest =>
      if m = .ack "ACK_COUNTER" then some (.awaitAckList, rest, [.batch pending_bookings])
      else some (.aborted, rest, [])
  | .awaitAckList, m :: rest =>
      if m = .ack "ACK_LIST" then some (.awaitAckAccepted, rest, [.count acceptCounter])
      else some (.aborted, rest, [])
  | .awaitAckAccepted, m :: rest =>
      if m = .ack "ACK_COUNTER" then
        some (.awaitAckIndx, rest,
          if acceptCounter = 0 then [] else [.indices (accepted_idx.take acceptCounter)])
      else some (.aborted, rest, [])
  | .awaitAckIndx, m :: rest =>
      if m = .ack "ACK_INDX" then some (.done, rest, []) else some (.aborted, rest, [])
  | _, _ => none

/-- The coordinator, the Output stage and the two pipes between them. -/
structure ForwardState where
  coordinator : ForwardPhase
  stage : OutputPhase
  ptoc : List Message
  ctop : List Message
deriving DecidableEq

/-- One step of the pair: the coordinator's if it has one, else the Output stage's;
`none` when neither has a step. -/
def forward_step (algorithm : String) (pending_bookings : List Booking)
    (acceptCounter : Nat) (accepted_idx : List Nat) (s : ForwardState) :
    Option ForwardState :=
  match coordinator_forward_step algorithm pending_bookings acceptCounter accepted_idx
      s.coordinator s.ctop with
  | some (c, rest, written) =>
      some { coordinator := c, stage := s.stage, ptoc := s.ptoc ++ written, ctop := rest }
  | none =>
      match output_stage_step s.stage s.ptoc with
      | some (p, rest, written) =>
          some { coordinator := s.coordinator, stage := p, ptoc := rest,
                 ctop := s.ctop ++ written }
      | none => none

/-- Steps of the pair until neither has a step, at most `fuel` of them. -/
def forward_run (algorithm : String) (pending_bookings : List Booking)
    (acceptCounter : Nat) (accepted_idx : List Nat) : Nat → ForwardState → ForwardState
  | 0, s => s
  | fuel + 1, s =>
      match forward_step algorithm pending_bookings acceptCounter accepted_idx s with
      | some t => forward_run algorithm pending_bookings acceptCounter accepted_idx fuel t
      | none => s

/-- The forwarding starts with the Output stage waiting for a tag and empty pipes. -/
def forwardStart : ForwardState :=
  { coordinator := .sendAlgorithm, stage := .awaitAlgorithm, ptoc := [], ctop := [] }

/-- The batch after the one command `addEvent -member_B 2025-05-10 09:00 1.0 charger;`. -/
def chargerBatch : List Booking :=
  (command_processor mktime_utc { allBookings := [], invalid_command_count := 0 }
    unknownEssentialCommand).allBookings

/-! ## Theorems -/

theorem nth_set (bs : List Booking) (i j : Nat) (x : Booking) :
    nth (bs.set i x) j = if i = j ∧ i < bs.length then x else nth bs j := by
  unfold nth
  rw [List.getElem?_set]
  by_cases h : i = j
  · subst h
    by_cases h2 : i < bs.length
    · simp [h2]
    · simp [h2]
      have : bs[i]? = none := List.getElem?_eq_none (by omega)
      simp [this]
  · simp [h]

theorem nth_set_self (bs : List Booking) (i : Nat) (x : Booking) (h : i < bs.length) :
    nth (bs.set i x) i = x := by
  simp [nth_set, h]

theorem nth_set_ne (bs : List Booking) (i j : Nat) (x : Booking) (h : i ≠ j) :
    nth (bs.set i x) j = nth bs j := by
  simp [nth_set, h]

theorem nth_mem (bs : List Booking) (i : Nat) (h : i < bs.length) : nth bs i ∈ bs := by
  unfold nth
  rw [List.getElem?_eq_getElem h]
  exact List.getElem_mem h

theorem nth_of_le (bs : List Booking) (i : Nat) (h : bs.length ≤ i) : nth bs i = default := by
  unfold nth
  rw [List.getElem?_eq_none h]
  rfl

theorem set_nth_self (bs : List Booking) (i : Nat) : bs.set i (nth bs i) = bs := by
  apply List.ext_getElem?
  intro j
  rw [List.getElem?_set]
  by_cases h : i = j
  · subst h
    by_cases h2 : i < bs.length
    · simp [h2, nth, List.getElem?_eq_getElem h2]
    · simp [h2, List.getElem?_eq_none (show bs.length ≤ i by omega)]
  · simp [h]

theorem frame_date (a b : Booking) (h : a.frame = b.frame) : a.date = b.date := by
  have h1 : a.frame.date = b.frame.date := by rw [h]
  exact h1

theorem frame_start (a b : Booking) (h : a.frame = b.frame) : a.start_time = b.start_time := by
  have h1 : a.frame.start_time = b.frame.start_time := by rw [h]
  exact h1

theorem frame_end (a b : Booking) (h : a.frame = b.frame) : a.end_time = b.end_time := by
  have h1 : a.frame.end_time = b.frame.end_time := by rw [h]
  exact h1

theorem frame_essentials (a b : Booking) (h : a.frame = b.frame) :
    a.essentials = b.essentials := by
  have h1 : a.frame.essentials = b.frame.essentials := by rw [h]
  exact h1

theorem frame_type (a b : Booking) (h : a.frame = b.frame) : a.type = b.type := by
  have h1 : a.frame.type = b.frame.type := by rw [h]
  exact h1

theorem time_overlap_frame (a b a1 b1 : Booking) (ha : a.frame = a1.frame)
    (hb : b.frame = b1.frame) : time_overlap a b = time_overlap a1 b1 := by
  unfold time_overlap
  rw [frame_date a a1 ha, frame_start a a1 ha, frame_end a a1 ha,
    frame_date b b1 hb, frame_start b b1 hb, frame_end b b1 hb]

theorem time_overlap_comm (a b : Booking) : time_overlap a b = time_overlap b a := by
  unfold time_overlap
  by_cases h : a.date = b.date
  · have h2 : b.date = a.date := h.symm
    rw [if_neg (not_not.mpr h), if_neg (not_not.mpr h2)]
    exact decide_eq_decide.mpr and_comm
  · have h2 : ¬ b.date = a.date := fun e => h e.symm
    rw [if_pos h, if_pos h2]

theorem FCFS_Scheduler_succ (bs : List Booking) (k : Nat) (acc : List Nat) :
    FCFS_Scheduler bs (k + 1) acc = FCFS_step (FCFS_Scheduler bs k acc) k := by
  unfold FCFS_Scheduler
  rw [List.range_succ, List.foldl_append]
  rfl

theorem Priority_Scheduler_succ (bs : List Booking) (k : Nat) (acc : List Nat) :
    Priority_Scheduler bs (k + 1) acc = Priority_step (Priority_Scheduler bs k acc) k := by
  unfold Priority_Scheduler
  rw [List.range_succ, List.foldl_append]
  rfl

/-- Every iteration of the FCFS loop rewrites at most the cell `i`, and there only the
status and the slot. -/
theorem FCFS_step_shape (st : SchedState) (i : Nat) :
    ∃ b1 : Booking, (FCFS_step st i).bookings = st.bookings.set i b1 ∧
      b1.frame = (nth st.bookings i).frame := by
  unfold FCFS_step
  by_cases hp : (nth st.bookings i).status ≠ STATUS_PENDING
  · rw [if_pos hp]
    exact ⟨nth st.bookings i, (set_nth_self _ _).symm, rfl⟩
  · rw [if_neg hp]
    by_cases hi : i < st.bookings.length
    · by_cases h1 : (nth st.bookings i).type ≠ "*" ∧ (nth st.bookings i).parking_slot = -1
      · simp only [if_pos h1, nth_set_self _ _ _ hi, List.set_set]
        split_ifs
        · exact ⟨_, rfl, rfl⟩
        · exact ⟨_, rfl, rfl⟩
        · exact ⟨_, rfl, rfl⟩
      · simp only [if_neg h1]
        split_ifs
        · exact ⟨_, rfl, rfl⟩
        · exact ⟨_, rfl, rfl⟩
    · have hs : ∀ x : Booking, st.bookings.set i x = st.bookings := by
        intro x
        exact List.set_eq_of_length_le (by omega)
      refine ⟨default, ?_, by rw [nth_of_le _ _ (by omega)]⟩
      simp only [hs]
      split_ifs <;> exact hs _

theorem FCFS_step_length (st : SchedState) (i : Nat) :
    (FCFS_step st i).bookings.length = st.bookings.length := by
  obtain ⟨b1, h, _⟩ := FCFS_step_shape st i
  rw [h, List.length_set]

theorem FCFS_step_other (st : SchedState) (i j : Nat) (h : i ≠ j) :
    nth (FCFS_step st i).bookings j = nth st.bookings j := by
  obtain ⟨b1, h1, _⟩ := FCFS_step_shape st i
  rw [h1, nth_set_ne _ _ _ _ h]

theorem FCFS_step_frame (st : SchedState) (i j : Nat) :
    (nth (FCFS_step st i).bookings j).frame = (nth st.bookings j).frame := by
  obtain ⟨b1, h1, h2⟩ := FCFS_step_shape st i
  rw [h1, nth_set]
  split_ifs with h
  · rw [h2, h.1]
  · rfl

theorem getD_set_false (a : List Bool) (k p : Nat) :
    (a.set k false).getD p false = if k = p then false else a.getD p false := by
  rw [List.getD_eq_getElem?_getD, List.getD_eq_getElem?_getD, List.getElem?_set]
  by_cases h : k = p
  · subst h
    by_cases h2 : k < a.length
    · simp [h2]
    · simp [h2]
  · simp [h]

theorem mark_slot_getD (item : Booking) (bs : List Booking) (a : List Bool) (idx p : Nat) :
    (mark_slot item bs a idx).getD p false =
      if time_overlap item (nth bs idx) = true ∧ 0 ≤ (nth bs idx).parking_slot ∧
          (nth bs idx).parking_slot < (MAX_SLOTS : Int) ∧
          (nth bs idx).parking_slot.toNat = p then false
      else a.getD p false := by
  unfold mark_slot
  by_cases h1 : time_overlap item (nth bs idx) = true
  · by_cases h2 : 0 ≤ (nth bs idx).parking_slot ∧ (nth bs idx).parking_slot < (MAX_SLOTS : Int)
    · rw [if_pos h1, if_pos h2, getD_set_false]
      by_cases h3 : (nth bs idx).parking_slot.toNat = p
      · rw [if_pos h3, if_pos ⟨h1, h2.1, h2.2, h3⟩]
      · rw [if_neg h3, if_neg (fun h => h3 h.2.2.2)]
    · rw [if_pos h1, if_neg h2, if_neg (fun h => h2 ⟨h.2.1, h.2.2.1⟩)]
  · rw [if_neg h1, if_neg (fun h => h1 h.1)]

theorem mark_foldl_true (item : Booking) (bs : List Booking) (p : Nat) :
    ∀ (acc : List Nat) (a : List Bool),
      (acc.foldl (mark_slot item bs) a).getD p false = true →
      a.getD p false = true ∧
        ∀ idx ∈ acc, time_overlap item (nth bs idx) = true →
          0 ≤ (nth bs idx).parking_slot → (nth bs idx).parking_slot < (MAX_SLOTS : Int) →
          (nth bs idx).parking_slot.toNat ≠ p := by
  intro acc
  induction acc with
  | nil =>
    intro a h
    exact ⟨h, fun idx hidx => absurd hidx (List.not_mem_nil idx)⟩
  | cons x xs ih =>
    intro a h
    rw [List.foldl_cons] at h
    obtain ⟨h1, h2⟩ := ih _ h
    rw [mark_slot_getD] at h1
    by_cases hc : time_overlap item (nth bs x) = true ∧ 0 ≤ (nth bs x).parking_slot ∧
          (nth bs x).parking_slot < (MAX_SLOTS : Int) ∧ (nth bs x).parking_slot.toNat = p
    · rw [if_pos hc] at h1
      exact absurd h1 (by decide)
    · rw [if_neg hc] at h1
      refine ⟨h1, ?_⟩
      intro idx hidx ho hl hu
      rcases List.mem_cons.mp hidx with e | e
      · subst e
        exact fun hp => hc ⟨ho, hl, hu, hp⟩
      · exact h2 idx e ho hl hu

/-- A slot returned by `check_parking_conflict` is in range and still marked free. -/
theorem check_parking_conflict_avail (item : Booking) (bs : List Booking) (acc : List Nat)
    (h : check_parking_conflict item bs acc ≠ -1) :
    0 ≤ check_parking_conflict item bs acc ∧
      check_parking_conflict item bs acc < (MAX_SLOTS : Int) ∧
      (available_slots item bs acc).getD (check_parking_conflict item bs acc).toNat false
        = true := by
  unfold check_parking_conflict at h ⊢
  simp only at h ⊢
  by_cases hc : 0 ≤ item.parking_slot ∧ item.parking_slot < (MAX_SLOTS : Int) ∧
      (available_slots item bs acc).getD item.parking_slot.toNat false = true
  · rw [if_pos hc]
    exact hc
  · rw [if_neg hc] at h ⊢
    cases hf : (List.range MAX_SLOTS).find? (fun j => (available_slots item bs acc).getD j false) with
    | none => rw [hf] at h; exact absurd rfl h
    | some j =>
      simp only
      have hj : j ∈ List.range MAX_SLOTS := List.mem_of_find?_eq_some hf
      have hp := List.find?_some hf
      rw [List.mem_range] at hj
      refine ⟨by simp, by simpa using hj, ?_⟩
      simpa using hp

/-- No accepted booking that overlaps the candidate holds the slot that
`check_parking_conflict` returns. -/
theorem check_parking_conflict_free (item : Booking) (bs : List Booking) (acc : List Nat)
    (h : check_parking_conflict item bs acc ≠ -1) (idx : Nat) (hidx : idx ∈ acc)
    (ho : time_overlap item (nth bs idx) = true) :
    (nth bs idx).parking_slot ≠ check_parking_conflict item bs acc := by
  obtain ⟨h0, h3, ha⟩ := check_parking_conflict_avail item bs acc h
  intro he
  unfold available_slots at ha
  have := (mark_foldl_true item bs _ acc _ ha).2 idx hidx ho (by rw [he]; exact h0)
    (by rw [he]; exact h3)
  exact this (by rw [he])

theorem available_slots_congr (item item1 : Booking) (bs bs1 : List Booking) (acc : List Nat)
    (hi : item.frame = item1.frame) (hb : ∀ idx ∈ acc, nth bs idx = nth bs1 idx) :
    available_slots item bs acc = available_slots item1 bs1 acc := by
  unfold available_slots
  apply List.foldl_ext
  intro a idx hidx
  unfold mark_slot
  rw [hb idx hidx, time_overlap_frame item (nth bs1 idx) item1 (nth bs1 idx) hi rfl]

/-- A candidate that already holds a slot still marked free keeps it. -/
theorem check_parking_conflict_keep (item : Booking) (bs : List Booking) (acc : List Nat)
    (h0 : 0 ≤ item.parking_slot) (h3 : item.parking_slot < (MAX_SLOTS : Int))
    (ha : (available_slots item bs acc).getD item.parking_slot.toNat false = true) :
    check_parking_conflict item bs acc = item.parking_slot := by
  unfold check_parking_conflict
  simp only
  rw [if_pos ⟨h0, h3, ha⟩]

theorem usage_foldl_eq (item : Booking) (bs : List Booking) (e : String) :
    ∀ (acc : List Nat) (a : Nat),
      acc.foldl (usage_step item bs e) a =
        a + (acc.map (fun idx => usage_step item bs e 0 idx)).sum := by
  intro acc
  induction acc with
  | nil => intro a; simp
  | cons x xs ih =>
    intro a
    rw [List.foldl_cons, ih, List.map_cons, List.sum_cons]
    have : usage_step item bs e a x = a + usage_step item bs e 0 x := by
      unfold usage_step
      split_ifs <;> simp
    rw [this]
    omega

theorem card_le_sum_map (g : Nat → Nat) :
    ∀ (acc : List Nat) (S : Finset Nat), (∀ j ∈ S, j ∈ acc ∧ 1 ≤ g j) →
      S.card ≤ (acc.map g).sum := by
  intro acc
  induction acc with
  | nil =>
    intro S h
    have : S = ∅ := by
      apply Finset.eq_empty_of_forall_not_mem
      intro j hj
      exact absurd (h j hj).1 (List.not_mem_nil j)
    simp [this]
  | cons x xs ih =>
    intro S h
    rw [List.map_cons, List.sum_cons]
    by_cases hx : x ∈ S
    · have h1 : (S.erase x).card ≤ (xs.map g).sum := by
        apply ih
        intro j hj
        have hj1 := Finset.mem_erase.mp hj
        have hj2 := h j hj1.2
        rcases List.mem_cons.mp hj2.1 with e | e
        · exact absurd e hj1.1
        · exact ⟨e, hj2.2⟩
      have h2 : (S.erase x).card + 1 = S.card := Finset.card_erase_add_one hx
      have h3 := (h x hx).2
      omega
    · have h1 : S.card ≤ (xs.map g).sum := by
        apply ih
        intro j hj
        have hj2 := h j hj
        rcases List.mem_cons.mp hj2.1 with e | e
        · exact absurd (e ▸ hj) hx
        · exact ⟨e, hj2.2⟩
      omega

theorem name_usage_pos (b : Booking) (e : String) (h : e ∈ b.essentials) :
    1 ≤ name_usage b e := by
  unfold name_usage
  apply List.length_pos_of_mem (a := e)
  rw [List.mem_filter]
  exact ⟨h, by simp⟩

/-- Every set of accepted bookings that overlap the candidate and request the name
contributes at least its size to `total_usage`. -/
theorem card_le_total_usage (item : Booking) (bs : List Booking) (acc : List Nat)
    (e : String) (S : Finset Nat)
    (h : ∀ j ∈ S, j ∈ acc ∧ time_overlap item (nth bs j) = true ∧ e ∈ (nth bs j).essentials) :
    S.card ≤ total_usage item bs acc e := by
  unfold total_usage
  rw [usage_foldl_eq, Nat.zero_add]
  apply card_le_sum_map
  intro j hj
  obtain ⟨h1, h2, h3⟩ := h j hj
  refine ⟨h1, ?_⟩
  unfold usage_step
  rw [if_neg (by rw [h2]; decide), Nat.zero_add]
  exact name_usage_pos _ _ h3

theorem total_usage_congr (item item1 : Booking) (bs bs1 : List Booking) (acc : List Nat)
    (e : String) (hi : item.frame = item1.frame)
    (hb : ∀ idx, (nth bs idx).frame = (nth bs1 idx).frame) :
    total_usage item bs acc e = total_usage item1 bs1 acc e := by
  unfold total_usage
  apply List.foldl_ext
  intro a idx _
  unfold usage_step name_usage
  rw [time_overlap_frame item (nth bs idx) item1 (nth bs1 idx) hi (hb idx),
    frame_essentials _ _ (hb idx)]

theorem check_essential_conflict_congr (item item1 : Booking) (bs bs1 : List Booking)
    (acc : List Nat) (hi : item.frame = item1.frame)
    (hb : ∀ idx, (nth bs idx).frame = (nth bs1 idx).frame) :
    check_essential_conflict item bs acc = check_essential_conflict item1 bs1 acc := by
  unfold check_essential_conflict Booking.essential_count
  rw [frame_essentials _ _ hi]
  have : (fun e => decide (MAX_RESOURCES ≤ total_usage item bs acc e)) =
      (fun e => decide (MAX_RESOURCES ≤ total_usage item1 bs1 acc e)) := by
    funext e
    rw [total_usage_congr item item1 bs bs1 acc e hi hb]
  rw [this]

/-- When `check_essential_conflict` reports no conflict, every requested name is
recognized and used by fewer than `MAX_RESOURCES` overlapping accepted entries. -/
theorem check_essential_conflict_ok (item : Booking) (bs : List Booking) (acc : List Nat)
    (h : check_essential_conflict item bs acc ≠ -1) (e : String) (he : e ∈ item.essentials) :
    get_pair_essential e ≠ none ∧ total_usage item bs acc e < MAX_RESOURCES := by
  unfold check_essential_conflict Booking.essential_count at h
  have hpos : 0 < item.essentials.length := List.length_pos_of_mem he
  rw [if_pos hpos] at h
  by_cases h1 : item.essentials.any (fun e => (get_pair_essential e).isNone) = true
  · rw [if_pos h1] at h
    exact absurd rfl h
  · rw [if_neg h1] at h
    by_cases h2 : item.essentials.any
        (fun e => decide (MAX_RESOURCES ≤ total_usage item bs acc e)) = true
    · rw [if_pos h2] at h
      exact absurd rfl h
    · constructor
      · intro hn
        apply h1
        rw [List.any_eq_true]
        exact ⟨e, he, by rw [hn]; rfl⟩
      · by_contra hlt
        apply h2
        rw [List.any_eq_true]
        exact ⟨e, he, by simpa using hlt⟩

/-- A candidate with an unrecognized essential always has an essential conflict. -/
theorem check_essential_conflict_unrecognized (item : Booking) (bs : List Booking)
    (acc : List Nat) (e : String) (he : e ∈ item.essentials)
    (hn : get_pair_essential e = none) : check_essential_conflict item bs acc = -1 := by
  by_contra h
  exact (check_essential_conflict_ok item bs acc h e he).1 hn

theorem check_essential_conflict_values (item : Booking) (bs : List Booking) (acc : List Nat) :
    check_essential_conflict item bs acc = -1 ∨ check_essential_conflict item bs acc = 0 := by
  unfold check_essential_conflict
  split_ifs <;> simp

theorem set_frame (bs : List Booking) (i : Nat) (b1 : Booking)
    (h : b1.frame = (nth bs i).frame) (idx : Nat) :
    (nth (bs.set i b1) idx).frame = (nth bs idx).frame := by
  rw [nth_set]
  split_ifs with hc
  · rw [h, hc.1]
  · rfl

theorem has_time_conflict_false_essential (item : Booking) (bs : List Booking)
    (acc : List Nat) (h : has_time_conflict item bs acc = false) :
    check_essential_conflict item bs acc ≠ -1 := by
  unfold has_time_conflict at h
  intro he
  by_cases ht : item.type = "*"
  · rw [if_pos ht, he] at h
    exact absurd h (by decide)
  · rw [if_neg ht, he] at h
    simp at h

theorem has_time_conflict_false_parking (item : Booking) (bs : List Booking)
    (acc : List Nat) (ht : item.type ≠ "*") (h : has_time_conflict item bs acc = false) :
    check_parking_conflict item bs acc ≠ -1 := by
  unfold has_time_conflict at h
  intro he
  rw [if_neg ht, he] at h
  simp at h

/-- Assigning the slot that `check_parking_conflict` found does not change the verdict
of `has_time_conflict`, provided the candidate is not itself in the accepted sequence. -/
theorem has_time_conflict_assigned (b : Booking) (bs : List Booking) (acc : List Nat)
    (i : Nat) (hb : b = nth bs i) (hi : i ∉ acc)
    (hp : check_parking_conflict b bs acc ≠ -1) :
    has_time_conflict { b with parking_slot := check_parking_conflict b bs acc }
        (bs.set i { b with parking_slot := check_parking_conflict b bs acc }) acc
      = has_time_conflict b bs acc := by
  obtain ⟨h0, h3, ha⟩ := check_parking_conflict_avail b bs acc hp
  have hfr : ({ b with parking_slot := check_parking_conflict b bs acc } : Booking).frame
      = b.frame := rfl
  have hav : available_slots { b with parking_slot := check_parking_conflict b bs acc }
      (bs.set i { b with parking_slot := check_parking_conflict b bs acc }) acc
      = available_slots b bs acc := by
    apply available_slots_congr _ _ _ _ _ hfr
    intro idx hidx
    exact nth_set_ne _ _ _ _ (fun e => hi (e ▸ hidx))
  have hcp : check_parking_conflict { b with parking_slot := check_parking_conflict b bs acc }
      (bs.set i { b with parking_slot := check_parking_conflict b bs acc }) acc
      = check_parking_conflict b bs acc := by
    apply check_parking_conflict_keep _ _ _ h0 h3
    rw [hav]
    exact ha
  have hce : check_essential_conflict { b with parking_slot := check_parking_conflict b bs acc }
      (bs.set i { b with parking_slot := check_parking_conflict b bs acc }) acc
      = check_essential_conflict b bs acc := by
    apply check_essential_conflict_congr _ _ _ _ _ hfr
    intro idx
    apply set_frame
    rw [hfr, hb]
  unfold has_time_conflict
  rw [hcp, hce]

/-- The outcome of one FCFS iteration on a Pending booking: either it is Accepted and
appended, or it is Rejected with its slot cleared and the sequence is unchanged. -/
theorem FCFS_step_outcome (st : SchedState) (i : Nat) (hi : i < st.bookings.length)
    (hp : (nth st.bookings i).status = STATUS_PENDING) :
    ((nth (FCFS_step st i).bookings i).status = STATUS_ACCEPTED ∧
        (FCFS_step st i).acceptList = st.acceptList ++ [i]) ∨
      ((nth (FCFS_step st i).bookings i).status = STATUS_REJECTED ∧
        (nth (FCFS_step st i).bookings i).parking_slot = -1 ∧
        (FCFS_step st i).acceptList = st.acceptList) := by
  unfold FCFS_step
  rw [if_neg (not_not.mpr hp)]
  by_cases h1 : (nth st.bookings i).type ≠ "*" ∧ (nth st.bookings i).parking_slot = -1
  · simp only [if_pos h1, nth_set_self _ _ _ hi, List.set_set]
    split_ifs
    · right; simp [nth_set_self _ _ _ hi, cancelBooking]
    · left; simp [nth_set_self _ _ _ hi]
    · right; simp [nth_set_self _ _ _ hi, cancelBooking]
  · simp only [if_neg h1]
    split_ifs
    · left; simp [nth_set_self _ _ _ hi]
    · right; simp [nth_set_self _ _ _ hi, cancelBooking]

theorem FCFS_step_acceptList (st : SchedState) (i : Nat) :
    (FCFS_step st i).acceptList = st.acceptList ∨
      (FCFS_step st i).acceptList = st.acceptList ++ [i] := by
  unfold FCFS_step
  by_cases hp : (nth st.bookings i).status ≠ STATUS_PENDING
  · rw [if_pos hp]
    exact Or.inl rfl
  · rw [if_neg hp]
    dsimp only
    split_ifs
    · exact Or.inl rfl
    · exact Or.inr rfl
    · exact Or.inl rfl
    · exact Or.inr rfl
    · exact Or.inl rfl

/-- A Pending booking that the FCFS iteration accepts had no essential conflict. -/
theorem FCFS_step_accept_essential (st : SchedState) (i : Nat) (hi : i < st.bookings.length)
    (hp : (nth st.bookings i).status = STATUS_PENDING)
    (ha : (nth (FCFS_step st i).bookings i).status = STATUS_ACCEPTED) :
    check_essential_conflict (nth st.bookings i) st.bookings st.acceptList ≠ -1 := by
  unfold FCFS_step at ha
  rw [if_neg (not_not.mpr hp)] at ha
  by_cases h1 : (nth st.bookings i).type ≠ "*" ∧ (nth st.bookings i).parking_slot = -1
  · simp only [if_pos h1, nth_set_self _ _ _ hi, List.set_set] at ha
    split_ifs at ha with h2 h3
    · simp [nth_set_self _ _ _ hi, cancelBooking, STATUS_REJECTED, STATUS_ACCEPTED] at ha
    · have h4 := has_time_conflict_false_essential _ _ _ h3
      have h5 := check_essential_conflict_congr
        { nth st.bookings i with
          parking_slot := check_parking_conflict (nth st.bookings i) st.bookings st.acceptList }
        (nth st.bookings i)
        (st.bookings.set i { nth st.bookings i with
          parking_slot := check_parking_conflict (nth st.bookings i) st.bookings st.acceptList })
        st.bookings st.acceptList rfl (set_frame _ _ _ rfl)
      rw [h5] at h4
      exact h4
    · simp [nth_set_self _ _ _ hi, cancelBooking, STATUS_REJECTED, STATUS_ACCEPTED] at ha
  · simp only [if_neg h1] at ha
    split_ifs at ha with h3
    · exact has_time_conflict_false_essential _ _ _ h3
    · simp [nth_set_self _ _ _ hi, cancelBooking, STATUS_REJECTED, STATUS_ACCEPTED] at ha

/-- The FCFS iteration on a Pending booking with unassigned slot accepts it exactly when
`has_time_conflict` is false on it, and then a booking that needs a slot holds the one
`check_parking_conflict` returned. -/
theorem FCFS_step_unassigned (st : SchedState) (i : Nat) (hi : i < st.bookings.length)
    (hp : (nth st.bookings i).status = STATUS_PENDING)
    (hs : (nth st.bookings i).parking_slot = -1) (hn : i ∉ st.acceptList) :
    ((nth (FCFS_step st i).bookings i).status = STATUS_ACCEPTED ↔
        has_time_conflict (nth st.bookings i) st.bookings st.acceptList = false) ∧
      ((nth (FCFS_step st i).bookings i).status = STATUS_ACCEPTED →
        (nth st.bookings i).type ≠ "*" →
        (nth (FCFS_step st i).bookings i).parking_slot =
          check_parking_conflict (nth st.bookings i) st.bookings st.acceptList) := by
  unfold FCFS_step
  rw [if_neg (not_not.mpr hp)]
  by_cases h1 : (nth st.bookings i).type ≠ "*" ∧ (nth st.bookings i).parking_slot = -1
  · simp only [if_pos h1, nth_set_self _ _ _ hi, List.set_set]
    by_cases h2 : check_parking_conflict (nth st.bookings i) st.bookings st.acceptList = -1
    · rw [if_pos ⟨h1.1, h2⟩]
      have hc : has_time_conflict (nth st.bookings i) st.bookings st.acceptList = true := by
        unfold has_time_conflict
        rw [if_neg h1.1, h2]
        simp
      simp [nth_set_self _ _ _ hi, cancelBooking, STATUS_REJECTED, STATUS_ACCEPTED, hc]
    · rw [if_neg (fun h => h2 h.2)]
      rw [has_time_conflict_assigned (nth st.bookings i) st.bookings st.acceptList i rfl hn h2]
      by_cases h3 : has_time_conflict (nth st.bookings i) st.bookings st.acceptList = false
      · rw [if_pos h3]
        simp [nth_set_self _ _ _ hi, h3]
      · rw [if_neg h3]
        simp [nth_set_self _ _ _ hi, cancelBooking, STATUS_REJECTED, STATUS_ACCEPTED, h3]
  · simp only [if_neg h1]
    have ht : (nth st.bookings i).type = "*" := by
      by_contra hc
      exact h1 ⟨hc, hs⟩
    by_cases h3 : has_time_conflict (nth st.bookings i) st.bookings st.acceptList = false
    · rw [if_pos h3]
      simp [nth_set_self _ _ _ hi, h3, ht]
    · rw [if_neg h3]
      simp [nth_set_self _ _ _ hi, cancelBooking, STATUS_REJECTED, STATUS_ACCEPTED, h3]

theorem FCFS_run_length (bs : List Booking) (k : Nat) :
    (FCFS_Scheduler bs k []).bookings.length = bs.length := by
  induction k with
  | zero => rfl
  | succ k ih => rw [FCFS_Scheduler_succ, FCFS_step_length, ih]

theorem FCFS_run_untouched (bs : List Booking) (k j : Nat) (h : k ≤ j) :
    nth (FCFS_Scheduler bs k []).bookings j = nth bs j := by
  induction k with
  | zero => rfl
  | succ k ih =>
    rw [FCFS_Scheduler_succ, FCFS_step_other _ _ _ (by omega), ih (by omega)]

theorem FCFS_run_frame (bs : List Booking) (k j : Nat) :
    (nth (FCFS_Scheduler bs k []).bookings j).frame = (nth bs j).frame := by
  induction k with
  | zero => rfl
  | succ k ih => rw [FCFS_Scheduler_succ, FCFS_step_frame, ih]

/-- Once the FCFS loop has passed index `j`, the cell `j` is never written again. -/
theorem FCFS_run_settled (bs : List Booking) (j k : Nat) (h : j < k) :
    nth (FCFS_Scheduler bs k []).bookings j = nth (FCFS_Scheduler bs (j + 1) []).bookings j := by
  induction k with
  | zero => omega
  | succ k ih =>
    by_cases hk : j = k
    · subst hk; rfl
    · rw [FCFS_Scheduler_succ, FCFS_step_other _ _ _ (fun e => hk e.symm), ih (by omega)]

theorem FCFS_run_acc_lt (bs : List Booking) (k : Nat) :
    ∀ j ∈ (FCFS_Scheduler bs k []).acceptList, j < k := by
  induction k with
  | zero => intro j hj; exact absurd hj (List.not_mem_nil j)
  | succ k ih =>
    intro j hj
    rw [FCFS_Scheduler_succ] at hj
    rcases FCFS_step_acceptList (FCFS_Scheduler bs k []) k with e | e
    · rw [e] at hj
      have := ih j hj
      omega
    · rw [e, List.mem_append] at hj
      rcases hj with hj | hj
      · have := ih j hj
        omega
      · rw [List.mem_singleton] at hj
        omega

theorem FCFS_run_pending (bs : List Booking) (hP : ∀ b ∈ bs, b.status = STATUS_PENDING)
    (k : Nat) (hk : k < bs.length) :
    (nth (FCFS_Scheduler bs k []).bookings k).status = STATUS_PENDING := by
  rw [FCFS_run_untouched bs k k (le_refl k)]
  exact hP _ (nth_mem bs k hk)

/-- The accepted sequence after `k` iterations lists, in increasing order, the indices
below `k` that are Accepted at the end of the run. -/
theorem FCFS_run_acc_eq (bs : List Booking) (hP : ∀ b ∈ bs, b.status = STATUS_PENDING)
    (k : Nat) (hk : k ≤ bs.length) :
    (FCFS_Scheduler bs k []).acceptList =
      (List.range k).filter (fun j =>
        decide ((nth (FCFS_Scheduler bs bs.length []).bookings j).status = STATUS_ACCEPTED)) := by
  induction k with
  | zero => rfl
  | succ k ih =>
    have hlen : k < (FCFS_Scheduler bs k []).bookings.length := by
      rw [FCFS_run_length]; omega
    have hpend := FCFS_run_pending bs hP k (by omega)
    have hfin : nth (FCFS_Scheduler bs bs.length []).bookings k =
        nth (FCFS_step (FCFS_Scheduler bs k []) k).bookings k := by
      rw [FCFS_run_settled bs k bs.length (by omega), FCFS_Scheduler_succ]
    rw [List.range_succ, List.filter_append, ← ih (by omega), FCFS_Scheduler_succ]
    rcases FCFS_step_outcome _ k hlen hpend with ⟨h1, h2⟩ | ⟨h1, _, h2⟩
    · rw [h2]
      simp [hfin, h1]
    · rw [h2]
      simp [hfin, h1, STATUS_REJECTED, STATUS_ACCEPTED]

/-- An index Accepted at the end of the FCFS run is in the accepted sequence of every
later iteration. -/
theorem FCFS_run_mem_acc (bs : List Booking) (hP : ∀ b ∈ bs, b.status = STATUS_PENDING)
    (j k : Nat) (hj : j < k) (hk : k ≤ bs.length)
    (ha : (nth (FCFS_Scheduler bs bs.length []).bookings j).status = STATUS_ACCEPTED) :
    j ∈ (FCFS_Scheduler bs k []).acceptList := by
  rw [FCFS_run_acc_eq bs hP k hk, List.mem_filter, List.mem_range]
  exact ⟨hj, by simpa using ha⟩

theorem accepted_lt_length (bs : List Booking) (j : Nat)
    (ha : (nth bs j).status = STATUS_ACCEPTED) : j < bs.length := by
  by_contra h
  rw [nth_of_le bs j (by omega)] at ha
  exact absurd ha (by decide)

theorem FCFS_final_cell (bs : List Booking) (j : Nat) (hj : j < bs.length) :
    nth (FCFS_Scheduler bs bs.length []).bookings j =
      nth (FCFS_step (FCFS_Scheduler bs j []) j).bookings j := by
  rw [FCFS_run_settled bs j bs.length hj, FCFS_Scheduler_succ]

theorem FCFS_overlap_transport (bs : List Booking) (k m i j : Nat) :
    time_overlap (nth (FCFS_Scheduler bs k []).bookings i) (nth (FCFS_Scheduler bs k []).bookings j)
      = time_overlap (nth (FCFS_Scheduler bs m []).bookings i)
          (nth (FCFS_Scheduler bs m []).bookings j) := by
  apply time_overlap_frame
  · rw [FCFS_run_frame, FCFS_run_frame]
  · rw [FCFS_run_frame, FCFS_run_frame]

/-- A booking that needs a slot and ends Accepted holds the slot that
`check_parking_conflict` returned when it was processed, and that slot is not `-1`. -/
theorem FCFS_final_slot (bs : List Booking)
    (hP : ∀ b ∈ bs, b.status = STATUS_PENDING ∧ b.parking_slot = -1) (j : Nat)
    (ha : (nth (FCFS_Scheduler bs bs.length []).bookings j).status = STATUS_ACCEPTED)
    (ht : (nth (FCFS_Scheduler bs bs.length []).bookings j).type ≠ "*") :
    (nth (FCFS_Scheduler bs bs.length []).bookings j).parking_slot =
        check_parking_conflict (nth (FCFS_Scheduler bs j []).bookings j)
          (FCFS_Scheduler bs j []).bookings (FCFS_Scheduler bs j []).acceptList ∧
      check_parking_conflict (nth (FCFS_Scheduler bs j []).bookings j)
          (FCFS_Scheduler bs j []).bookings (FCFS_Scheduler bs j []).acceptList ≠ -1 := by
  have hj : j < bs.length := by
    have := accepted_lt_length _ j ha
    rwa [FCFS_run_length] at this
  have hlen : j < (FCFS_Scheduler bs j []).bookings.length := by
    rw [FCFS_run_length]; exact hj
  have hpend := FCFS_run_pending bs (fun b hb => (hP b hb).1) j hj
  have hslot : (nth (FCFS_Scheduler bs j []).bookings j).parking_slot = -1 := by
    rw [FCFS_run_untouched bs j j (le_refl j)]
    exact (hP _ (nth_mem bs j hj)).2
  have hnot : j ∉ (FCFS_Scheduler bs j []).acceptList := fun h =>
    absurd (FCFS_run_acc_lt bs j j h) (lt_irrefl j)
  have htype : (nth (FCFS_Scheduler bs j []).bookings j).type ≠ "*" := by
    rw [frame_type _ _ ((FCFS_run_frame bs j j).trans (FCFS_run_frame bs bs.length j).symm)]
    exact ht
  obtain ⟨h1, h2⟩ := FCFS_step_unassigned _ j hlen hpend hslot hnot
  rw [FCFS_final_cell bs j hj] at ha ⊢
  exact ⟨h2 ha htype, has_time_conflict_false_parking _ _ _ htype (h1.mp ha)⟩

/-- Two Accepted bookings that need a slot and overlap in time hold different slots. -/
theorem FCFS_slots_differ (bs : List Booking)
    (hP : ∀ b ∈ bs, b.status = STATUS_PENDING ∧ b.parking_slot = -1) (i j : Nat) (hij : i < j)
    (hai : (nth (FCFS_Scheduler bs bs.length []).bookings i).status = STATUS_ACCEPTED)
    (haj : (nth (FCFS_Scheduler bs bs.length []).bookings j).status = STATUS_ACCEPTED)
    (htj : (nth (FCFS_Scheduler bs bs.length []).bookings j).type ≠ "*")
    (ho : time_overlap (nth (FCFS_Scheduler bs bs.length []).bookings j)
      (nth (FCFS_Scheduler bs bs.length []).bookings i) = true) :
    (nth (FCFS_Scheduler bs bs.length []).bookings i).parking_slot ≠
      (nth (FCFS_Scheduler bs bs.length []).bookings j).parking_slot := by
  have hj : j < bs.length := by
    have := accepted_lt_length _ j haj
    rwa [FCFS_run_length] at this
  obtain ⟨h1, h2⟩ := FCFS_final_slot bs hP j haj htj
  have hmem := FCFS_run_mem_acc bs (fun b hb => (hP b hb).1) i j hij (by omega) hai
  rw [FCFS_overlap_transport bs bs.length j j i] at ho
  have h3 := check_parking_conflict_free _ _ _ h2 i hmem ho
  rw [h1]
  have h4 : nth (FCFS_Scheduler bs j []).bookings i =
      nth (FCFS_Scheduler bs bs.length []).bookings i := by
    rw [FCFS_run_settled bs i j hij, FCFS_run_settled bs i bs.length (by omega)]
  rw [h4] at h3
  exact h3

/-- C1: for a batch of Pending bookings with unassigned slot, processed by
`FCFS_Scheduler` from an empty accepted sequence, the accepted sequence met by booking
`i` is exactly the bookings accepted among `0..i-1` (in their final state), booking `i`
is still as submitted at that moment, it ends Accepted iff `has_time_conflict` is false
on it against that sequence, and it ends Rejected iff `has_time_conflict` is true. -/
theorem FCFS_accepts_iff_no_conflict (bs : List Booking)
    (hP : ∀ b ∈ bs, b.status = STATUS_PENDING ∧ b.parking_slot = -1)
    (i : Nat) (hi : i < bs.length) :
    (FCFS_Scheduler bs i []).acceptList =
        (List.range i).filter (fun j =>
          decide ((nth (FCFS_Scheduler bs bs.length []).bookings j).status = STATUS_ACCEPTED)) ∧
      (∀ j, j < i → nth (FCFS_Scheduler bs i []).bookings j =
        nth (FCFS_Scheduler bs bs.length []).bookings j) ∧
      nth (FCFS_Scheduler bs i []).bookings i = nth bs i ∧
      ((nth (FCFS_Scheduler bs bs.length []).bookings i).status = STATUS_ACCEPTED ↔
        has_time_conflict (nth bs i) (FCFS_Scheduler bs i []).bookings
          (FCFS_Scheduler bs i []).acceptList = false) ∧
      ((nth (FCFS_Scheduler bs bs.length []).bookings i).status = STATUS_REJECTED ↔
        has_time_conflict (nth bs i) (FCFS_Scheduler bs i []).bookings
          (FCFS_Scheduler bs i []).acceptList = true) := by
  have hPs : ∀ b ∈ bs, b.status = STATUS_PENDING := fun b hb => (hP b hb).1
  have hlen : i < (FCFS_Scheduler bs i []).bookings.length := by
    rw [FCFS_run_length]; exact hi
  have hun := FCFS_run_untouched bs i i (le_refl i)
  have hpend := FCFS_run_pending bs hPs i hi
  have hslot : (nth (FCFS_Scheduler bs i []).bookings i).parking_slot = -1 := by
    rw [hun]; exact (hP _ (nth_mem bs i hi)).2
  have hnot : i ∉ (FCFS_Scheduler bs i []).acceptList := fun h =>
    absurd (FCFS_run_acc_lt bs i i h) (lt_irrefl i)
  have hiff := (FCFS_step_unassigned _ i hlen hpend hslot hnot).1
  rw [← FCFS_final_cell bs i hi, hun] at hiff
  refine ⟨FCFS_run_acc_eq bs hPs i (by omega), ?_, hun, hiff, ?_⟩
  · intro j hj
    rw [FCFS_run_settled bs j i hj, FCFS_run_settled bs j bs.length (by omega)]
  · have hout := FCFS_step_outcome _ i hlen hpend
    rw [← FCFS_final_cell bs i hi] at hout
    constructor
    · intro hr
      cases hc : has_time_conflict (nth bs i) (FCFS_Scheduler bs i []).bookings
          (FCFS_Scheduler bs i []).acceptList with
      | true => rfl
      | false =>
        have := hiff.mpr hc
        rw [hr] at this
        exact absurd this (by decide)
    · intro hc
      rcases hout with ⟨h1, _⟩ | ⟨h1, _, _⟩
      · have := hiff.mp h1
        rw [hc] at this
        exact absurd this (by decide)
      · exact h1

theorem FCFS_accepts_iff_no_conflict_witness :
    ((∀ b ∈ fourParkings, b.status = STATUS_PENDING ∧ b.parking_slot = -1) ∧
      3 < fourParkings.length) ∧
      ((nth (FCFS_Scheduler fourParkings fourParkings.length []).bookings 3).status
          = STATUS_REJECTED ↔
        has_time_conflict (nth fourParkings 3) (FCFS_Scheduler fourParkings 3 []).bookings
          (FCFS_Scheduler fourParkings 3 []).acceptList = true) :=
  ⟨by decide, (FCFS_accepts_iff_no_conflict fourParkings (by decide) 3 (by decide)).2.2.2.2⟩

/-- C2: after `FCFS_Scheduler` has run on a batch of Pending bookings with unassigned
slots, every set of Accepted bookings of a type other than `*` that pairwise overlap in
time has at most `MAX_SLOTS` (3) members. -/
theorem FCFS_slot_capacity (bs : List Booking)
    (hP : ∀ b ∈ bs, b.status = STATUS_PENDING ∧ b.parking_slot = -1) (S : Finset Nat)
    (hS : ∀ i ∈ S, (nth (FCFS_Scheduler bs bs.length []).bookings i).status = STATUS_ACCEPTED ∧
      (nth (FCFS_Scheduler bs bs.length []).bookings i).type ≠ "*")
    (hO : ∀ i ∈ S, ∀ j ∈ S, i ≠ j →
      time_overlap (nth (FCFS_Scheduler bs bs.length []).bookings i)
        (nth (FCFS_Scheduler bs bs.length []).bookings j) = true) :
    S.card ≤ MAX_SLOTS := by
  have hcard : S.card ≤ (Finset.range MAX_SLOTS).card := by
    apply Finset.card_le_card_of_injOn
      (fun i => (nth (FCFS_Scheduler bs bs.length []).bookings i).parking_slot.toNat)
    · intro i hi
      obtain ⟨h1, h2⟩ := FCFS_final_slot bs hP i (hS i hi).1 (hS i hi).2
      obtain ⟨h0, h3, _⟩ := check_parking_conflict_avail _ _ _ h2
      rw [← h1] at h0 h3
      refine Finset.mem_range.mpr ?_
      show (nth (FCFS_Scheduler bs bs.length []).bookings i).parking_slot.toNat < MAX_SLOTS
      omega
    · intro i hi j hj he
      have he1 : (nth (FCFS_Scheduler bs bs.length []).bookings i).parking_slot.toNat =
          (nth (FCFS_Scheduler bs bs.length []).bookings j).parking_slot.toNat := he
      by_contra hne
      have hi0 : 0 ≤ (nth (FCFS_Scheduler bs bs.length []).bookings i).parking_slot := by
        obtain ⟨h1, h2⟩ := FCFS_final_slot bs hP i (hS i hi).1 (hS i hi).2
        have := (check_parking_conflict_avail _ _ _ h2).1
        rwa [← h1] at this
      have hj0 : 0 ≤ (nth (FCFS_Scheduler bs bs.length []).bookings j).parking_slot := by
        obtain ⟨h1, h2⟩ := FCFS_final_slot bs hP j (hS j hj).1 (hS j hj).2
        have := (check_parking_conflict_avail _ _ _ h2).1
        rwa [← h1] at this
      have heq : (nth (FCFS_Scheduler bs bs.length []).bookings i).parking_slot =
          (nth (FCFS_Scheduler bs bs.length []).bookings j).parking_slot := by omega
      rcases Nat.lt_or_gt_of_ne hne with hlt | hgt
      · exact FCFS_slots_differ bs hP i j hlt (hS i hi).1 (hS j hj).1 (hS j hj).2
          (hO j hj i hi (fun e => hne e.symm)) heq
      · exact FCFS_slots_differ bs hP j i hgt (hS j hj).1 (hS i hi).1 (hS i hi).2
          (hO i hi j hj hne) heq.symm
  simpa using hcard

theorem FCFS_slot_capacity_witness :
    ((∀ b ∈ fourParkings, b.status = STATUS_PENDING ∧ b.parking_slot = -1) ∧
      (∀ i ∈ ({0, 1, 2} : Finset Nat),
        (nth (FCFS_Scheduler fourParkings fourParkings.length []).bookings i).status
            = STATUS_ACCEPTED ∧
          (nth (FCFS_Scheduler fourParkings fourParkings.length []).bookings i).type ≠ "*") ∧
      (∀ i ∈ ({0, 1, 2} : Finset Nat), ∀ j ∈ ({0, 1, 2} : Finset Nat), i ≠ j →
        time_overlap (nth (FCFS_Scheduler fourParkings fourParkings.length []).bookings i)
          (nth (FCFS_Scheduler fourParkings fourParkings.length []).bookings j) = true)) ∧
      ({0, 1, 2} : Finset Nat).card ≤ MAX_SLOTS :=
  ⟨by decide, FCFS_slot_capacity fourParkings (by decide) {0, 1, 2} (by decide) (by decide)⟩

/-- C4: after `FCFS_Scheduler` has run on a batch of Pending bookings, for every
essential name `n`, every set of Accepted bookings that pairwise overlap in time and
each request `n` has at most `MAX_RESOURCES` (3) members. -/
theorem FCFS_essential_capacity (bs : List Booking)
    (hP : ∀ b ∈ bs, b.status = STATUS_PENDING) (n : String) (S : Finset Nat)
    (hS : ∀ i ∈ S, (nth (FCFS_Scheduler bs bs.length []).bookings i).status = STATUS_ACCEPTED ∧
      n ∈ (nth (FCFS_Scheduler bs bs.length []).bookings i).essentials)
    (hO : ∀ i ∈ S, ∀ j ∈ S, i ≠ j →
      time_overlap (nth (FCFS_Scheduler bs bs.length []).bookings i)
        (nth (FCFS_Scheduler bs bs.length []).bookings j) = true) :
    S.card ≤ MAX_RESOURCES := by
  rcases Finset.eq_empty_or_nonempty S with he | hne
  · rw [he]; simp
  · have hm : S.max' hne ∈ S := Finset.max'_mem S hne
    have hacc := (hS _ hm).1
    have hml : S.max' hne < bs.length := by
      have := accepted_lt_length _ _ hacc
      rwa [FCFS_run_length] at this
    have hlen : S.max' hne < (FCFS_Scheduler bs (S.max' hne) []).bookings.length := by
      rw [FCFS_run_length]; exact hml
    have hpend := FCFS_run_pending bs hP _ hml
    have hacc1 := hacc
    rw [FCFS_final_cell bs _ hml] at hacc1
    have hce := FCFS_step_accept_essential _ _ hlen hpend hacc1
    have hin : n ∈ (nth (FCFS_Scheduler bs (S.max' hne) []).bookings (S.max' hne)).essentials := by
      rw [frame_essentials _ _
        ((FCFS_run_frame bs (S.max' hne) (S.max' hne)).trans
          (FCFS_run_frame bs bs.length (S.max' hne)).symm)]
      exact (hS _ hm).2
    have hlt := (check_essential_conflict_ok _ _ _ hce n hin).2
    have hle : (S.erase (S.max' hne)).card ≤
        total_usage (nth (FCFS_Scheduler bs (S.max' hne) []).bookings (S.max' hne))
          (FCFS_Scheduler bs (S.max' hne) []).bookings
          (FCFS_Scheduler bs (S.max' hne) []).acceptList n := by
      apply card_le_total_usage
      intro j hj
      obtain ⟨hj1, hj2⟩ := Finset.mem_erase.mp hj
      have hjlt : j < S.max' hne := lt_of_le_of_ne (Finset.le_max' S j hj2) hj1
      refine ⟨FCFS_run_mem_acc bs hP j _ hjlt (by omega) (hS j hj2).1, ?_, ?_⟩
      · rw [FCFS_overlap_transport bs _ bs.length]
        exact hO _ hm j hj2 (fun e => hj1 e.symm)
      · rw [frame_essentials _ _
          ((FCFS_run_frame bs (S.max' hne) j).trans (FCFS_run_frame bs bs.length j).symm)]
        exact (hS j hj2).2
    have hcard : (S.erase (S.max' hne)).card + 1 = S.card := Finset.card_erase_add_one hm
    omega

theorem FCFS_essential_capacity_witness :
    ((∀ b ∈ fourBatteries, b.status = STATUS_PENDING) ∧
      (∀ i ∈ ({0, 1, 2} : Finset Nat),
        (nth (FCFS_Scheduler fourBatteries fourBatteries.length []).bookings i).status
            = STATUS_ACCEPTED ∧
          "battery" ∈
            (nth (FCFS_Scheduler fourBatteries fourBatteries.length []).bookings i).essentials) ∧
      (∀ i ∈ ({0, 1, 2} : Finset Nat), ∀ j ∈ ({0, 1, 2} : Finset Nat), i ≠ j →
        time_overlap (nth (FCFS_Scheduler fourBatteries fourBatteries.length []).bookings i)
          (nth (FCFS_Scheduler fourBatteries fourBatteries.length []).bookings j) = true)) ∧
      ({0, 1, 2} : Finset Nat).card ≤ MAX_RESOURCES :=
  ⟨by decide,
    FCFS_essential_capacity fourBatteries (by decide) "battery" {0, 1, 2} (by decide)
      (by decide)⟩

theorem get_priority_level_le (t : String) : get_priority_level t ≤ 3 := by
  unfold get_priority_level
  split_ifs <;> decide

theorem scan_foldl_some (item : Booking) (bs : List Booking) (acc : List Nat) :
    ∀ (l : List Nat) (init : Option Nat) (j : Nat),
      l.foldl (scan_step item bs acc) init = some j →
      init = some j ∨
        (j ∈ l ∧ time_overlap item (nth bs (acc.getD j 0)) = true ∧
          get_priority_level (nth bs (acc.getD j 0)).type < get_priority_level item.type) := by
  intro l
  induction l with
  | nil => intro init j h; exact Or.inl h
  | cons x xs ih =>
    intro init j h
    rw [List.foldl_cons] at h
    rcases ih _ j h with h1 | ⟨h1, h2⟩
    · unfold scan_step at h1
      by_cases ho : time_overlap item (nth bs (acc.getD x 0)) = false
      · rw [if_pos ho] at h1
        exact Or.inl h1
      · rw [if_neg ho] at h1
        by_cases hl : get_priority_level (nth bs (acc.getD x 0)).type
            < get_priority_level item.type
        · rw [if_pos hl] at h1
          have hx : x = j := Option.some.inj h1
          subst hx
          exact Or.inr ⟨List.mem_cons_self _ _, by simpa using ho, hl⟩
        · rw [if_neg hl] at h1
          exact Or.inl h1
    · exact Or.inr ⟨List.mem_cons_of_mem _ h1, h2⟩

theorem scan_foldl_none (item : Booking) (bs : List Booking) (acc : List Nat) :
    ∀ (l : List Nat) (init : Option Nat),
      l.foldl (scan_step item bs acc) init = none ↔
      (init = none ∧ ∀ j ∈ l, ¬ (time_overlap item (nth bs (acc.getD j 0)) = true ∧
          get_priority_level (nth bs (acc.getD j 0)).type < get_priority_level item.type)) := by
  intro l
  induction l with
  | nil =>
    intro init
    simp
  | cons x xs ih =>
    intro init
    rw [List.foldl_cons, ih]
    unfold scan_step
    by_cases ho : time_overlap item (nth bs (acc.getD x 0)) = false
    · rw [if_pos ho]
      constructor
      · rintro ⟨h1, h2⟩
        refine ⟨h1, ?_⟩
        intro j hj
        rcases List.mem_cons.mp hj with e | e
        · subst e
          intro hc
          rw [ho] at hc
          exact absurd hc.1 (by decide)
        · exact h2 j e
      · rintro ⟨h1, h2⟩
        exact ⟨h1, fun j hj => h2 j (List.mem_cons_of_mem _ hj)⟩
    · rw [if_neg ho]
      by_cases hl : get_priority_level (nth bs (acc.getD x 0)).type
          < get_priority_level item.type
      · rw [if_pos hl]
        constructor
        · rintro ⟨h1, _⟩
          exact absurd h1 (by simp)
        · rintro ⟨_, h2⟩
          exact absurd ⟨by simpa using ho, hl⟩ (h2 x (List.mem_cons_self _ _))
      · rw [if_neg hl]
        constructor
        · rintro ⟨h1, h2⟩
          refine ⟨h1, ?_⟩
          intro j hj
          rcases List.mem_cons.mp hj with e | e
          · subst e
            exact fun hc => hl hc.2
          · exact h2 j e
        · rintro ⟨h1, h2⟩
          exact ⟨h1, fun j hj => h2 j (List.mem_cons_of_mem _ hj)⟩

/-- The position the backward scan returns is a position of the accepted sequence whose
booking overlaps the candidate and has strictly lower priority. -/
theorem scan_victim_some (item : Booking) (bs : List Booking) (acc : List Nat) (j : Nat)
    (h : scan_victim item bs acc = some j) :
    j < acc.length ∧ time_overlap item (nth bs (acc.getD j 0)) = true ∧
      get_priority_level (nth bs (acc.getD j 0)).type < get_priority_level item.type := by
  unfold scan_victim at h
  rcases scan_foldl_some item bs acc _ none j h with h1 | ⟨h1, h2⟩
  · exact absurd h1 (by simp)
  · rw [List.mem_reverse, List.mem_range] at h1
    exact ⟨h1, h2⟩

/-- The backward scan finds nothing exactly when no member of the accepted sequence
overlaps the candidate with strictly lower priority. -/
theorem scan_victim_none (item : Booking) (bs : List Booking) (acc : List Nat) :
    scan_victim item bs acc = none ↔
      ∀ idx ∈ acc, ¬ (time_overlap item (nth bs idx) = true ∧
        get_priority_level (nth bs idx).type < get_priority_level item.type) := by
  unfold scan_victim
  rw [scan_foldl_none]
  constructor
  · rintro ⟨_, h⟩ idx hidx
    obtain ⟨n, hn, rfl⟩ := List.getElem_of_mem hidx
    have := h n (by rw [List.mem_reverse, List.mem_range]; exact hn)
    rw [List.getD_eq_getElem _ _ hn] at this
    exact this
  · intro h
    refine ⟨rfl, ?_⟩
    intro j hj
    rw [List.mem_reverse, List.mem_range] at hj
    rw [List.getD_eq_getElem _ _ hj]
    exact h _ (List.getElem_mem hj)

/-- The victim of a preemption is never the candidate itself. -/
theorem scan_victim_ne (bs : List Booking) (acc : List Nat) (i j : Nat)
    (h : scan_victim (nth bs i) bs acc = some j) : acc.getD j 0 ≠ i := by
  intro e
  have := (scan_victim_some _ _ _ _ h).2.2
  rw [e] at this
  exact absurd this (lt_irrefl _)

/-- C6: in `Priority_Scheduler`, when processing candidate `i` turns a booking `k` that
was Accepted into Rejected, the priority level of `k` is strictly lower than that of
the candidate; an Accepted Event is left untouched by every iteration; and the levels
are Event 3, Reservation 2, Parking 1, EssentialsOnly 0. -/
theorem Priority_step_preempts_lower (st : SchedState) (i k : Nat)
    (hacc : (nth st.bookings k).status = STATUS_ACCEPTED) :
    ((nth (Priority_step st i).bookings k).status = STATUS_REJECTED →
        get_priority_level (nth st.bookings k).type
          < get_priority_level (nth st.bookings i).type) ∧
      ((nth st.bookings k).type = "Event" →
        nth (Priority_step st i).bookings k = nth st.bookings k) ∧
      (get_priority_level "Event" = 3 ∧ get_priority_level "Reservation" = 2 ∧
        get_priority_level "Parking" = 1 ∧ get_priority_level "*" = 0) := by
  have hstep : nth (Priority_step st i).bookings k = nth st.bookings k ∨
      ((nth (Priority_step st i).bookings k).status = STATUS_REJECTED ∧
        get_priority_level (nth st.bookings k).type
          < get_priority_level (nth st.bookings i).type) := by
    unfold Priority_step
    by_cases hp : (nth st.bookings i).status ≠ STATUS_PENDING
    · rw [if_pos hp]
      exact Or.inl rfl
    · rw [if_neg hp]
      have hik : i ≠ k := by
        intro e
        rw [e, hacc] at hp
        exact hp (by decide)
      by_cases hc : has_time_conflict (nth st.bookings i) st.bookings st.acceptList = false
      · rw [if_pos hc]
        dsimp only
        split_ifs
        · left
          rw [nth_set_ne _ _ _ _ hik, nth_set_ne _ _ _ _ hik]
        · left
          rw [nth_set_ne _ _ _ _ hik]
      · rw [if_neg hc]
        cases hv : scan_victim (nth st.bookings i) st.bookings st.acceptList with
        | none =>
          left
          dsimp only
          rw [nth_set_ne _ _ _ _ hik]
        | some low =>
          dsimp only
          by_cases hr : st.acceptList.getD low 0 = k ∧
              st.acceptList.getD low 0 < (st.bookings.set i
                { nth st.bookings i with
                  parking_slot := (nth st.bookings (st.acceptList.getD low 0)).parking_slot,
                  status := STATUS_ACCEPTED }).length
          · right
            rw [nth_set, if_pos hr]
            refine ⟨rfl, ?_⟩
            have := (scan_victim_some _ _ _ _ hv).2.2
            rw [hr.1] at this
            exact this
          · left
            rw [nth_set, if_neg hr, nth_set_ne _ _ _ _ hik]
  refine ⟨?_, ?_, by decide⟩
  · intro hrej
    rcases hstep with h | h
    · rw [h, hacc] at hrej
      exact absurd hrej (by decide)
    · exact h.2
  · intro hev
    rcases hstep with h | h
    · exact h
    · have h1 := h.2
      have h2 := get_priority_level_le (nth st.bookings i).type
      rw [hev] at h1
      have h3 : get_priority_level "Event" = 3 := by decide
      omega

/-- The verdict of one iteration: a Pending candidate `i` processed by one iteration of
`Priority_Scheduler` is Rejected after it iff `has_time_conflict` reports a conflict
against the current accepted sequence and no booking of that sequence both overlaps the
candidate and has strictly lower priority, and is Accepted otherwise; a candidate with
no conflict is Accepted and appended at the end of the accepted sequence. -/
theorem Priority_step_verdict (st : SchedState) (i : Nat) (hi : i < st.bookings.length)
    (hp : (nth st.bookings i).status = STATUS_PENDING) :
    ((nth (Priority_step st i).bookings i).status = STATUS_REJECTED ↔
        (has_time_conflict (nth st.bookings i) st.bookings st.acceptList = true ∧
          ∀ idx ∈ st.acceptList,
            ¬ (time_overlap (nth st.bookings i) (nth st.bookings idx) = true ∧
              get_priority_level (nth st.bookings idx).type
                < get_priority_level (nth st.bookings i).type))) ∧
      ((nth (Priority_step st i).bookings i).status = STATUS_ACCEPTED ∨
        (nth (Priority_step st i).bookings i).status = STATUS_REJECTED) ∧
      (has_time_conflict (nth st.bookings i) st.bookings st.acceptList = false →
        (nth (Priority_step st i).bookings i).status = STATUS_ACCEPTED ∧
          (Priority_step st i).acceptList = st.acceptList ++ [i]) := by
  unfold Priority_step
  rw [if_neg (not_not.mpr hp)]
  by_cases hc : has_time_conflict (nth st.bookings i) st.bookings st.acceptList = false
  · rw [if_pos hc]
    dsimp only
    have hl : i < (st.bookings.set i
        { nth st.bookings i with status := STATUS_ACCEPTED }).length := by
      rw [List.length_set]; exact hi
    split_ifs
    · simp [nth_set_self _ _ _ hl, nth_set_self _ _ _ hi, hc, STATUS_ACCEPTED, STATUS_REJECTED]
    · simp [nth_set_self _ _ _ hi, hc, STATUS_ACCEPTED, STATUS_REJECTED]
  · rw [if_neg hc]
    have hc1 : has_time_conflict (nth st.bookings i) st.bookings st.acceptList = true := by
      simpa using hc
    cases hv : scan_victim (nth st.bookings i) st.bookings st.acceptList with
    | none =>
      dsimp only
      have hno := (scan_victim_none _ _ _).mp hv
      rw [nth_set_self _ _ _ hi, hc1]
      exact ⟨⟨fun _ => ⟨rfl, hno⟩, fun _ => rfl⟩, Or.inr rfl, fun h => absurd h (by decide)⟩
    | some low =>
      dsimp only
      have hne : st.acceptList.getD low 0 ≠ i := scan_victim_ne _ _ _ _ hv
      have hsome := scan_victim_some _ _ _ _ hv
      rw [nth_set_ne _ _ _ _ hne, nth_set_self _ _ _ hi]
      rw [hc1]
      refine ⟨⟨fun h => absurd (show STATUS_ACCEPTED = STATUS_REJECTED from h) (by decide), ?_⟩,
        Or.inl rfl, fun h => absurd h (by decide)⟩
      rintro ⟨_, hall⟩
      exact absurd ⟨hsome.2.1, hsome.2.2⟩
        (hall _ (by
          rw [List.getD_eq_getElem _ _ hsome.1]
          exact List.getElem_mem hsome.1))

theorem Priority_step_preempts_lower_witness :
    (nth (Priority_Scheduler threeParkingsThenEvent 3 []).bookings 0).status = STATUS_ACCEPTED ∧
      ((nth (Priority_step (Priority_Scheduler threeParkingsThenEvent 3 []) 3).bookings 0).status
          = STATUS_REJECTED →
        get_priority_level (nth (Priority_Scheduler threeParkingsThenEvent 3 []).bookings 0).type
          < get_priority_level
              (nth (Priority_Scheduler threeParkingsThenEvent 3 []).bookings 3).type) :=
  ⟨by decide,
    (Priority_step_preempts_lower (Priority_Scheduler threeParkingsThenEvent 3 []) 3 0
      (by decide)).1⟩

theorem Priority_step_verdict_witness :
    (3 < (Priority_Scheduler fourParkings 3 []).bookings.length ∧
      (nth (Priority_Scheduler fourParkings 3 []).bookings 3).status = STATUS_PENDING) ∧
      ((nth (Priority_step (Priority_Scheduler fourParkings 3 []) 3).bookings 3).status
          = STATUS_REJECTED ↔
        (has_time_conflict (nth (Priority_Scheduler fourParkings 3 []).bookings 3)
            (Priority_Scheduler fourParkings 3 []).bookings
            (Priority_Scheduler fourParkings 3 []).acceptList = true ∧
          ∀ idx ∈ (Priority_Scheduler fourParkings 3 []).acceptList,
            ¬ (time_overlap (nth (Priority_Scheduler fourParkings 3 []).bookings 3)
                (nth (Priority_Scheduler fourParkings 3 []).bookings idx) = true ∧
              get_priority_level (nth (Priority_Scheduler fourParkings 3 []).bookings idx).type
                < get_priority_level
                    (nth (Priority_Scheduler fourParkings 3 []).bookings 3).type))) :=
  ⟨by decide,
    (Priority_step_verdict (Priority_Scheduler fourParkings 3 []) 3 (by decide)
      (by decide)).1⟩

/-- C8: when an iteration of `Priority_Scheduler` preempts (the candidate conflicts and
the backward scan returns position `low`), the candidate becomes Accepted with the
slot the victim held, the victim becomes Rejected with slot `-1`, the candidate's
index overwrites position `low` of the accepted sequence, whose length is unchanged,
and no other booking changes. -/
theorem Priority_step_preempt (st : SchedState) (i low : Nat) (hi : i < st.bookings.length)
    (hp : (nth st.bookings i).status = STATUS_PENDING)
    (hc : has_time_conflict (nth st.bookings i) st.bookings st.acceptList = true)
    (hv : scan_victim (nth st.bookings i) st.bookings st.acceptList = some low)
    (hr : st.acceptList.getD low 0 < st.bookings.length) :
    st.acceptList.getD low 0 ≠ i ∧ low < st.acceptList.length ∧
      nth (Priority_step st i).bookings i =
        { nth st.bookings i with
          parking_slot := (nth st.bookings (st.acceptList.getD low 0)).parking_slot,
          status := STATUS_ACCEPTED } ∧
      nth (Priority_step st i).bookings (st.acceptList.getD low 0) =
        { nth st.bookings (st.acceptList.getD low 0) with
          status := STATUS_REJECTED, parking_slot := -1 } ∧
      (Priority_step st i).acceptList = st.acceptList.set low i ∧
      (Priority_step st i).acceptList.getD low 0 = i ∧
      (Priority_step st i).acceptList.length = st.acceptList.length ∧
      (Priority_step st i).bookings.length = st.bookings.length ∧
      (∀ k, k ≠ i → k ≠ st.acceptList.getD low 0 →
        nth (Priority_step st i).bookings k = nth st.bookings k) := by
  have hne : st.acceptList.getD low 0 ≠ i := scan_victim_ne _ _ _ _ hv
  have hlow := (scan_victim_some _ _ _ _ hv).1
  have hstep : Priority_step st i =
      { bookings := (st.bookings.set i
          { nth st.bookings i with
            parking_slot := (nth st.bookings (st.acceptList.getD low 0)).parking_slot,
            status := STATUS_ACCEPTED }).set (st.acceptList.getD low 0)
          (cancelBooking (nth (st.bookings.set i
            { nth st.bookings i with
              parking_slot := (nth st.bookings (st.acceptList.getD low 0)).parking_slot,
              status := STATUS_ACCEPTED }) (st.acceptList.getD low 0))),
        acceptList := st.acceptList.set low i } := by
    unfold Priority_step
    rw [if_neg (not_not.mpr hp), if_neg (by rw [hc]; decide), hv]
  have hr1 : st.acceptList.getD low 0 < (st.bookings.set i
      { nth st.bookings i with
        parking_slot := (nth st.bookings (st.acceptList.getD low 0)).parking_slot,
        status := STATUS_ACCEPTED }).length := by
    rw [List.length_set]; exact hr
  rw [hstep]
  refine ⟨hne, hlow, ?_, ?_, rfl, ?_, ?_, ?_, ?_⟩
  · rw [nth_set_ne _ _ _ _ hne, nth_set_self _ _ _ hi]
  · rw [nth_set_self _ _ _ hr1, nth_set_ne _ _ _ _ (fun e => hne e.symm)]
    rfl
  · show (st.acceptList.set low i).getD low 0 = i
    rw [List.getD_eq_getElem?_getD, List.getElem?_set_self (by exact hlow)]
    rfl
  · show (st.acceptList.set low i).length = st.acceptList.length
    rw [List.length_set]
  · show (List.set (List.set _ _ _) _ _).length = _
    rw [List.length_set, List.length_set]
  · intro k hk1 hk2
    rw [nth_set_ne _ _ _ _ (fun e => hk2 e.symm), nth_set_ne _ _ _ _ (fun e => hk1 e.symm)]

theorem Priority_step_preempt_witness :
    (3 < (Priority_Scheduler threeParkingsThenEvent 3 []).bookings.length ∧
      (nth (Priority_Scheduler threeParkingsThenEvent 3 []).bookings 3).status
        = STATUS_PENDING ∧
      has_time_conflict (nth (Priority_Scheduler threeParkingsThenEvent 3 []).bookings 3)
        (Priority_Scheduler threeParkingsThenEvent 3 []).bookings
        (Priority_Scheduler threeParkingsThenEvent 3 []).acceptList = true ∧
      scan_victim (nth (Priority_Scheduler threeParkingsThenEvent 3 []).bookings 3)
        (Priority_Scheduler threeParkingsThenEvent 3 []).bookings
        (Priority_Scheduler threeParkingsThenEvent 3 []).acceptList = some 0 ∧
      (Priority_Scheduler threeParkingsThenEvent 3 []).acceptList.getD 0 0
        < (Priority_Scheduler threeParkingsThenEvent 3 []).bookings.length) ∧
      (Priority_step (Priority_Scheduler threeParkingsThenEvent 3 []) 3).acceptList =
        (Priority_Scheduler threeParkingsThenEvent 3 []).acceptList.set 0 3 :=
  ⟨by decide,
    (Priority_step_preempt (Priority_Scheduler threeParkingsThenEvent 3 []) 3 0 (by decide)
      (by decide) (by decide) (by decide) (by decide)).2.2.2.2.1⟩

/-- C3: on `slotOverflowBatch` the preemption branch of `Priority_Scheduler` evicts the
10:00 Parking (position 0 of the accepted sequence) for the Event, which inherits slot
0; the four bookings 1..4 are then Accepted, of a type other than `*`, pairwise
overlapping in time, more than `MAX_SLOTS`, and bookings 1 and 4 both hold slot 0. -/
theorem Priority_slot_capacity_overflow :
    (∀ b ∈ slotOverflowBatch, b.status = STATUS_PENDING ∧ b.parking_slot = -1) ∧
      (Priority_Scheduler slotOverflowBatch slotOverflowBatch.length []).acceptList
        = [4, 1, 2, 3] ∧
      (∀ i ∈ ({1, 2, 3, 4} : Finset Nat),
        (nth (Priority_Scheduler slotOverflowBatch slotOverflowBatch.length []).bookings i).status
            = STATUS_ACCEPTED ∧
          (nth (Priority_Scheduler slotOverflowBatch slotOverflowBatch.length []).bookings i).type
            ≠ "*") ∧
      (∀ i ∈ ({1, 2, 3, 4} : Finset Nat), ∀ j ∈ ({1, 2, 3, 4} : Finset Nat), i ≠ j →
        time_overlap
          (nth (Priority_Scheduler slotOverflowBatch slotOverflowBatch.length []).bookings i)
          (nth (Priority_Scheduler slotOverflowBatch slotOverflowBatch.length []).bookings j)
          = true) ∧
      MAX_SLOTS < ({1, 2, 3, 4} : Finset Nat).card ∧
      (nth (Priority_Scheduler slotOverflowBatch slotOverflowBatch.length []).bookings 1).parking_slot
        = 0 ∧
      (nth (Priority_Scheduler slotOverflowBatch slotOverflowBatch.length []).bookings 4).parking_slot
        = 0 := by
  decide

/-- C5: on `batteryOverflowBatch` the preemption branch of `Priority_Scheduler` evicts
the essentials-only booking (which requests no battery) for the Reservation; the four
bookings 1..4 are then Accepted, pairwise overlapping in time and all request
`battery`, more than `MAX_RESOURCES`. -/
theorem Priority_essential_capacity_overflow :
    (∀ b ∈ batteryOverflowBatch, b.status = STATUS_PENDING ∧ b.parking_slot = -1) ∧
      (Priority_Scheduler batteryOverflowBatch batteryOverflowBatch.length []).acceptList
        = [4, 1, 2, 3] ∧
      (∀ i ∈ ({1, 2, 3, 4} : Finset Nat),
        (nth (Priority_Scheduler batteryOverflowBatch batteryOverflowBatch.length []).bookings
            i).status = STATUS_ACCEPTED ∧
          "battery" ∈
            (nth (Priority_Scheduler batteryOverflowBatch batteryOverflowBatch.length []).bookings
              i).essentials) ∧
      (∀ i ∈ ({1, 2, 3, 4} : Finset Nat), ∀ j ∈ ({1, 2, 3, 4} : Finset Nat), i ≠ j →
        time_overlap
          (nth (Priority_Scheduler batteryOverflowBatch batteryOverflowBatch.length []).bookings i)
          (nth (Priority_Scheduler batteryOverflowBatch batteryOverflowBatch.length []).bookings j)
          = true) ∧
      MAX_RESOURCES < ({1, 2, 3, 4} : Finset Nat).card := by
  decide

/-- C7: on `threeParkingsThenEvent` the three Parking bookings at positions 0, 1, 2 of
the accepted sequence are all eligible victims for the Event; the backward scan returns
position 0, the smallest, not position 2, the first it meets: booking 0 is evicted and
booking 2 stays Accepted. -/
theorem Priority_evicts_smallest_position :
    (Priority_Scheduler threeParkingsThenEvent 3 []).acceptList = [0, 1, 2] ∧
      (∀ j ∈ [0, 1, 2],
        time_overlap (nth (Priority_Scheduler threeParkingsThenEvent 3 []).bookings 3)
            (nth (Priority_Scheduler threeParkingsThenEvent 3 []).bookings j) = true ∧
          get_priority_level (nth (Priority_Scheduler threeParkingsThenEvent 3 []).bookings j).type
            < get_priority_level
                (nth (Priority_Scheduler threeParkingsThenEvent 3 []).bookings 3).type) ∧
      scan_victim (nth (Priority_Scheduler threeParkingsThenEvent 3 []).bookings 3)
        (Priority_Scheduler threeParkingsThenEvent 3 []).bookings
        (Priority_Scheduler threeParkingsThenEvent 3 []).acceptList = some 0 ∧
      (Priority_Scheduler threeParkingsThenEvent 4 []).acceptList = [3, 1, 2] ∧
      (nth (Priority_Scheduler threeParkingsThenEvent 4 []).bookings 0).status
        = STATUS_REJECTED ∧
      (nth (Priority_Scheduler threeParkingsThenEvent 4 []).bookings 2).status
        = STATUS_ACCEPTED ∧
      (nth (Priority_Scheduler threeParkingsThenEvent 4 []).bookings 3).status
        = STATUS_ACCEPTED := by
  decide

/-- C10: on `unknownEssentialBatch` the Event requests `charger`, which
`get_pair_essential` does not recognize; `FCFS_Scheduler` rejects it, but
`Priority_Scheduler` accepts it by evicting the Parking booking. -/
theorem Priority_accepts_unrecognized_essential :
    get_pair_essential "charger" = none ∧
      "charger" ∈ (nth unknownEssentialBatch 1).essentials ∧
      (∀ b ∈ unknownEssentialBatch, b.status = STATUS_PENDING ∧ b.parking_slot = -1) ∧
      (nth (FCFS_Scheduler unknownEssentialBatch 2 []).bookings 1).status = STATUS_REJECTED ∧
      (nth (Priority_Scheduler unknownEssentialBatch 2 []).bookings 1).status
        = STATUS_ACCEPTED ∧
      (Priority_Scheduler unknownEssentialBatch 2 []).acceptList = [1] ∧
      (nth (Priority_Scheduler unknownEssentialBatch 2 []).bookings 0).status
        = STATUS_REJECTED := by
  decide

theorem Priority_step_length (st : SchedState) (i : Nat) :
    (Priority_step st i).bookings.length = st.bookings.length := by
  unfold Priority_step
  by_cases hp : (nth st.bookings i).status ≠ STATUS_PENDING
  · rw [if_pos hp]
  · rw [if_neg hp]
    by_cases hc : has_time_conflict (nth st.bookings i) st.bookings st.acceptList = false
    · rw [if_pos hc]
      dsimp only
      split_ifs
      · rw [List.length_set, List.length_set]
      · rw [List.length_set]
    · rw [if_neg hc]
      cases hv : scan_victim (nth st.bookings i) st.bookings st.acceptList with
      | none => dsimp only; rw [List.length_set]
      | some low => dsimp only; rw [List.length_set, List.length_set]

theorem Priority_step_acc_mem (st : SchedState) (i x : Nat)
    (hx : x ∈ (Priority_step st i).acceptList) : x ∈ st.acceptList ∨ x = i := by
  unfold Priority_step at hx
  by_cases hp : (nth st.bookings i).status ≠ STATUS_PENDING
  · rw [if_pos hp] at hx
    exact Or.inl hx
  · rw [if_neg hp] at hx
    by_cases hc : has_time_conflict (nth st.bookings i) st.bookings st.acceptList = false
    · rw [if_pos hc] at hx
      dsimp only at hx
      have hx1 : x ∈ st.acceptList ++ [i] := by
        split_ifs at hx
        · exact hx
        · exact hx
      rcases List.mem_append.mp hx1 with h | h
      · exact Or.inl h
      · exact Or.inr (List.mem_singleton.mp h)
    · rw [if_neg hc] at hx
      cases hv : scan_victim (nth st.bookings i) st.bookings st.acceptList with
      | none =>
        rw [hv] at hx
        exact Or.inl hx
      | some low =>
        rw [hv] at hx
        dsimp only at hx
        rcases List.mem_or_eq_of_mem_set hx with h | h
        · exact Or.inl h
        · exact Or.inr h

theorem Priority_run_length (bs : List Booking) (k : Nat) :
    (Priority_Scheduler bs k []).bookings.length = bs.length := by
  induction k with
  | zero => rfl
  | succ k ih => rw [Priority_Scheduler_succ, Priority_step_length, ih]

/-- Every index in the accepted sequence of a priority run started from the empty
sequence has already been processed, hence is an index of the batch. -/
theorem Priority_run_acc_lt (bs : List Booking) (k : Nat) :
    ∀ j ∈ (Priority_Scheduler bs k []).acceptList, j < k := by
  induction k with
  | zero => intro j hj; exact absurd hj (List.not_mem_nil j)
  | succ k ih =>
    intro j hj
    rw [Priority_Scheduler_succ] at hj
    rcases Priority_step_acc_mem _ _ _ hj with h | h
    · have := ih j h
      omega
    · omega

/-- C12: `time_overlap a b` is true iff the dates are equal and `a.start < b.end` and
`b.start < a.end`; it is false whenever the dates differ, whatever the times; and it
is symmetric. -/
theorem time_overlap_spec (a b : Booking) :
    (time_overlap a b = true ↔
        a.date = b.date ∧ a.start_time < b.end_time ∧ b.start_time < a.end_time) ∧
      (a.date ≠ b.date → time_overlap a b = false) ∧
      time_overlap a b = time_overlap b a := by
  refine ⟨?_, ?_, time_overlap_comm a b⟩
  · unfold time_overlap
    by_cases h : a.date = b.date
    · rw [if_neg (not_not.mpr h)]
      simp [h]
    · rw [if_pos h]
      simp [h]
  · intro h
    unfold time_overlap
    rw [if_pos h]

theorem mark_foldl_getD (item : Booking) (bs : List Booking) (p : Nat) :
    ∀ (acc : List Nat) (a : List Bool),
      (acc.foldl (mark_slot item bs) a).getD p false = true ↔
      (a.getD p false = true ∧
        ∀ idx ∈ acc, ¬ (time_overlap item (nth bs idx) = true ∧
          0 ≤ (nth bs idx).parking_slot ∧ (nth bs idx).parking_slot < (MAX_SLOTS : Int) ∧
          (nth bs idx).parking_slot.toNat = p)) := by
  intro acc
  induction acc with
  | nil => intro a; simp
  | cons x xs ih =>
    intro a
    rw [List.foldl_cons, ih, mark_slot_getD]
    by_cases hc : time_overlap item (nth bs x) = true ∧ 0 ≤ (nth bs x).parking_slot ∧
          (nth bs x).parking_slot < (MAX_SLOTS : Int) ∧ (nth bs x).parking_slot.toNat = p
    · rw [if_pos hc]
      constructor
      · rintro ⟨h, _⟩
        exact absurd h (by decide)
      · rintro ⟨_, h⟩
        exact absurd hc (h x (List.mem_cons_self _ _))
    · rw [if_neg hc]
      constructor
      · rintro ⟨h1, h2⟩
        refine ⟨h1, ?_⟩
        intro idx hidx
        rcases List.mem_cons.mp hidx with e | e
        · rw [e]; exact hc
        · exact h2 idx e
      · rintro ⟨h1, h2⟩
        exact ⟨h1, fun idx hidx => h2 idx (List.mem_cons_of_mem _ hidx)⟩

/-- Slot `s` is marked unavailable exactly when some accepted booking that overlaps the
candidate holds it. -/
theorem available_slots_occupied (item : Booking) (bs : List Booking) (acc : List Nat)
    (s : Nat) (hs : s < MAX_SLOTS) :
    (available_slots item bs acc).getD s false = false ↔
      ∃ idx ∈ acc, time_overlap item (nth bs idx) = true ∧
        (nth bs idx).parking_slot = (s : Int) := by
  have hinit : (List.replicate MAX_SLOTS true).getD s false = true := by
    have h3 : MAX_SLOTS = 3 := rfl
    rw [h3] at hs ⊢
    interval_cases s <;> rfl
  have h := mark_foldl_getD item bs s acc (List.replicate MAX_SLOTS true)
  unfold available_slots
  constructor
  · intro hf
    by_contra hne
    have : (acc.foldl (mark_slot item bs) (List.replicate MAX_SLOTS true)).getD s false
        = true := by
      rw [h]
      refine ⟨hinit, ?_⟩
      rintro idx hidx ⟨h1, h2, _, h4⟩
      exact hne ⟨idx, hidx, h1, by omega⟩
    rw [hf] at this
    exact absurd this (by decide)
  · rintro ⟨idx, hidx, h1, h2⟩
    cases hv : (acc.foldl (mark_slot item bs) (List.replicate MAX_SLOTS true)).getD s false with
    | false => rfl
    | true =>
      have := (h.mp hv).2 idx hidx
      exact absurd ⟨h1, by omega, by omega, by omega⟩ this

/-- The second loop of `check_parking_conflict`, unrolled for `MAX_SLOTS = 3`. -/
theorem check_parking_conflict_unrolled (item : Booking) (bs : List Booking)
    (acc : List Nat) :
    check_parking_conflict item bs acc =
      if 0 ≤ item.parking_slot ∧ item.parking_slot < (MAX_SLOTS : Int) ∧
          (available_slots item bs acc).getD item.parking_slot.toNat false = true then
        item.parking_slot
      else if (available_slots item bs acc).getD 0 false = true then 0
      else if (available_slots item bs acc).getD 1 false = true then 1
      else if (available_slots item bs acc).getD 2 false = true then 2
      else -1 := by
  unfold check_parking_conflict
  dsimp only
  split_ifs with h0 h1 h2 h3
  · rfl
  · have : (List.range MAX_SLOTS).find? (fun j => (available_slots item bs acc).getD j false)
        = some 0 := by
      show List.find? _ [0, 1, 2] = _
      exact List.find?_cons_of_pos (p := fun j => (available_slots item bs acc).getD j false) (a := 0) _ h1
    rw [this]; rfl
  · have : (List.range MAX_SLOTS).find? (fun j => (available_slots item bs acc).getD j false)
        = some 1 := by
      show List.find? _ [0, 1, 2] = _
      exact (List.find?_cons_of_neg (p := fun j => (available_slots item bs acc).getD j false) (a := 0) _ h1).trans
        (List.find?_cons_of_pos (p := fun j => (available_slots item bs acc).getD j false) (a := 1) _ h2)
    rw [this]; rfl
  · have : (List.range MAX_SLOTS).find? (fun j => (available_slots item bs acc).getD j false)
        = some 2 := by
      show List.find? _ [0, 1, 2] = _
      exact (List.find?_cons_of_neg (p := fun j => (available_slots item bs acc).getD j false) (a := 0) _ h1).trans
        ((List.find?_cons_of_neg (p := fun j => (available_slots item bs acc).getD j false) (a := 1) _ h2).trans
          (List.find?_cons_of_pos (p := fun j => (available_slots item bs acc).getD j false) (a := 2) _ h3))
    rw [this]; rfl
  · have : (List.range MAX_SLOTS).find? (fun j => (available_slots item bs acc).getD j false)
        = none := by
      show List.find? _ [0, 1, 2] = _
      exact (List.find?_cons_of_neg (p := fun j => (available_slots item bs acc).getD j false) (a := 0) _ h1).trans
        ((List.find?_cons_of_neg (p := fun j => (available_slots item bs acc).getD j false) (a := 1) _ h2).trans
          ((List.find?_cons_of_neg (p := fun j => (available_slots item bs acc).getD j false) (a := 2) _ h3).trans rfl))
    rw [this]

theorem available_iff_not_occupied (item : Booking) (bs : List Booking) (acc : List Nat)
    (s : Nat) (hs : s < MAX_SLOTS) :
    (available_slots item bs acc).getD s false = true ↔
      ¬ slot_occupied item bs acc (s : Int) := by
  unfold slot_occupied
  rw [← available_slots_occupied item bs acc s hs]
  cases (available_slots item bs acc).getD s false <;> simp

/-- C13: `check_parking_conflict` marks slot `s < 3` unavailable iff some accepted
booking that overlaps the candidate holds `s`; it returns the candidate's own slot when
that slot is in `0..2` and not occupied, otherwise the lowest slot that is not occupied,
and `-1` iff all three slots are occupied. -/
theorem check_parking_conflict_spec (item : Booking) (bs : List Booking) (acc : List Nat) :
    (∀ s : Nat, s < MAX_SLOTS →
        ((available_slots item bs acc).getD s false = false ↔
          slot_occupied item bs acc (s : Int))) ∧
      (0 ≤ item.parking_slot ∧ item.parking_slot < (MAX_SLOTS : Int) ∧
          ¬ slot_occupied item bs acc item.parking_slot →
        check_parking_conflict item bs acc = item.parking_slot) ∧
      (¬ (0 ≤ item.parking_slot ∧ item.parking_slot < (MAX_SLOTS : Int) ∧
          ¬ slot_occupied item bs acc item.parking_slot) →
        ∀ s : Nat, s < MAX_SLOTS → ¬ slot_occupied item bs acc (s : Int) →
          (∀ t : Nat, t < s → slot_occupied item bs acc (t : Int)) →
          check_parking_conflict item bs acc = (s : Int)) ∧
      (check_parking_conflict item bs acc = -1 ↔
        ∀ s : Nat, s < MAX_SLOTS → slot_occupied item bs acc (s : Int)) := by
  have h3 : MAX_SLOTS = 3 := rfl
  have a0 := available_iff_not_occupied item bs acc 0 (by decide)
  have a1 := available_iff_not_occupied item bs acc 1 (by decide)
  have a2 := available_iff_not_occupied item bs acc 2 (by decide)
  have hown : 0 ≤ item.parking_slot → item.parking_slot < (MAX_SLOTS : Int) →
      ((available_slots item bs acc).getD item.parking_slot.toNat false = true ↔
        ¬ slot_occupied item bs acc item.parking_slot) := by
    intro h0 hlt
    have hs : item.parking_slot.toNat < MAX_SLOTS := by omega
    have hc : ((item.parking_slot.toNat : Nat) : Int) = item.parking_slot := by omega
    have := available_iff_not_occupied item bs acc item.parking_slot.toNat hs
    rw [hc] at this
    exact this
  refine ⟨?_, ?_, ?_, ?_⟩
  · intro s hs
    exact available_slots_occupied item bs acc s hs
  · rintro ⟨h0, hlt, hno⟩
    rw [check_parking_conflict_unrolled, if_pos ⟨h0, hlt, (hown h0 hlt).mpr hno⟩]
  · intro hnot s hs hfree hbelow
    have hfirst : ¬ (0 ≤ item.parking_slot ∧ item.parking_slot < (MAX_SLOTS : Int) ∧
        (available_slots item bs acc).getD item.parking_slot.toNat false = true) := by
      rintro ⟨h0, hlt, hav⟩
      exact hnot ⟨h0, hlt, (hown h0 hlt).mp hav⟩
    rw [check_parking_conflict_unrolled, if_neg hfirst]
    rw [h3] at hs
    interval_cases s
    · rw [if_pos (a0.mpr hfree)]; rfl
    · rw [if_neg (fun h => a0.mp h (hbelow 0 (by decide))), if_pos (a1.mpr hfree)]; rfl
    · rw [if_neg (fun h => a0.mp h (hbelow 0 (by decide))),
        if_neg (fun h => a1.mp h (hbelow 1 (by decide))), if_pos (a2.mpr hfree)]; rfl
  · rw [check_parking_conflict_unrolled]
    constructor
    · intro h
      split_ifs at h with c0 c1 c2 c3
      · omega
      · have c3n : ¬ (available_slots item bs acc).getD 2 false = true := c3
        intro s hs
        rw [h3] at hs
        interval_cases s
        · by_contra hn; exact c1 (a0.mpr hn)
        · by_contra hn; exact c2 (a1.mpr hn)
        · by_contra hn; exact c3n (a2.mpr hn)
    · intro hall
      have hfirst : ¬ (0 ≤ item.parking_slot ∧ item.parking_slot < (MAX_SLOTS : Int) ∧
          (available_slots item bs acc).getD item.parking_slot.toNat false = true) := by
        rintro ⟨h0, hlt, hav⟩
        have hs : item.parking_slot.toNat < MAX_SLOTS := by omega
        have hc : ((item.parking_slot.toNat : Nat) : Int) = item.parking_slot := by omega
        have := hall _ hs
        rw [hc] at this
        exact (hown h0 hlt).mp hav this
      rw [if_neg hfirst, if_neg (fun h => a0.mp h (hall 0 (by decide))),
        if_neg (fun h => a1.mp h (hall 1 (by decide))),
        if_neg (fun h => a2.mp h (hall 2 (by decide)))]

theorem to_lower_case_data (x : String) : (to_lower_case x).data = x.data.map Char.toLower :=
  rfl

/-- Copying into the 20-byte buffer does not change whether the lower-cased name is a
given name shorter than the buffer. -/
theorem lower_trunc (x n : String) (hn : n.data.length < 19) :
    to_lower_case (String.mk (x.data.take (MAX_STRING_LENGTH - 1))) = n ↔
      to_lower_case x = n := by
  have h19 : MAX_STRING_LENGTH - 1 = 19 := rfl
  rw [h19]
  constructor
  · intro h
    have hd : (x.data.take 19).map Char.toLower = n.data := congrArg String.data h
    have hl : (x.data.take 19).length = n.data.length := by
      rw [← hd, List.length_map]
    rw [List.length_take] at hl
    have hx : x.data.length ≤ 19 := by omega
    have ht : x.data.take 19 = x.data := List.take_of_length_le hx
    rw [ht] at h
    exact h
  · intro h
    have hd : x.data.map Char.toLower = n.data := congrArg String.data h
    have hl : x.data.length = n.data.length := by
      rw [← hd, List.length_map]
    have ht : x.data.take 19 = x.data := List.take_of_length_le (by omega)
    rw [ht]
    exact h

/-- The lookup of `get_pair_essential`, row by row, on the lower-cased name. -/
theorem get_pair_essential_rows (x : String) :
    get_pair_essential x =
      if to_lower_case x = "battery" then some "cable"
      else if to_lower_case x = "cable" then some "battery"
      else if to_lower_case x = "locker" then some "umbrella"
      else if to_lower_case x = "umbrella" then some "locker"
      else if to_lower_case x = "inflationservice" then some "valetpark"
      else if to_lower_case x = "valetpark" then some "inflationservice"
      else none := by
  unfold get_pair_essential essential_pairs
  simp only [pair_lookup]
  simp only [lower_trunc x "battery" (by decide), lower_trunc x "cable" (by decide),
    lower_trunc x "locker" (by decide), lower_trunc x "umbrella" (by decide),
    lower_trunc x "inflationservice" (by decide), lower_trunc x "valetpark" (by decide)]

theorem get_pair_essential_none (x : String) (h : to_lower_case x ∉ recognized_names) :
    get_pair_essential x = none := by
  rw [get_pair_essential_rows]
  unfold recognized_names at h
  simp only [List.mem_cons, List.mem_singleton, List.not_mem_nil, or_false, not_or] at h
  obtain ⟨h1, h2, h3, h4, h5, h6⟩ := h
  rw [if_neg h1, if_neg h2, if_neg h3, if_neg h4, if_neg h5, if_neg h6]

/-- C18: `get_pair_essential` returns a partner iff the lower-cased argument is one of
the six recognized names, and for every recognized `x` the partner of the partner of
`x` is `x` in lower case and the partner differs from `x`. -/
theorem get_pair_essential_symmetric (x : String) :
    ((get_pair_essential x).isSome = true ↔ to_lower_case x ∈ recognized_names) ∧
      (∀ p : String, get_pair_essential x = some p →
        get_pair_essential p = some (to_lower_case x) ∧ p ≠ x ∧ p ≠ to_lower_case x) := by
  rw [get_pair_essential_rows]
  unfold recognized_names
  by_cases h1 : to_lower_case x = "battery"
  · rw [if_pos h1]
    refine ⟨by simp [h1], ?_⟩
    intro p hp
    have hp1 : p = "cable" := (Option.some.inj hp).symm
    subst hp1
    rw [h1]
    refine ⟨by decide, ?_, by decide⟩
    intro e
    rw [← e] at h1
    exact absurd h1 (by decide)
  · rw [if_neg h1]
    by_cases h2 : to_lower_case x = "cable"
    · rw [if_pos h2]
      refine ⟨by simp [h2], ?_⟩
      intro p hp
      have hp1 : p = "battery" := (Option.some.inj hp).symm
      subst hp1
      rw [h2]
      refine ⟨by decide, ?_, by decide⟩
      intro e
      rw [← e] at h2
      exact absurd h2 (by decide)
    · rw [if_neg h2]
      by_cases h3 : to_lower_case x = "locker"
      · rw [if_pos h3]
        refine ⟨by simp [h3], ?_⟩
        intro p hp
        have hp1 : p = "umbrella" := (Option.some.inj hp).symm
        subst hp1
        rw [h3]
        refine ⟨by decide, ?_, by decide⟩
        intro e
        rw [← e] at h3
        exact absurd h3 (by decide)
      · rw [if_neg h3]
        by_cases h4 : to_lower_case x = "umbrella"
        · rw [if_pos h4]
          refine ⟨by simp [h4], ?_⟩
          intro p hp
          have hp1 : p = "locker" := (Option.some.inj hp).symm
          subst hp1
          rw [h4]
          refine ⟨by decide, ?_, by decide⟩
          intro e
          rw [← e] at h4
          exact absurd h4 (by decide)
        · rw [if_neg h4]
          by_cases h5 : to_lower_case x = "inflationservice"
          · rw [if_pos h5]
            refine ⟨by simp [h5], ?_⟩
            intro p hp
            have hp1 : p = "valetpark" := (Option.some.inj hp).symm
            subst hp1
            rw [h5]
            refine ⟨by decide, ?_, by decide⟩
            intro e
            rw [← e] at h5
            exact absurd h5 (by decide)
          · rw [if_neg h5]
            by_cases h6 : to_lower_case x = "valetpark"
            · rw [if_pos h6]
              refine ⟨by simp [h6], ?_⟩
              intro p hp
              have hp1 : p = "inflationservice" := (Option.some.inj hp).symm
              subst hp1
              rw [h6]
              refine ⟨by decide, ?_, by decide⟩
              intro e
              rw [← e] at h6
              exact absurd h6 (by decide)
            · rw [if_neg h6]
              refine ⟨?_, fun p hp => absurd hp (by simp)⟩
              simp [h1, h2, h3, h4, h5, h6]

/-- C15: a candidate that requests an essential whose lower-cased name is not one of the
six recognized names has an essential conflict against every accepted sequence, the
empty one included. -/
theorem check_essential_conflict_invalid (item : Booking) (bs : List Booking)
    (acc : List Nat) (e : String) (he : e ∈ item.essentials)
    (hn : to_lower_case e ∉ recognized_names) :
    check_essential_conflict item bs acc = -1 ∧ check_essential_conflict item bs [] = -1 :=
  ⟨check_essential_conflict_unrecognized item bs acc e he (get_pair_essential_none e hn),
    check_essential_conflict_unrecognized item bs [] e he (get_pair_essential_none e hn)⟩

theorem check_essential_conflict_invalid_witness :
    ("Charger" ∈ (nth unknownCaseBatch 0).essentials ∧
      to_lower_case "Charger" ∉ recognized_names) ∧
      check_essential_conflict (nth unknownCaseBatch 0) unknownCaseBatch [] = -1 :=
  ⟨by decide,
    (check_essential_conflict_invalid (nth unknownCaseBatch 0) unknownCaseBatch []
      "Charger" (by decide) (by decide)).1⟩

theorem name_usage_eq_count (b : Booking) (e : String) :
    name_usage b e = b.essentials.count e := by
  unfold name_usage
  rw [List.count, List.countP_eq_length_filter]
  have hf : (fun x : String => decide (x = e)) = (fun x : String => x == e) := by
    funext x
    by_cases h : x = e
    · simp [h]
    · simp [h]
  rw [hf]

theorem total_usage_eq_entries (item : Booking) (bs : List Booking) (acc : List Nat)
    (e : String) : total_usage item bs acc e = overlapping_entries item bs acc e := by
  unfold total_usage overlapping_entries
  rw [usage_foldl_eq, Nat.zero_add]
  congr 1
  apply List.map_congr_left
  intro idx _
  unfold usage_step
  rw [name_usage_eq_count]
  cases time_overlap item (nth bs idx) <;> simp

theorem sum_indicator (p : Nat → Bool) :
    ∀ acc : List Nat, (acc.map (fun idx => if p idx = true then 1 else 0)).sum
      = (acc.filter p).length := by
  intro acc
  induction acc with
  | nil => rfl
  | cons x xs ih =>
    rw [List.map_cons, List.sum_cons, ih, List.filter_cons]
    cases p x <;> simp
    omega

theorem entries_eq_requesters (item : Booking) (bs : List Booking) (acc : List Nat)
    (e : String) (hnd : ∀ idx ∈ acc, (nth bs idx).essentials.Nodup) :
    overlapping_entries item bs acc e = overlapping_requesters item bs acc e := by
  unfold overlapping_entries overlapping_requesters
  rw [← sum_indicator]
  congr 1
  apply List.map_congr_left
  intro idx hidx
  by_cases hm : e ∈ (nth bs idx).essentials
  · rw [List.count_eq_one_of_mem (hnd idx hidx) hm]
    cases time_overlap item (nth bs idx) <;> simp [hm]
  · rw [List.count_eq_zero_of_not_mem hm]
    cases time_overlap item (nth bs idx) <;> simp [hm]

theorem check_essential_conflict_iff_usage (item : Booking) (bs : List Booking)
    (acc : List Nat) (hrec : ∀ e ∈ item.essentials, get_pair_essential e ≠ none) :
    check_essential_conflict item bs acc = -1 ↔
      ∃ e ∈ item.essentials, MAX_RESOURCES ≤ total_usage item bs acc e := by
  constructor
  · intro h
    by_contra hne
    have hall : ∀ e ∈ item.essentials, ¬ MAX_RESOURCES ≤ total_usage item bs acc e :=
      fun e he hc => hne ⟨e, he, hc⟩
    unfold check_essential_conflict at h
    have h1 : ¬ item.essentials.any (fun e => (get_pair_essential e).isNone) = true := by
      rw [List.any_eq_true]
      rintro ⟨e, he, hn⟩
      exact hrec e he (Option.isNone_iff_eq_none.mp hn)
    have h2 : ¬ item.essentials.any
        (fun e => decide (MAX_RESOURCES ≤ total_usage item bs acc e)) = true := by
      rw [List.any_eq_true]
      rintro ⟨e, he, hn⟩
      exact hall e he (by simpa using hn)
    rw [if_neg h1, if_neg h2] at h
    split_ifs at h
  · rintro ⟨e, he, hu⟩
    by_contra hne
    have := (check_essential_conflict_ok item bs acc hne e he).2
    omega

/-- C14 as stated fails: on `tripleBatteryBatch`, once the first booking is accepted the
second (whose only essential, `battery`, is recognized) has an essential conflict,
although a single accepted booking overlaps it and requests `battery`. -/
theorem check_essential_conflict_counts_entries :
    (FCFS_Scheduler tripleBatteryBatch 1 []).acceptList = [0] ∧
      (∀ e ∈ (nth tripleBatteryBatch 1).essentials, get_pair_essential e ≠ none) ∧
      check_essential_conflict (nth tripleBatteryBatch 1)
        (FCFS_Scheduler tripleBatteryBatch 1 []).bookings
        (FCFS_Scheduler tripleBatteryBatch 1 []).acceptList = -1 ∧
      ¬ (∃ e ∈ (nth tripleBatteryBatch 1).essentials,
        MAX_RESOURCES ≤ overlapping_requesters (nth tripleBatteryBatch 1)
          (FCFS_Scheduler tripleBatteryBatch 1 []).bookings
          (FCFS_Scheduler tripleBatteryBatch 1 []).acceptList e) := by
  decide

/-- C14, amended: for a candidate whose requested names are all recognized,
`check_essential_conflict` reports a conflict iff, for some requested name, the number
of entries equal to that literal name in the essentials of the accepted bookings that
overlap the candidate is at least `MAX_RESOURCES`; this is the number of such bookings
when no accepted booking lists a name twice. -/
theorem check_essential_conflict_spec (item : Booking) (bs : List Booking) (acc : List Nat)
    (hrec : ∀ e ∈ item.essentials, get_pair_essential e ≠ none) :
    (check_essential_conflict item bs acc = -1 ↔
        ∃ e ∈ item.essentials, MAX_RESOURCES ≤ overlapping_entries item bs acc e) ∧
      ((∀ idx ∈ acc, (nth bs idx).essentials.Nodup) →
        (check_essential_conflict item bs acc = -1 ↔
          ∃ e ∈ item.essentials, MAX_RESOURCES ≤ overlapping_requesters item bs acc e)) ∧
      (item.essentials = [] → check_essential_conflict item bs acc = 0) := by
  have hmain := check_essential_conflict_iff_usage item bs acc hrec
  refine ⟨?_, ?_, ?_⟩
  · rw [hmain]
    constructor
    · rintro ⟨e, he, hu⟩
      exact ⟨e, he, by rw [← total_usage_eq_entries]; exact hu⟩
    · rintro ⟨e, he, hu⟩
      exact ⟨e, he, by rw [total_usage_eq_entries]; exact hu⟩
  · intro hnd
    rw [hmain]
    constructor
    · rintro ⟨e, he, hu⟩
      exact ⟨e, he, by
        rw [← entries_eq_requesters item bs acc e hnd, ← total_usage_eq_entries]; exact hu⟩
    · rintro ⟨e, he, hu⟩
      exact ⟨e, he, by
        rw [total_usage_eq_entries, entries_eq_requesters item bs acc e hnd]; exact hu⟩
  · intro hnil
    unfold check_essential_conflict Booking.essential_count
    rw [hnil]
    rfl

theorem check_essential_conflict_spec_witness :
    (∀ e ∈ (nth tripleBatteryBatch 1).essentials, get_pair_essential e ≠ none) ∧
      (check_essential_conflict (nth tripleBatteryBatch 1)
          (FCFS_Scheduler tripleBatteryBatch 1 []).bookings
          (FCFS_Scheduler tripleBatteryBatch 1 []).acceptList = -1 ↔
        ∃ e ∈ (nth tripleBatteryBatch 1).essentials,
          MAX_RESOURCES ≤ overlapping_entries (nth tripleBatteryBatch 1)
            (FCFS_Scheduler tripleBatteryBatch 1 []).bookings
            (FCFS_Scheduler tripleBatteryBatch 1 []).acceptList e) :=
  ⟨by decide,
    (check_essential_conflict_spec (nth tripleBatteryBatch 1)
      (FCFS_Scheduler tripleBatteryBatch 1 []).bookings
      (FCFS_Scheduler tripleBatteryBatch 1 []).acceptList (by decide)).1⟩

/-- C16 as stated fails: `FCFS_Scheduler` accepts the three bookings of
`staggeredParkings`, but the first and the third both get slot 0. -/
theorem FCFS_staggered_slots_not_distinct :
    ¬ ((∀ i ∈ [0, 1, 2],
          (nth (FCFS_Scheduler staggeredParkings 3 []).bookings i).status = STATUS_ACCEPTED) ∧
        ∀ i ∈ [0, 1, 2], ∀ j ∈ [0, 1, 2], i ≠ j →
          (nth (FCFS_Scheduler staggeredParkings 3 []).bookings i).parking_slot ≠
            (nth (FCFS_Scheduler staggeredParkings 3 []).bookings j).parking_slot) := by
  decide

/-- C16, amended: `FCFS_Scheduler` accepts the three bookings of `staggeredParkings`
into slots 0, 1, 0: any two of them that overlap in time hold different slots, and the
first and third, which do not overlap, share slot 0. -/
theorem FCFS_staggered_accepts_all :
    (FCFS_Scheduler staggeredParkings 3 []).acceptList = [0, 1, 2] ∧
      (∀ i ∈ [0, 1, 2],
        (nth (FCFS_Scheduler staggeredParkings 3 []).bookings i).status = STATUS_ACCEPTED) ∧
      (FCFS_Scheduler staggeredParkings 3 []).bookings.map (fun b => b.parking_slot)
        = [0, 1, 0] ∧
      (∀ i ∈ [0, 1, 2], ∀ j ∈ [0, 1, 2], i ≠ j →
        time_overlap (nth (FCFS_Scheduler staggeredParkings 3 []).bookings i)
          (nth (FCFS_Scheduler staggeredParkings 3 []).bookings j) = true →
        (nth (FCFS_Scheduler staggeredParkings 3 []).bookings i).parking_slot ≠
          (nth (FCFS_Scheduler staggeredParkings 3 []).bookings j).parking_slot) ∧
      time_overlap (nth (FCFS_Scheduler staggeredParkings 3 []).bookings 0)
        (nth (FCFS_Scheduler staggeredParkings 3 []).bookings 2) = false := by
  decide

theorem FCFS_step_direct (st : SchedState) (i : Nat) (hi : i < st.bookings.length)
    (hp : (nth st.bookings i).status = STATUS_PENDING)
    (hs : (nth st.bookings i).parking_slot = -1) (hn : i ∉ st.acceptList) :
    FCFS_step st i = direct_step st i := by
  unfold FCFS_step direct_step
  rw [if_neg (not_not.mpr hp)]
  by_cases h1 : (nth st.bookings i).type ≠ "*" ∧ (nth st.bookings i).parking_slot = -1
  · simp only [if_pos h1, nth_set_self _ _ _ hi, List.set_set]
    by_cases h2 : check_parking_conflict (nth st.bookings i) st.bookings st.acceptList = -1
    · rw [if_pos ⟨h1.1, h2⟩]
      have hc : ¬ has_time_conflict (nth st.bookings i) st.bookings st.acceptList = false := by
        unfold has_time_conflict
        rw [if_neg h1.1, h2]
        simp
      rw [if_neg hc]
      rfl
    · rw [if_neg (fun h => h2 h.2)]
      rw [has_time_conflict_assigned (nth st.bookings i) st.bookings st.acceptList i rfl hn h2]
      by_cases h3 : has_time_conflict (nth st.bookings i) st.bookings st.acceptList = false
      · rw [if_pos h3, if_pos h3, if_neg h1.1]
      · rw [if_neg h3, if_neg h3]
        rfl
  · simp only [if_neg h1]
    have ht : (nth st.bookings i).type = "*" := by
      by_contra hc
      exact h1 ⟨hc, hs⟩
    by_cases h3 : has_time_conflict (nth st.bookings i) st.bookings st.acceptList = false
    · rw [if_pos h3, if_pos h3, if_pos ht]
    · rw [if_neg h3, if_neg h3]

theorem check_parking_conflict_congr (item item1 : Booking) (bs bs1 : List Booking)
    (acc acc1 : List Nat)
    (ha : available_slots item bs acc = available_slots item1 bs1 acc1)
    (hs : item.parking_slot = item1.parking_slot) :
    check_parking_conflict item bs acc = check_parking_conflict item1 bs1 acc1 := by
  unfold check_parking_conflict
  rw [ha, hs]

/-- In the direct-accept branch of `Priority_Scheduler` the slot is computed after the
candidate was appended to the accepted sequence; as the candidate holds no slot yet,
the result is the slot computed against the sequence without it. -/
theorem check_parking_conflict_appended (bs : List Booking) (acc : List Nat) (i : Nat)
    (hi : i < bs.length) (hs : (nth bs i).parking_slot = -1) (hn : i ∉ acc) :
    check_parking_conflict { nth bs i with status := STATUS_ACCEPTED }
        (bs.set i { nth bs i with status := STATUS_ACCEPTED }) (acc ++ [i])
      = check_parking_conflict (nth bs i) bs acc := by
  apply check_parking_conflict_congr
  · unfold available_slots
    rw [List.foldl_append, List.foldl_cons, List.foldl_nil]
    have hself : ∀ a : List Bool,
        mark_slot { nth bs i with status := STATUS_ACCEPTED }
          (bs.set i { nth bs i with status := STATUS_ACCEPTED }) a i = a := by
      intro a
      unfold mark_slot
      rw [nth_set_self _ _ _ hi]
      have hneg : ¬ (0 ≤ ({ nth bs i with status := STATUS_ACCEPTED } : Booking).parking_slot ∧
          ({ nth bs i with status := STATUS_ACCEPTED } : Booking).parking_slot
            < (MAX_SLOTS : Int)) := by
        show ¬ (0 ≤ (nth bs i).parking_slot ∧ (nth bs i).parking_slot < (MAX_SLOTS : Int))
        rw [hs]
        decide
      rw [if_neg hneg]
      split_ifs <;> rfl
    rw [hself]
    exact available_slots_congr _ _ _ _ _ rfl
      (fun idx hidx => nth_set_ne _ _ _ _ (fun e => hn (e ▸ hidx)))
  · rfl

theorem Priority_step_direct (st : SchedState) (i : Nat) (hi : i < st.bookings.length)
    (hp : (nth st.bookings i).status = STATUS_PENDING)
    (hs : (nth st.bookings i).parking_slot = -1) (hn : i ∉ st.acceptList)
    (hv : scan_victim (nth st.bookings i) st.bookings st.acceptList = none) :
    Priority_step st i = direct_step st i := by
  unfold Priority_step direct_step
  rw [if_neg (not_not.mpr hp)]
  by_cases h3 : has_time_conflict (nth st.bookings i) st.bookings st.acceptList = false
  · rw [if_pos h3, if_pos h3]
    dsimp only
    rw [nth_set_self _ _ _ hi]
    by_cases ht : (nth st.bookings i).type = "*"
    · have ht1 : ¬ ({ nth st.bookings i with status := STATUS_ACCEPTED } : Booking).type ≠ "*" :=
        not_not.mpr ht
      rw [if_neg ht1, if_pos ht]
    · have ht1 : ({ nth st.bookings i with status := STATUS_ACCEPTED } : Booking).type ≠ "*" :=
        ht
      rw [if_pos ht1, if_neg ht, List.set_set,
        check_parking_conflict_appended st.bookings st.acceptList i hi hs hn]
  · rw [if_neg h3, if_neg h3, hv]

theorem FCFS_run_type (bs : List Booking) (k j : Nat) :
    (nth (FCFS_Scheduler bs k []).bookings j).type = (nth bs j).type :=
  frame_type _ _ (FCFS_run_frame bs k j)

/-- In an FCFS state over a batch of one type, the backward scan for the next candidate
finds no victim. -/
theorem FCFS_run_scan_none (bs : List Booking) (t : String)
    (hT : ∀ b ∈ bs, b.type = t) (k : Nat) (hk : k < bs.length) :
    scan_victim (nth (FCFS_Scheduler bs k []).bookings k) (FCFS_Scheduler bs k []).bookings
      (FCFS_Scheduler bs k []).acceptList = none := by
  rw [scan_victim_none]
  rintro idx hidx ⟨_, hlt⟩
  have hidx1 : idx < k := FCFS_run_acc_lt bs k idx hidx
  rw [FCFS_run_type, FCFS_run_type, hT _ (nth_mem bs idx (by omega)),
    hT _ (nth_mem bs k hk)] at hlt
  exact absurd hlt (lt_irrefl _)

theorem Priority_eq_FCFS_upto (bs : List Booking) (t : String)
    (hP : ∀ b ∈ bs, b.status = STATUS_PENDING ∧ b.parking_slot = -1 ∧ b.type = t)
    (k : Nat) (hk : k ≤ bs.length) :
    Priority_Scheduler bs k [] = FCFS_Scheduler bs k [] := by
  induction k with
  | zero => rfl
  | succ k ih =>
    have hlen : k < (FCFS_Scheduler bs k []).bookings.length := by
      rw [FCFS_run_length]; omega
    have hpend := FCFS_run_pending bs (fun b hb => (hP b hb).1) k (by omega)
    have hslot : (nth (FCFS_Scheduler bs k []).bookings k).parking_slot = -1 := by
      rw [FCFS_run_untouched bs k k (le_refl k)]
      exact (hP _ (nth_mem bs k (by omega))).2.1
    have hnot : k ∉ (FCFS_Scheduler bs k []).acceptList := fun h =>
      absurd (FCFS_run_acc_lt bs k k h) (lt_irrefl k)
    have hscan := FCFS_run_scan_none bs t (fun b hb => (hP b hb).2.2) k (by omega)
    rw [Priority_Scheduler_succ, FCFS_Scheduler_succ, ih (by omega),
      Priority_step_direct _ k hlen hpend hslot hnot hscan,
      FCFS_step_direct _ k hlen hpend hslot hnot]

/-- C11: on a batch of Pending bookings with unassigned slots that all have the same
type, `Priority_Scheduler` and `FCFS_Scheduler` end in the same state (the same
accepted sequence and, for every booking, the same status and the same slot), and the
backward scan of `Priority_Scheduler` never finds a victim. -/
theorem Priority_eq_FCFS_same_type (bs : List Booking) (t : String)
    (hP : ∀ b ∈ bs, b.status = STATUS_PENDING ∧ b.parking_slot = -1 ∧ b.type = t) :
    Priority_Scheduler bs bs.length [] = FCFS_Scheduler bs bs.length [] ∧
      (Priority_Scheduler bs bs.length []).acceptList
        = (FCFS_Scheduler bs bs.length []).acceptList ∧
      (∀ i, (nth (Priority_Scheduler bs bs.length []).bookings i).status
          = (nth (FCFS_Scheduler bs bs.length []).bookings i).status ∧
        (nth (Priority_Scheduler bs bs.length []).bookings i).parking_slot
          = (nth (FCFS_Scheduler bs bs.length []).bookings i).parking_slot) ∧
      (∀ k, k < bs.length →
        scan_victim (nth (Priority_Scheduler bs k []).bookings k)
          (Priority_Scheduler bs k []).bookings (Priority_Scheduler bs k []).acceptList
          = none) := by
  have h := Priority_eq_FCFS_upto bs t hP bs.length (le_refl _)
  refine ⟨h, by rw [h], fun i => by rw [h]; exact ⟨rfl, rfl⟩, ?_⟩
  intro k hk
  rw [Priority_eq_FCFS_upto bs t hP k (by omega)]
  exact FCFS_run_scan_none bs t (fun b hb => (hP b hb).2.2) k hk

theorem Priority_eq_FCFS_same_type_witness :
    (∀ b ∈ fourParkings,
        b.status = STATUS_PENDING ∧ b.parking_slot = -1 ∧ b.type = "Parking") ∧
      Priority_Scheduler fourParkings fourParkings.length []
        = FCFS_Scheduler fourParkings fourParkings.length [] :=
  ⟨by decide, (Priority_eq_FCFS_same_type fourParkings "Parking" (by decide)).1⟩

/-- When the candidate holds no slot and exactly the slots below `m` are occupied,
`check_parking_conflict` returns `m`, or `-1` when `m = 3`. -/
theorem check_parking_conflict_first_free (item : Booking) (bs : List Booking)
    (acc : List Nat) (hs : item.parking_slot = -1) (m : Nat) (hm : m ≤ 3)
    (hocc : ∀ s : Nat, s < 3 → (slot_occupied item bs acc (s : Int) ↔ s < m)) :
    check_parking_conflict item bs acc = if m < 3 then (m : Int) else -1 := by
  have a0 := available_iff_not_occupied item bs acc 0 (by decide)
  have a1 := available_iff_not_occupied item bs acc 1 (by decide)
  have a2 := available_iff_not_occupied item bs acc 2 (by decide)
  have o0 := hocc 0 (by decide)
  have o1 := hocc 1 (by decide)
  have o2 := hocc 2 (by decide)
  have hfirst : ¬ (0 ≤ item.parking_slot ∧ item.parking_slot < (MAX_SLOTS : Int) ∧
      (available_slots item bs acc).getD item.parking_slot.toNat false = true) := by
    rw [hs]
    rintro ⟨h, _⟩
    exact absurd h (by decide)
  rw [check_parking_conflict_unrolled, if_neg hfirst]
  interval_cases m
  · rw [if_pos (a0.mpr (fun h => absurd (o0.mp h) (by decide)))]
    rfl
  · rw [if_neg (fun h => a0.mp h (o0.mpr (by decide))),
      if_pos (a1.mpr (fun h => absurd (o1.mp h) (by decide)))]
    rfl
  · rw [if_neg (fun h => a0.mp h (o0.mpr (by decide))),
      if_neg (fun h => a1.mp h (o1.mpr (by decide))),
      if_pos (a2.mpr (fun h => absurd (o2.mp h) (by decide)))]
    rfl
  · rw [if_neg (fun h => a0.mp h (o0.mpr (by decide))),
      if_neg (fun h => a1.mp h (o1.mpr (by decide))),
      if_neg (fun h => a2.mp h (o2.mpr (by decide)))]
    rfl

theorem time_overlap_of_window (a b : Booking) (hd : a.date = b.date)
    (h1 : a.start_time < b.end_time) (h2 : b.start_time < a.end_time) :
    time_overlap a b = true := by
  unfold time_overlap
  rw [if_neg (not_not.mpr hd)]
  exact decide_eq_true ⟨h1, h2⟩

theorem check_essential_conflict_nil (item : Booking) (bs : List Booking) (acc : List Nat)
    (h : item.essentials = []) : check_essential_conflict item bs acc = 0 := by
  unfold check_essential_conflict Booking.essential_count
  rw [h]
  rfl

theorem filter_lt_three_range : ∀ n : Nat, 3 ≤ n →
    (List.range n).filter (fun j => decide (j < 3)) = [0, 1, 2] := by
  intro n hn
  induction n with
  | zero => omega
  | succ n ih =>
    by_cases h3 : n = 2
    · subst h3; rfl
    · rw [List.range_succ, List.filter_append, ih (by omega)]
      have : List.filter (fun j => decide (j < 3)) [n] = [] := by
        rw [List.filter_cons, List.filter_nil]
        have : decide (n < 3) = false := decide_eq_false (by omega)
        rw [this]
        rfl
      rw [this]
      rfl

/-- On a batch of Pending Parking requests without essentials for one non-empty window,
`FCFS_Scheduler` accepts booking `i < 3` into slot `i` and rejects every later one. -/
theorem FCFS_same_window_cell (bs : List Booking) (d : String) (s e : Int) (hse : s < e)
    (hU : ∀ b ∈ bs, b.status = STATUS_PENDING ∧ b.parking_slot = -1 ∧ b.type = "Parking" ∧
      b.essentials = [] ∧ b.date = d ∧ b.start_time = s ∧ b.end_time = e) :
    ∀ i, i < bs.length →
      (i < 3 → (nth (FCFS_Scheduler bs bs.length []).bookings i).status = STATUS_ACCEPTED ∧
        (nth (FCFS_Scheduler bs bs.length []).bookings i).parking_slot = (i : Int)) ∧
      (3 ≤ i → (nth (FCFS_Scheduler bs bs.length []).bookings i).status = STATUS_REJECTED ∧
        (nth (FCFS_Scheduler bs bs.length []).bookings i).parking_slot = -1) := by
  intro i
  induction i using Nat.strong_induction_on with
  | _ i ih =>
    intro hi
    have hPs : ∀ b ∈ bs, b.status = STATUS_PENDING := fun b hb => (hU b hb).1
    obtain ⟨_, hslot0, htype0, hess0, hd0, hs0, he0⟩ := hU _ (nth_mem bs i hi)
    have hun := FCFS_run_untouched bs i i (le_refl i)
    have hlen : i < (FCFS_Scheduler bs i []).bookings.length := by
      rw [FCFS_run_length]; exact hi
    have hpend := FCFS_run_pending bs hPs i hi
    have hslot : (nth (FCFS_Scheduler bs i []).bookings i).parking_slot = -1 := by
      rw [hun]; exact hslot0
    have hnot : i ∉ (FCFS_Scheduler bs i []).acceptList := fun h =>
      absurd (FCFS_run_acc_lt bs i i h) (lt_irrefl i)
    have hmem : ∀ idx, idx ∈ (FCFS_Scheduler bs i []).acceptList ↔ idx < i ∧ idx < 3 := by
      intro idx
      rw [FCFS_run_acc_eq bs hPs i (by omega), List.mem_filter, List.mem_range]
      constructor
      · rintro ⟨h1, h2⟩
        refine ⟨h1, ?_⟩
        by_contra h3
        have := ((ih idx h1 (by omega)).2 (by omega)).1
        rw [this] at h2
        exact absurd h2 (by decide)
      · rintro ⟨h1, h2⟩
        exact ⟨h1, by simpa using ((ih idx h1 (by omega)).1 h2).1⟩
    have hocc : ∀ t : Nat, t < 3 →
        (slot_occupied (nth (FCFS_Scheduler bs i []).bookings i)
          (FCFS_Scheduler bs i []).bookings (FCFS_Scheduler bs i []).acceptList (t : Int)
          ↔ t < min i 3) := by
      intro t ht
      constructor
      · rintro ⟨idx, hidx, _, hsl⟩
        obtain ⟨h1, h2⟩ := (hmem idx).mp hidx
        rw [FCFS_run_settled bs idx i h1,
          ← FCFS_run_settled bs idx bs.length (by omega),
          ((ih idx h1 (by omega)).1 h2).2] at hsl
        have : idx = t := by exact_mod_cast hsl
        omega
      · intro h
        have h1 : t < i := by omega
        refine ⟨t, (hmem t).mpr ⟨h1, ht⟩, ?_, ?_⟩
        · obtain ⟨_, _, _, _, hd1, hs1, he1⟩ := hU _ (nth_mem bs t (by omega))
          rw [time_overlap_frame _ _ (nth bs i) (nth bs t) (FCFS_run_frame bs i i)
            (FCFS_run_frame bs i t)]
          apply time_overlap_of_window
          · rw [hd0, hd1]
          · rw [hs0, he1]; exact hse
          · rw [hs1, he0]; exact hse
        · rw [FCFS_run_settled bs t i h1, ← FCFS_run_settled bs t bs.length (by omega)]
          exact ((ih t h1 (by omega)).1 ht).2
    have hcpc := check_parking_conflict_first_free _ _ _ hslot (min i 3) (by omega) hocc
    have htype : (nth (FCFS_Scheduler bs i []).bookings i).type ≠ "*" := by
      rw [hun, htype0]; decide
    have hcec : check_essential_conflict (nth (FCFS_Scheduler bs i []).bookings i)
        (FCFS_Scheduler bs i []).bookings (FCFS_Scheduler bs i []).acceptList = 0 := by
      apply check_essential_conflict_nil
      rw [hun]; exact hess0
    obtain ⟨hiff, hsl⟩ := FCFS_step_unassigned _ i hlen hpend hslot hnot
    have hout := FCFS_step_outcome _ i hlen hpend
    rw [← FCFS_final_cell bs i hi] at hiff hsl hout
    constructor
    · intro h3
      rw [if_pos (by omega)] at hcpc
      have hmin : min i 3 = i := by omega
      rw [hmin] at hcpc
      have hno : has_time_conflict (nth (FCFS_Scheduler bs i []).bookings i)
          (FCFS_Scheduler bs i []).bookings (FCFS_Scheduler bs i []).acceptList = false := by
        unfold has_time_conflict
        rw [if_neg htype, hcpc, hcec]
        have h1 : ¬ ((i : Int) = -1) := by omega
        simp [h1]
      have hacc := hiff.mpr hno
      exact ⟨hacc, by rw [hsl hacc htype, hcpc]⟩
    · intro h3
      rw [if_neg (by omega)] at hcpc
      have hyes : has_time_conflict (nth (FCFS_Scheduler bs i []).bookings i)
          (FCFS_Scheduler bs i []).bookings (FCFS_Scheduler bs i []).acceptList = true := by
        unfold has_time_conflict
        rw [if_neg htype, hcpc]
        simp
      rcases hout with ⟨h1, _⟩ | ⟨h1, h2, _⟩
      · have := hiff.mp h1
        rw [hyes] at this
        exact absurd this (by decide)
      · exact ⟨h1, h2⟩

/-- C17: on every batch of at least 4 Pending Parking requests without essentials that
cover the same non-empty window of the same date, `FCFS_Scheduler` accepts exactly the
first three, in input order, into slots 0, 1 and 2, and rejects every later one. -/
theorem FCFS_same_window (bs : List Booking) (d : String) (s e : Int) (hse : s < e)
    (hU : ∀ b ∈ bs, b.status = STATUS_PENDING ∧ b.parking_slot = -1 ∧ b.type = "Parking" ∧
      b.essentials = [] ∧ b.date = d ∧ b.start_time = s ∧ b.end_time = e)
    (h4 : 4 ≤ bs.length) :
    (FCFS_Scheduler bs bs.length []).acceptList = [0, 1, 2] ∧
      (∀ i, i < 3 →
        (nth (FCFS_Scheduler bs bs.length []).bookings i).status = STATUS_ACCEPTED ∧
          (nth (FCFS_Scheduler bs bs.length []).bookings i).parking_slot = (i : Int)) ∧
      (∀ i, 3 ≤ i → i < bs.length →
        (nth (FCFS_Scheduler bs bs.length []).bookings i).status = STATUS_REJECTED ∧
          (nth (FCFS_Scheduler bs bs.length []).bookings i).parking_slot = -1) := by
  have hcell := FCFS_same_window_cell bs d s e hse hU
  refine ⟨?_, fun i hi => (hcell i (by omega)).1 hi, fun i h3 hi => (hcell i hi).2 h3⟩
  rw [FCFS_run_acc_eq bs (fun b hb => (hU b hb).1) bs.length (le_refl _),
    ← filter_lt_three_range bs.length (by omega)]
  apply List.filter_congr
  intro j hj
  rw [List.mem_range] at hj
  by_cases h3 : j < 3
  · rw [decide_eq_true h3, decide_eq_true ((hcell j hj).1 h3).1]
  · rw [decide_eq_false h3]
    apply decide_eq_false
    rw [((hcell j hj).2 (by omega)).1]
    decide

theorem FCFS_same_window_witness :
    ((1746867600 : Int) < 1746871200 ∧
      (∀ b ∈ fourParkings, b.status = STATUS_PENDING ∧ b.parking_slot = -1 ∧
        b.type = "Parking" ∧ b.essentials = [] ∧ b.date = "2025-05-10" ∧
        b.start_time = 1746867600 ∧ b.end_time = 1746871200) ∧
      4 ≤ fourParkings.length) ∧
      (FCFS_Scheduler fourParkings fourParkings.length []).acceptList = [0, 1, 2] :=
  ⟨by decide,
    (FCFS_same_window fourParkings "2025-05-10" 1746867600 1746871200 (by decide) (by decide)
      (by decide)).1⟩

theorem frame_fields (a b : Booking) (h : a.frame = b.frame) :
    a.member = b.member ∧ a.date = b.date ∧ a.time = b.time ∧ a.duration = b.duration ∧
      a.start_time = b.start_time ∧ a.end_time = b.end_time ∧
      a.essentials = b.essentials ∧ a.type = b.type := by
  have h1 : a.frame.member = b.frame.member := by rw [h]
  have h2 : a.frame.time = b.frame.time := by rw [h]
  have h3 : a.frame.duration = b.frame.duration := by rw [h]
  exact ⟨h1, frame_date a b h, h2, h3, frame_start a b h, frame_end a b h,
    frame_essentials a b h, frame_type a b h⟩

theorem FCFS_step_skip (st : SchedState) (i : Nat)
    (h : (nth st.bookings i).status ≠ STATUS_PENDING) : FCFS_step st i = st := by
  unfold FCFS_step
  rw [if_pos h]

theorem Priority_step_skip (st : SchedState) (i : Nat)
    (h : (nth st.bookings i).status ≠ STATUS_PENDING) : Priority_step st i = st := by
  unfold Priority_step
  rw [if_pos h]

/-- An iteration of the priority loop writes only the candidate's cell and the cell of a
member of the accepted sequence. -/
theorem Priority_step_other (st : SchedState) (i j : Nat) (hij : i ≠ j)
    (hj : j ∉ st.acceptList) :
    nth (Priority_step st i).bookings j = nth st.bookings j := by
  unfold Priority_step
  by_cases hp : (nth st.bookings i).status ≠ STATUS_PENDING
  · rw [if_pos hp]
  · rw [if_neg hp]
    by_cases hc : has_time_conflict (nth st.bookings i) st.bookings st.acceptList = false
    · rw [if_pos hc]
      dsimp only
      split_ifs
      · rw [nth_set_ne _ _ _ _ hij, nth_set_ne _ _ _ _ hij]
      · rw [nth_set_ne _ _ _ _ hij]
    · rw [if_neg hc]
      cases hv : scan_victim (nth st.bookings i) st.bookings st.acceptList with
      | none =>
        dsimp only
        rw [nth_set_ne _ _ _ _ hij]
      | some low =>
        dsimp only
        have hlow := (scan_victim_some _ _ _ _ hv).1
        have hr : st.acceptList.getD low 0 ≠ j := by
          intro e
          apply hj
          rw [← e, List.getD_eq_getElem _ _ hlow]
          exact List.getElem_mem hlow
        rw [nth_set_ne _ _ _ _ hr, nth_set_ne _ _ _ _ hij]

/-- An iteration of the priority loop changes nothing but status and slot. -/
theorem Priority_step_frame (st : SchedState) (i j : Nat) :
    (nth (Priority_step st i).bookings j).frame = (nth st.bookings j).frame := by
  unfold Priority_step
  by_cases hp : (nth st.bookings i).status ≠ STATUS_PENDING
  · rw [if_pos hp]
  · rw [if_neg hp]
    by_cases hc : has_time_conflict (nth st.bookings i) st.bookings st.acceptList = false
    · rw [if_pos hc]
      dsimp only
      have h1 : ∀ idx, (nth (st.bookings.set i
          { nth st.bookings i with status := STATUS_ACCEPTED }) idx).frame
          = (nth st.bookings idx).frame := set_frame _ _ _ rfl
      split_ifs
      · refine Eq.trans (set_frame _ _ _ ?_ j) (h1 j)
        rfl
      · exact h1 j
    · rw [if_neg hc]
      cases hv : scan_victim (nth st.bookings i) st.bookings st.acceptList with
      | none =>
        dsimp only
        refine set_frame _ _ _ ?_ j
        rfl
      | some low =>
        dsimp only
        refine Eq.trans (set_frame _ _ _ ?_ j) (set_frame _ _ _ ?_ j)
        · rfl
        · rfl

theorem Priority_run_frame (bs : List Booking) (k j : Nat) :
    (nth (Priority_Scheduler bs k []).bookings j).frame = (nth bs j).frame := by
  induction k with
  | zero => rfl
  | succ k ih => rw [Priority_Scheduler_succ, Priority_step_frame, ih]

theorem Priority_run_untouched (bs : List Booking) (k j : Nat) (h : k ≤ j) :
    nth (Priority_Scheduler bs k []).bookings j = nth bs j := by
  induction k with
  | zero => rfl
  | succ k ih =>
    rw [Priority_Scheduler_succ, Priority_step_other _ _ _ (by omega)
      (fun hm => absurd (Priority_run_acc_lt bs k j hm) (by omega)), ih (by omega)]

/-- A booking that is not Pending on entry is never written by the FCFS loop and never
enters its accepted sequence. -/
theorem FCFS_run_nonpending (bs : List Booking) (k j : Nat)
    (h : (nth bs j).status ≠ STATUS_PENDING) :
    nth (FCFS_Scheduler bs k []).bookings j = nth bs j ∧
      j ∉ (FCFS_Scheduler bs k []).acceptList := by
  induction k with
  | zero => exact ⟨rfl, List.not_mem_nil j⟩
  | succ k ih =>
    rw [FCFS_Scheduler_succ]
    by_cases hk : k = j
    · subst hk
      rw [FCFS_step_skip _ _ (by rw [ih.1]; exact h)]
      exact ih
    · refine ⟨by rw [FCFS_step_other _ _ _ hk, ih.1], ?_⟩
      rcases FCFS_step_acceptList (FCFS_Scheduler bs k []) k with e | e
      · rw [e]; exact ih.2
      · rw [e, List.mem_append, List.mem_singleton]
        rintro (hm | hm)
        · exact ih.2 hm
        · exact hk hm.symm

/-- A booking that is not Pending on entry is never written by the priority loop and
never enters its accepted sequence. -/
theorem Priority_run_nonpending (bs : List Booking) (k j : Nat)
    (h : (nth bs j).status ≠ STATUS_PENDING) :
    nth (Priority_Scheduler bs k []).bookings j = nth bs j ∧
      j ∉ (Priority_Scheduler bs k []).acceptList := by
  induction k with
  | zero => exact ⟨rfl, List.not_mem_nil j⟩
  | succ k ih =>
    rw [Priority_Scheduler_succ]
    by_cases hk : k = j
    · subst hk
      rw [Priority_step_skip _ _ (by rw [ih.1]; exact h)]
      exact ih
    · refine ⟨by rw [Priority_step_other _ _ _ hk ih.2, ih.1], ?_⟩
      intro hm
      rcases Priority_step_acc_mem _ _ _ hm with hm1 | hm1
      · exact ih.2 hm1
      · exact hk hm1.symm

/-- C20: `FCFS_Scheduler` and `Priority_Scheduler`, started from an empty accepted
sequence, keep the length and order of the batch and change nothing in a booking but
its status and its slot; a booking that is not Pending on entry is left entirely
unchanged and is not added to the accepted sequence. -/
theorem schedulers_frame (bs : List Booking) (k j : Nat) :
    ((FCFS_Scheduler bs k []).bookings.length = bs.length ∧
        ((nth (FCFS_Scheduler bs k []).bookings j).member = (nth bs j).member ∧
          (nth (FCFS_Scheduler bs k []).bookings j).date = (nth bs j).date ∧
          (nth (FCFS_Scheduler bs k []).bookings j).time = (nth bs j).time ∧
          (nth (FCFS_Scheduler bs k []).bookings j).duration = (nth bs j).duration ∧
          (nth (FCFS_Scheduler bs k []).bookings j).start_time = (nth bs j).start_time ∧
          (nth (FCFS_Scheduler bs k []).bookings j).end_time = (nth bs j).end_time ∧
          (nth (FCFS_Scheduler bs k []).bookings j).essentials = (nth bs j).essentials ∧
          (nth (FCFS_Scheduler bs k []).bookings j).type = (nth bs j).type) ∧
        ((nth bs j).status ≠ STATUS_PENDING →
          nth (FCFS_Scheduler bs k []).bookings j = nth bs j ∧
            j ∉ (FCFS_Scheduler bs k []).acceptList)) ∧
      ((Priority_Scheduler bs k []).bookings.length = bs.length ∧
        ((nth (Priority_Scheduler bs k []).bookings j).member = (nth bs j).member ∧
          (nth (Priority_Scheduler bs k []).bookings j).date = (nth bs j).date ∧
          (nth (Priority_Scheduler bs k []).bookings j).time = (nth bs j).time ∧
          (nth (Priority_Scheduler bs k []).bookings j).duration = (nth bs j).duration ∧
          (nth (Priority_Scheduler bs k []).bookings j).start_time = (nth bs j).start_time ∧
          (nth (Priority_Scheduler bs k []).bookings j).end_time = (nth bs j).end_time ∧
          (nth (Priority_Scheduler bs k []).bookings j).essentials = (nth bs j).essentials ∧
          (nth (Priority_Scheduler bs k []).bookings j).type = (nth bs j).type) ∧
        ((nth bs j).status ≠ STATUS_PENDING →
          nth (Priority_Scheduler bs k []).bookings j = nth bs j ∧
            j ∉ (Priority_Scheduler bs k []).acceptList)) :=
  ⟨⟨FCFS_run_length bs k, frame_fields _ _ (FCFS_run_frame bs k j),
      FCFS_run_nonpending bs k j⟩,
    ⟨Priority_run_length bs k, frame_fields _ _ (Priority_run_frame bs k j),
      Priority_run_nonpending bs k j⟩⟩

theorem get_priority_level_nonneg (t : String) : 0 ≤ get_priority_level t := by
  unfold get_priority_level
  split_ifs <;> decide

theorem has_time_conflict_star (item : Booking) (bs : List Booking) (acc : List Nat)
    (ht : item.type = "*") :
    has_time_conflict item bs acc = decide (check_essential_conflict item bs acc = -1) := by
  unfold has_time_conflict
  rw [if_pos ht]

/-- A candidate of type `*` has the lowest priority level, so the backward scan never
finds a victim for it. -/
theorem scan_victim_star (item : Booking) (bs : List Booking) (acc : List Nat)
    (ht : item.type = "*") : scan_victim item bs acc = none := by
  cases hv : scan_victim item bs acc with
  | none => rfl
  | some low =>
    have h := (scan_victim_some _ _ _ _ hv).2.2
    rw [ht] at h
    have h0 := get_priority_level_nonneg (nth bs (acc.getD low 0)).type
    have h1 : get_priority_level "*" = 0 := by decide
    omega

/-- A booking that holds no slot in range never marks a slot unavailable. -/
theorem mark_slot_unassigned (item : Booking) (bs : List Booking) (avail : List Bool)
    (idx : Nat) (h : (nth bs idx).parking_slot = -1) : mark_slot item bs avail idx = avail := by
  unfold mark_slot
  have hneg : ¬ (0 ≤ (nth bs idx).parking_slot ∧ (nth bs idx).parking_slot < (MAX_SLOTS : Int)) := by
    rw [h]; decide
  rw [if_neg hneg]
  split_ifs <;> rfl

theorem FCFS_step_star (st : SchedState) (i : Nat)
    (hinv : ∀ j, (nth st.bookings j).type = "*" → (nth st.bookings j).parking_slot = -1)
    (j : Nat) (ht : (nth (FCFS_step st i).bookings j).type = "*") :
    (nth (FCFS_step st i).bookings j).parking_slot = -1 := by
  have ht0 : (nth st.bookings j).type = "*" := by
    rw [← frame_type _ _ (FCFS_step_frame st i j)]; exact ht
  by_cases hij : i = j
  · subst hij
    unfold FCFS_step
    by_cases hp : (nth st.bookings i).status ≠ STATUS_PENDING
    · rw [if_pos hp]; exact hinv i ht0
    · rw [if_neg hp]
      have h1 : ¬ ((nth st.bookings i).type ≠ "*" ∧ (nth st.bookings i).parking_slot = -1) :=
        fun h => h.1 ht0
      simp only [if_neg h1]
      split_ifs
      · rw [nth_set]
        split_ifs
        · exact hinv i ht0
        · exact hinv i ht0
      · rw [nth_set]
        split_ifs
        · rfl
        · exact hinv i ht0
  · rw [FCFS_step_other st i j hij]
    exact hinv j ht0

theorem Priority_step_star (st : SchedState) (i : Nat)
    (hinv : ∀ j, (nth st.bookings j).type = "*" → (nth st.bookings j).parking_slot = -1)
    (j : Nat) (ht : (nth (Priority_step st i).bookings j).type = "*") :
    (nth (Priority_step st i).bookings j).parking_slot = -1 := by
  have ht0 : (nth st.bookings j).type = "*" := by
    rw [← frame_type _ _ (Priority_step_frame st i j)]; exact ht
  unfold Priority_step
  by_cases hp : (nth st.bookings i).status ≠ STATUS_PENDING
  · rw [if_pos hp]; exact hinv j ht0
  · rw [if_neg hp]
    by_cases hc : has_time_conflict (nth st.bookings i) st.bookings st.acceptList = false
    · rw [if_pos hc]
      dsimp only
      by_cases hij : i = j
      · subst hij
        have htype : (nth (st.bookings.set i
            { nth st.bookings i with status := STATUS_ACCEPTED }) i).type = "*" := by
          refine Eq.trans (frame_type _ _ (set_frame st.bookings i _ ?_ i)) ht0
          rfl
        rw [if_neg (not_not.mpr htype), nth_set]
        split_ifs
        · exact hinv i ht0
        · exact hinv i ht0
      · split_ifs
        · rw [nth_set_ne _ _ _ _ hij, nth_set_ne _ _ _ _ hij]; exact hinv j ht0
        · rw [nth_set_ne _ _ _ _ hij]; exact hinv j ht0
    · rw [if_neg hc]
      cases hv : scan_victim (nth st.bookings i) st.bookings st.acceptList with
      | none =>
        dsimp only
        rw [nth_set]
        split_ifs
        · rfl
        · exact hinv j ht0
      | some low =>
        dsimp only
        have hprio := (scan_victim_some _ _ _ _ hv).2.2
        have hnn := get_priority_level_nonneg
          (nth st.bookings (st.acceptList.getD low 0)).type
        rw [nth_set]
        split_ifs with h1
        · rfl
        · rw [nth_set]
          split_ifs with h2
          · exfalso
            rw [h2.1, ht0] at hprio
            have h0 : get_priority_level "*" = 0 := by decide
            omega
          · exact hinv j ht0

theorem star_base (bs : List Booking)
    (hP : ∀ b ∈ bs, b.status = STATUS_PENDING ∧ b.parking_slot = -1) (j : Nat)
    (ht : (nth bs j).type = "*") : (nth bs j).parking_slot = -1 := by
  by_cases hj : j < bs.length
  · exact (hP _ (nth_mem bs j hj)).2
  · rw [nth_of_le bs j (by omega)] at ht
    exact absurd ht (by decide)

theorem FCFS_run_star (bs : List Booking)
    (hP : ∀ b ∈ bs, b.status = STATUS_PENDING ∧ b.parking_slot = -1) (k : Nat) :
    ∀ j, (nth (FCFS_Scheduler bs k []).bookings j).type = "*" →
      (nth (FCFS_Scheduler bs k []).bookings j).parking_slot = -1 := by
  induction k with
  | zero => exact star_base bs hP
  | succ k ih =>
    rw [FCFS_Scheduler_succ]
    exact FCFS_step_star _ k ih

theorem Priority_run_star (bs : List Booking)
    (hP : ∀ b ∈ bs, b.status = STATUS_PENDING ∧ b.parking_slot = -1) (k : Nat) :
    ∀ j, (nth (Priority_Scheduler bs k []).bookings j).type = "*" →
      (nth (Priority_Scheduler bs k []).bookings j).parking_slot = -1 := by
  induction k with
  | zero => exact star_base bs hP
  | succ k ih =>
    rw [Priority_Scheduler_succ]
    exact Priority_step_star _ k ih

/-- The priority iteration accepts a Pending candidate of type `*` exactly when
`check_essential_conflict` reports no conflict. -/
theorem Priority_step_star_decision (st : SchedState) (i : Nat)
    (hi : i < st.bookings.length) (hp : (nth st.bookings i).status = STATUS_PENDING)
    (ht : (nth st.bookings i).type = "*") :
    (nth (Priority_step st i).bookings i).status = STATUS_ACCEPTED ↔
      check_essential_conflict (nth st.bookings i) st.bookings st.acceptList ≠ -1 := by
  unfold Priority_step
  rw [if_neg (not_not.mpr hp), has_time_conflict_star _ _ _ ht,
    scan_victim_star _ _ _ ht]
  by_cases hc : check_essential_conflict (nth st.bookings i) st.bookings st.acceptList = -1
  · rw [if_neg (by rw [decide_eq_true hc]; decide)]
    dsimp only
    rw [nth_set_self _ _ _ hi]
    constructor
    · intro h
      exact absurd (show STATUS_REJECTED = STATUS_ACCEPTED from h) (by decide)
    · intro h
      exact absurd hc h
  · rw [if_pos (decide_eq_false hc)]
    dsimp only
    have htype : (nth (st.bookings.set i
        { nth st.bookings i with status := STATUS_ACCEPTED }) i).type = "*" := by
      rw [nth_set_self _ _ _ hi]; exact ht
    rw [if_neg (not_not.mpr htype), nth_set_self _ _ _ hi]
    exact ⟨fun _ => hc, fun _ => rfl⟩

/-- C19: after any number of iterations of either scheduler on a batch of Pending
bookings with unassigned slot, every booking of type `*` still has slot `-1`, so it
never marks a slot unavailable for any candidate; and a candidate of type `*` is
accepted by its iteration exactly when `check_essential_conflict` reports no conflict. -/
theorem essentials_only_holds_no_slot (bs : List Booking)
    (hP : ∀ b ∈ bs, b.status = STATUS_PENDING ∧ b.parking_slot = -1) (k j : Nat)
    (ht : (nth bs j).type = "*") :
    ((nth (FCFS_Scheduler bs k []).bookings j).parking_slot = -1 ∧
        (nth (Priority_Scheduler bs k []).bookings j).parking_slot = -1) ∧
      (∀ (item : Booking) (avail : List Bool),
        mark_slot item (FCFS_Scheduler bs k []).bookings avail j = avail ∧
          mark_slot item (Priority_Scheduler bs k []).bookings avail j = avail) ∧
      (∀ (bookings : List Booking) (acceptList : List Nat),
        has_time_conflict (nth bs j) bookings acceptList =
          decide (check_essential_conflict (nth bs j) bookings acceptList = -1)) ∧
      (j < bs.length →
        ((nth (FCFS_Scheduler bs (j + 1) []).bookings j).status = STATUS_ACCEPTED ↔
          check_essential_conflict (nth bs j) (FCFS_Scheduler bs j []).bookings
            (FCFS_Scheduler bs j []).acceptList ≠ -1) ∧
        ((nth (Priority_Scheduler bs (j + 1) []).bookings j).status = STATUS_ACCEPTED ↔
          check_essential_conflict (nth bs j) (Priority_Scheduler bs j []).bookings
            (Priority_Scheduler bs j []).acceptList ≠ -1)) := by
  have hf : (nth (FCFS_Scheduler bs k []).bookings j).parking_slot = -1 :=
    FCFS_run_star bs hP k j (by rw [frame_type _ _ (FCFS_run_frame bs k j)]; exact ht)
  have hq : (nth (Priority_Scheduler bs k []).bookings j).parking_slot = -1 :=
    Priority_run_star bs hP k j (by rw [frame_type _ _ (Priority_run_frame bs k j)]; exact ht)
  refine ⟨⟨hf, hq⟩, fun item avail =>
    ⟨mark_slot_unassigned _ _ _ _ hf, mark_slot_unassigned _ _ _ _ hq⟩,
    fun bookings acceptList => has_time_conflict_star _ _ _ ht, ?_⟩
  intro hj
  constructor
  · have hun := FCFS_run_untouched bs j j (le_refl j)
    have hlen : j < (FCFS_Scheduler bs j []).bookings.length := by
      rw [FCFS_run_length]; exact hj
    have hpend := FCFS_run_pending bs (fun b hb => (hP b hb).1) j hj
    have hslot : (nth (FCFS_Scheduler bs j []).bookings j).parking_slot = -1 := by
      rw [hun]; exact (hP _ (nth_mem bs j hj)).2
    have hnot : j ∉ (FCFS_Scheduler bs j []).acceptList := fun h =>
      absurd (FCFS_run_acc_lt bs j j h) (lt_irrefl j)
    have h1 := (FCFS_step_unassigned _ j hlen hpend hslot hnot).1
    rw [FCFS_Scheduler_succ, h1, hun, has_time_conflict_star _ _ _ ht]
    simp
  · have hun := Priority_run_untouched bs j j (le_refl j)
    have hlen : j < (Priority_Scheduler bs j []).bookings.length := by
      rw [Priority_run_length]; exact hj
    have hpend : (nth (Priority_Scheduler bs j []).bookings j).status = STATUS_PENDING := by
      rw [hun]; exact (hP _ (nth_mem bs j hj)).1
    have h1 := Priority_step_star_decision _ j hlen hpend (by rw [hun]; exact ht)
    rw [Priority_Scheduler_succ, h1, hun]

theorem essentials_only_holds_no_slot_witness :
    ((∀ b ∈ batteryOverflowBatch, b.status = STATUS_PENDING ∧ b.parking_slot = -1) ∧
      (nth batteryOverflowBatch 0).type = "*") ∧
      ((nth (FCFS_Scheduler batteryOverflowBatch 5 []).bookings 0).parking_slot = -1 ∧
        (nth (Priority_Scheduler batteryOverflowBatch 5 []).bookings 0).parking_slot = -1) :=
  ⟨by decide, (essentials_only_holds_no_slot batteryOverflowBatch (by decide) 5 0 (by decide)).1⟩

/-- The scan leaves `lowestPriorityIndex` alone over positions that are not eligible. -/
theorem scan_foldl_keep (item : Booking) (bs : List Booking) (acc : List Nat) :
    ∀ (l : List Nat) (init : Option Nat),
      (∀ t ∈ l, ¬ (time_overlap item (nth bs (acc.getD t 0)) = true ∧
        get_priority_level (nth bs (acc.getD t 0)).type < get_priority_level item.type)) →
      l.foldl (scan_step item bs acc) init = init := by
  intro l
  induction l with
  | nil => intro init _; rfl
  | cons x xs ih =>
    intro init h
    rw [List.foldl_cons, ih _ (fun t ht => h t (List.mem_cons_of_mem _ ht))]
    unfold scan_step
    have hx := h x (List.mem_cons_self _ _)
    by_cases ho : time_overlap item (nth bs (acc.getD x 0)) = false
    · rw [if_pos ho]
    · rw [if_neg ho]
      have ho1 : time_overlap item (nth bs (acc.getD x 0)) = true := by simpa using ho
      rw [if_neg (fun hl => hx ⟨ho1, hl⟩)]

theorem scan_step_eligible (item : Booking) (bs : List Booking) (acc : List Nat)
    (init : Option Nat) (n : Nat)
    (h : time_overlap item (nth bs (acc.getD n 0)) = true ∧
      get_priority_level (nth bs (acc.getD n 0)).type < get_priority_level item.type) :
    scan_step item bs acc init n = some n := by
  unfold scan_step
  rw [if_neg (by rw [h.1]; decide), if_pos h.2]

/-- Scanning the positions `n-1, ..., 0` ends on the smallest eligible position. -/
theorem scan_range_least (item : Booking) (bs : List Booking) (acc : List Nat) :
    ∀ (n : Nat) (init : Option Nat) (j : Nat), j < n →
      (time_overlap item (nth bs (acc.getD j 0)) = true ∧
        get_priority_level (nth bs (acc.getD j 0)).type < get_priority_level item.type) →
      (∀ t, t < j → ¬ (time_overlap item (nth bs (acc.getD t 0)) = true ∧
        get_priority_level (nth bs (acc.getD t 0)).type < get_priority_level item.type)) →
      (List.range n).reverse.foldl (scan_step item bs acc) init = some j := by
  intro n
  induction n with
  | zero => intro init j hj; omega
  | succ n ih =>
    intro init j hj he hmin
    rw [List.range_succ, List.reverse_append, List.reverse_singleton, List.singleton_append,
      List.foldl_cons]
    by_cases hjn : j = n
    · subst hjn
      rw [scan_step_eligible item bs acc init j he]
      apply scan_foldl_keep
      intro t ht
      rw [List.mem_reverse, List.mem_range] at ht
      exact hmin t ht
    · exact ih _ j (by omega) he hmin

/-- The preemption branch of `Priority_step`, in closed form. -/
theorem Priority_step_preempt_eq (st : SchedState) (i low : Nat)
    (hp : (nth st.bookings i).status = STATUS_PENDING)
    (hc : has_time_conflict (nth st.bookings i) st.bookings st.acceptList = true)
    (hv : scan_victim (nth st.bookings i) st.bookings st.acceptList = some low) :
    Priority_step st i =
      { bookings := (st.bookings.set i
          { nth st.bookings i with
            parking_slot := (nth st.bookings (st.acceptList.getD low 0)).parking_slot,
            status := STATUS_ACCEPTED }).set (st.acceptList.getD low 0)
          (cancelBooking (nth (st.bookings.set i
            { nth st.bookings i with
              parking_slot := (nth st.bookings (st.acceptList.getD low 0)).parking_slot,
              status := STATUS_ACCEPTED }) (st.acceptList.getD low 0))),
        acceptList := st.acceptList.set low i } := by
  unfold Priority_step
  rw [if_neg (not_not.mpr hp), if_neg (by rw [hc]; decide), hv]

/-- C26: when a Pending candidate conflicts and position `j` is the smallest position of
the accepted sequence whose booking overlaps the candidate with strictly lower
priority (the last one the backward scan meets), `Priority_Scheduler` evicts the
booking at position `j`: the scan returns `j`, the candidate's index overwrites
position `j`, every other position is kept, and that booking becomes Rejected. -/
theorem Priority_evicts_least_position (st : SchedState) (i j : Nat)
    (hp : (nth st.bookings i).status = STATUS_PENDING)
    (hc : has_time_conflict (nth st.bookings i) st.bookings st.acceptList = true)
    (hj : j < st.acceptList.length)
    (he : time_overlap (nth st.bookings i) (nth st.bookings (st.acceptList.getD j 0)) = true ∧
      get_priority_level (nth st.bookings (st.acceptList.getD j 0)).type
        < get_priority_level (nth st.bookings i).type)
    (hmin : ∀ t, t < j →
      ¬ (time_overlap (nth st.bookings i) (nth st.bookings (st.acceptList.getD t 0)) = true ∧
        get_priority_level (nth st.bookings (st.acceptList.getD t 0)).type
          < get_priority_level (nth st.bookings i).type)) :
    scan_victim (nth st.bookings i) st.bookings st.acceptList = some j ∧
      (Priority_step st i).acceptList = st.acceptList.set j i ∧
      (∀ t, t ≠ j → (Priority_step st i).acceptList.getD t 0 = st.acceptList.getD t 0) ∧
      (st.acceptList.getD j 0 < st.bookings.length →
        (nth (Priority_step st i).bookings (st.acceptList.getD j 0)).status
          = STATUS_REJECTED) := by
  have hv : scan_victim (nth st.bookings i) st.bookings st.acceptList = some j := by
    unfold scan_victim
    exact scan_range_least _ _ _ _ none j hj he hmin
  rw [Priority_step_preempt_eq st i j hp hc hv]
  refine ⟨hv, rfl, ?_, ?_⟩
  · intro t ht
    show (st.acceptList.set j i).getD t 0 = st.acceptList.getD t 0
    rw [List.getD_eq_getElem?_getD, List.getD_eq_getElem?_getD,
      List.getElem?_set_ne (fun e => ht e.symm)]
  · intro hr
    have hr1 : st.acceptList.getD j 0 < (st.bookings.set i
        { nth st.bookings i with
          parking_slot := (nth st.bookings (st.acceptList.getD j 0)).parking_slot,
          status := STATUS_ACCEPTED }).length := by
      rw [List.length_set]; exact hr
    rw [nth_set_self _ _ _ hr1]
    rfl

theorem Priority_evicts_least_position_witness :
    ((nth (Priority_Scheduler threeParkingsThenEvent 3 []).bookings 3).status
        = STATUS_PENDING ∧
      has_time_conflict (nth (Priority_Scheduler threeParkingsThenEvent 3 []).bookings 3)
        (Priority_Scheduler threeParkingsThenEvent 3 []).bookings
        (Priority_Scheduler threeParkingsThenEvent 3 []).acceptList = true ∧
      0 < (Priority_Scheduler threeParkingsThenEvent 3 []).acceptList.length) ∧
      (Priority_step (Priority_Scheduler threeParkingsThenEvent 3 []) 3).acceptList =
        (Priority_Scheduler threeParkingsThenEvent 3 []).acceptList.set 0 3 :=
  ⟨by decide,
    (Priority_evicts_least_position (Priority_Scheduler threeParkingsThenEvent 3 []) 3 0
      (by decide) (by decide) (by decide) (by decide) (by decide)).2.1⟩

/-- C29: on `threeParkingsThenEvent` the priority scheduler returns the accepted
sequence `[3, 1, 2]`, which is not increasing; the coordinator's single pass then
lists 0, 1 and 2 as rejected although 1 and 2 are accepted, and the accepted and
rejected counts add up to 6 for 4 bookings. On the increasing sequence that
`FCFS_Scheduler` returns the same pass gives the complement. -/
theorem rejected_indices_after_preemption :
    (Priority_Scheduler threeParkingsThenEvent 4 []).acceptList = [3, 1, 2] ∧
      rejected_indices 4 (Priority_Scheduler threeParkingsThenEvent 4 []).acceptList
        = [0, 1, 2] ∧
      (1 ∈ (Priority_Scheduler threeParkingsThenEvent 4 []).acceptList ∧
        1 ∈ rejected_indices 4 (Priority_Scheduler threeParkingsThenEvent 4 []).acceptList) ∧
      (Priority_Scheduler threeParkingsThenEvent 4 []).acceptList.length +
          (rejected_indices 4
            (Priority_Scheduler threeParkingsThenEvent 4 []).acceptList).length = 6 ∧
      (FCFS_Scheduler threeParkingsThenEvent 4 []).acceptList = [0, 1, 2] ∧
      rejected_indices 4 (FCFS_Scheduler threeParkingsThenEvent 4 []).acceptList = [3] := by
  decide

theorem nth_take (L : List Booking) (k idx : Nat) (h : idx < k) :
    nth (L.take k) idx = nth L idx := by
  unfold nth
  rw [List.getElem?_take_of_lt h]

theorem total_usage_congr_on (item : Booking) (bs bs1 : List Booking) (acc : List Nat)
    (e : String) (hb : ∀ idx ∈ acc, nth bs idx = nth bs1 idx) :
    total_usage item bs acc e = total_usage item bs1 acc e := by
  unfold total_usage
  apply List.foldl_ext
  intro a idx hidx
  unfold usage_step
  rw [hb idx hidx]

theorem check_essential_conflict_congr_on (item : Booking) (bs bs1 : List Booking)
    (acc : List Nat) (hb : ∀ idx ∈ acc, nth bs idx = nth bs1 idx) :
    check_essential_conflict item bs acc = check_essential_conflict item bs1 acc := by
  unfold check_essential_conflict
  have : (fun e => decide (MAX_RESOURCES ≤ total_usage item bs acc e)) =
      (fun e => decide (MAX_RESOURCES ≤ total_usage item bs1 acc e)) := by
    funext e
    rw [total_usage_congr_on item bs bs1 acc e hb]
  rw [this]

theorem check_parking_conflict_congr_on (item : Booking) (bs bs1 : List Booking)
    (acc : List Nat) (hb : ∀ idx ∈ acc, nth bs idx = nth bs1 idx) :
    check_parking_conflict item bs acc = check_parking_conflict item bs1 acc :=
  check_parking_conflict_congr item item bs bs1 acc acc
    (available_slots_congr item item bs bs1 acc rfl hb) rfl

/-- The conflict checks read the batch only at the indices of the accepted sequence. -/
theorem has_time_conflict_congr_on (item : Booking) (bs bs1 : List Booking)
    (acc : List Nat) (hb : ∀ idx ∈ acc, nth bs idx = nth bs1 idx) :
    has_time_conflict item bs acc = has_time_conflict item bs1 acc := by
  unfold has_time_conflict
  rw [check_parking_conflict_congr_on item bs bs1 acc hb,
    check_essential_conflict_congr_on item bs bs1 acc hb]

/-- An FCFS iteration on the first `k` cells of the batch is the iteration on the whole
batch, cut to its first `k` cells. -/
theorem FCFS_step_take (st : SchedState) (j k : Nat) (hjk : j < k)
    (hacc : ∀ idx ∈ st.acceptList, idx < k) :
    FCFS_step { bookings := st.bookings.take k, acceptList := st.acceptList } j =
      { bookings := (FCFS_step st j).bookings.take k,
        acceptList := (FCFS_step st j).acceptList } := by
  have hn : ∀ L : List Booking, nth (L.take k) j = nth L j := fun L => nth_take L k j hjk
  have hon : ∀ L : List Booking, ∀ idx ∈ st.acceptList, nth (L.take k) idx = nth L idx :=
    fun L idx hidx => nth_take L k idx (hacc idx hidx)
  have htc : ∀ (item : Booking) (L : List Booking),
      has_time_conflict item (L.take k) st.acceptList = has_time_conflict item L st.acceptList :=
    fun item L => has_time_conflict_congr_on item _ _ _ (hon L)
  have hcp : ∀ (item : Booking) (L : List Booking),
      check_parking_conflict item (L.take k) st.acceptList
        = check_parking_conflict item L st.acceptList :=
    fun item L => check_parking_conflict_congr_on item _ _ _ (hon L)
  have hset : ∀ (L : List Booking) (x : Booking),
      (L.take k).set j x = (L.set j x).take k := fun L x => List.set_take.symm
  unfold FCFS_step
  dsimp only
  rw [hn]
  by_cases hp : (nth st.bookings j).status ≠ STATUS_PENDING
  · rw [if_pos hp, if_pos hp]
  · rw [if_neg hp, if_neg hp]
    by_cases h1 : (nth st.bookings j).type ≠ "*" ∧ (nth st.bookings j).parking_slot = -1
    · simp only [if_pos h1, hcp, hset, hn, htc]
      split_ifs <;> rfl
    · simp only [if_neg h1, hset, hn, htc]
      split_ifs <;> rfl

theorem FCFS_run_take (bs : List Booking) (k : Nat) :
    ∀ m, m ≤ k → FCFS_Scheduler (bs.take k) m [] =
      { bookings := (FCFS_Scheduler bs m []).bookings.take k,
        acceptList := (FCFS_Scheduler bs m []).acceptList } := by
  intro m
  induction m with
  | zero => intro _; rfl
  | succ m ih =>
    intro hm
    rw [FCFS_Scheduler_succ, FCFS_Scheduler_succ, ih (by omega)]
    exact FCFS_step_take _ m k (by omega)
      (fun idx hidx => by have := FCFS_run_acc_lt bs m idx hidx; omega)

/-- The accepted sequence only grows at its end. -/
theorem FCFS_run_acc_extends (bs : List Booking) (k : Nat) :
    ∀ d, ∃ t, (FCFS_Scheduler bs (k + d) []).acceptList
      = (FCFS_Scheduler bs k []).acceptList ++ t := by
  intro d
  induction d with
  | zero => exact ⟨[], by simp⟩
  | succ d ih =>
    obtain ⟨t, ht⟩ := ih
    have hs : FCFS_Scheduler bs (k + (d + 1)) [] =
        FCFS_step (FCFS_Scheduler bs (k + d) []) (k + d) := FCFS_Scheduler_succ bs (k + d) []
    rcases FCFS_step_acceptList (FCFS_Scheduler bs (k + d) []) (k + d) with e | e
    · exact ⟨t, by rw [hs, e, ht]⟩
    · exact ⟨t ++ [k + d], by rw [hs, e, ht, List.append_assoc]⟩

/-- C27: `FCFS_Scheduler` never re-evaluates an earlier decision: for every batch and
every `k`, each of the first `k` bookings ends in the same state (status and slot
included) in the run on the whole batch as in the run on the first `k` bookings alone,
and the accepted sequence of the whole run starts with that of the shorter run. -/
theorem FCFS_no_reevaluation (bs : List Booking) (k : Nat) :
    (∀ i, i < k →
        nth (FCFS_Scheduler bs bs.length []).bookings i =
          nth (FCFS_Scheduler (bs.take k) (bs.take k).length []).bookings i ∧
        (nth (FCFS_Scheduler bs bs.length []).bookings i).status =
          (nth (FCFS_Scheduler (bs.take k) (bs.take k).length []).bookings i).status ∧
        (nth (FCFS_Scheduler bs bs.length []).bookings i).parking_slot =
          (nth (FCFS_Scheduler (bs.take k) (bs.take k).length []).bookings i).parking_slot) ∧
      ∃ t, (FCFS_Scheduler bs bs.length []).acceptList =
        (FCFS_Scheduler (bs.take k) (bs.take k).length []).acceptList ++ t := by
  by_cases hk : bs.length ≤ k
  · rw [List.take_of_length_le hk]
    exact ⟨fun i _ => ⟨rfl, rfl, rfl⟩, ⟨[], by simp⟩⟩
  · have hlen : (bs.take k).length = k := by
      rw [List.length_take]; omega
    rw [hlen, FCFS_run_take bs k k (le_refl k)]
    constructor
    · intro i hi
      have h : nth (FCFS_Scheduler bs bs.length []).bookings i =
          nth ((FCFS_Scheduler bs k []).bookings.take k) i := by
        rw [nth_take _ k i hi, FCFS_run_settled bs i bs.length (by omega),
          FCFS_run_settled bs i k hi]
      exact ⟨h, by rw [h], by rw [h]⟩
    · obtain ⟨t, ht⟩ := FCFS_run_acc_extends bs k (bs.length - k)
      have : k + (bs.length - k) = bs.length := by omega
      rw [this] at ht
      exact ⟨t, ht⟩

/-- Overwriting one position of a duplicate-free list removes the old entry and adds
the new one. -/
theorem mem_set_nodup (l : List Nat) (low k x : Nat) (hl : l.Nodup) (hlow : low < l.length) :
    x ∈ l.set low k ↔ x = k ∨ (x ∈ l ∧ x ≠ l.getD low 0) := by
  have hget : l.getD low 0 = l[low] := List.getD_eq_getElem _ _ hlow
  constructor
  · intro h
    obtain ⟨n, hn⟩ := List.mem_iff_getElem?.mp h
    rw [List.getElem?_set] at hn
    by_cases e : low = n
    · rw [if_pos e, if_pos hlow] at hn
      exact Or.inl (Option.some.inj hn).symm
    · rw [if_neg e] at hn
      right
      refine ⟨List.mem_iff_getElem?.mpr ⟨n, hn⟩, ?_⟩
      intro hx
      have hn1 : n < l.length := by
        by_contra hc
        rw [List.getElem?_eq_none (by omega)] at hn
        exact absurd hn (by simp)
      have h1 : l[n]? = l[low]? := by
        rw [hn, List.getElem?_eq_getElem hlow, ← hget, hx]
      rcases Nat.lt_or_gt_of_ne e with hlt | hgt
      · exact (List.nodup_iff_getElem?_ne_getElem?.mp hl low n hlt hn1) h1.symm
      · exact (List.nodup_iff_getElem?_ne_getElem?.mp hl n low hgt hlow) h1
  · rintro (h | ⟨h1, h2⟩)
    · rw [h]
      exact List.mem_iff_getElem?.mpr ⟨low, by rw [List.getElem?_set_self hlow]⟩
    · obtain ⟨n, hn⟩ := List.mem_iff_getElem?.mp h1
      have e : low ≠ n := by
        intro e
        subst e
        rw [List.getElem?_eq_getElem hlow] at hn
        exact h2 (by rw [hget]; exact (Option.some.inj hn).symm)
      exact List.mem_iff_getElem?.mpr ⟨n, by rw [List.getElem?_set_ne e]; exact hn⟩

/-- The three outcomes of a priority iteration on a Pending booking: appended, put in
the place of a victim, or cancelled. -/
theorem Priority_step_cases (st : SchedState) (i : Nat) (hi : i < st.bookings.length)
    (hp : (nth st.bookings i).status = STATUS_PENDING) :
    ((Priority_step st i).acceptList = st.acceptList ++ [i] ∧
        (nth (Priority_step st i).bookings i).status = STATUS_ACCEPTED ∧
        ∀ j, j ≠ i → nth (Priority_step st i).bookings j = nth st.bookings j) ∨
      (∃ low, low < st.acceptList.length ∧ st.acceptList.getD low 0 ≠ i ∧
        (Priority_step st i).acceptList = st.acceptList.set low i ∧
        (nth (Priority_step st i).bookings i).status = STATUS_ACCEPTED ∧
        (st.acceptList.getD low 0 < st.bookings.length →
          nth (Priority_step st i).bookings (st.acceptList.getD low 0) =
            cancelBooking (nth st.bookings (st.acceptList.getD low 0))) ∧
        ∀ j, j ≠ i → j ≠ st.acceptList.getD low 0 →
          nth (Priority_step st i).bookings j = nth st.bookings j) ∨
      ((Priority_step st i).acceptList = st.acceptList ∧
        nth (Priority_step st i).bookings i = cancelBooking (nth st.bookings i) ∧
        ∀ j, j ≠ i → nth (Priority_step st i).bookings j = nth st.bookings j) := by
  by_cases hc : has_time_conflict (nth st.bookings i) st.bookings st.acceptList = false
  · left
    unfold Priority_step
    rw [if_neg (not_not.mpr hp), if_pos hc]
    dsimp only
    have hl : i < (st.bookings.set i
        { nth st.bookings i with status := STATUS_ACCEPTED }).length := by
      rw [List.length_set]; exact hi
    split_ifs
    · refine ⟨rfl, ?_, ?_⟩
      · rw [nth_set_self _ _ _ hl, nth_set_self _ _ _ hi]
      · intro j hj
        rw [nth_set_ne _ _ _ _ (fun e => hj e.symm), nth_set_ne _ _ _ _ (fun e => hj e.symm)]
    · refine ⟨rfl, ?_, ?_⟩
      · rw [nth_set_self _ _ _ hi]
      · intro j hj
        rw [nth_set_ne _ _ _ _ (fun e => hj e.symm)]
  · have hc1 : has_time_conflict (nth st.bookings i) st.bookings st.acceptList = true := by
      simpa using hc
    cases hv : scan_victim (nth st.bookings i) st.bookings st.acceptList with
    | none =>
      right; right
      unfold Priority_step
      rw [if_neg (not_not.mpr hp), if_neg hc, hv]
      dsimp only
      refine ⟨rfl, nth_set_self _ _ _ hi, ?_⟩
      intro j hj
      rw [nth_set_ne _ _ _ _ (fun e => hj e.symm)]
    | some low =>
      right; left
      have hne : st.acceptList.getD low 0 ≠ i := scan_victim_ne _ _ _ _ hv
      have hlow := (scan_victim_some _ _ _ _ hv).1
      rw [Priority_step_preempt_eq st i low hp hc1 hv]
      refine ⟨low, hlow, hne, rfl, ?_, ?_, ?_⟩
      · rw [nth_set_ne _ _ _ _ hne, nth_set_self _ _ _ hi]
      · intro hr
        have hr1 : st.acceptList.getD low 0 < (st.bookings.set i
            { nth st.bookings i with
              parking_slot := (nth st.bookings (st.acceptList.getD low 0)).parking_slot,
              status := STATUS_ACCEPTED }).length := by
          rw [List.length_set]; exact hr
        rw [nth_set_self _ _ _ hr1, nth_set_ne _ _ _ _ (fun e => hne e.symm)]
      · intro j hj1 hj2
        rw [nth_set_ne _ _ _ _ (fun e => hj2 e.symm), nth_set_ne _ _ _ _ (fun e => hj1 e.symm)]

/-- Invariant of the priority loop on a batch of Pending bookings: the accepted
sequence has no duplicate, its members are Accepted, and every processed booking
outside it is Rejected with its slot cleared. -/
theorem Priority_run_inv (bs : List Booking) (hP : ∀ b ∈ bs, b.status = STATUS_PENDING)
    (k : Nat) (hk : k ≤ bs.length) :
    (Priority_Scheduler bs k []).acceptList.Nodup ∧
      (∀ j ∈ (Priority_Scheduler bs k []).acceptList,
        (nth (Priority_Scheduler bs k []).bookings j).status = STATUS_ACCEPTED) ∧
      (∀ j, j < k → j ∉ (Priority_Scheduler bs k []).acceptList →
        (nth (Priority_Scheduler bs k []).bookings j).status = STATUS_REJECTED ∧
          (nth (Priority_Scheduler bs k []).bookings j).parking_slot = -1) := by
  induction k with
  | zero =>
    exact ⟨List.nodup_nil, fun j hj => absurd hj (List.not_mem_nil j), fun j hj => by omega⟩
  | succ k ih =>
    obtain ⟨hnd, hacc, hrej⟩ := ih (by omega)
    have hlt := Priority_run_acc_lt bs k
    have hi : k < (Priority_Scheduler bs k []).bookings.length := by
      rw [Priority_run_length]; omega
    have hp : (nth (Priority_Scheduler bs k []).bookings k).status = STATUS_PENDING := by
      rw [Priority_run_untouched bs k k (le_refl k)]
      exact hP _ (nth_mem bs k (by omega))
    have hkn : k ∉ (Priority_Scheduler bs k []).acceptList := fun h =>
      absurd (hlt k h) (lt_irrefl k)
    rw [Priority_Scheduler_succ]
    rcases Priority_step_cases _ k hi hp with ⟨e, hs, ho⟩ | ⟨low, hlow, hne, e, hs, hv, ho⟩ |
      ⟨e, hs, ho⟩
    · rw [e]
      refine ⟨?_, ?_, ?_⟩
      · apply List.Nodup.append hnd (List.nodup_singleton k)
        intro x hx hx1
        rw [List.mem_singleton] at hx1
        exact hkn (hx1 ▸ hx)
      · intro j hj
        rcases List.mem_append.mp hj with h | h
        · rw [ho j (fun e1 => hkn (e1 ▸ h))]
          exact hacc j h
        · rw [List.mem_singleton.mp h]
          exact hs
      · intro j hj hjn
        have h1 : j ∉ (Priority_Scheduler bs k []).acceptList :=
          fun h => hjn (List.mem_append_left _ h)
        have hkm : k ∈ (Priority_Scheduler bs k []).acceptList ++ [k] :=
          List.mem_append_right _ (List.mem_singleton.mpr rfl)
        have h2 : j ≠ k := fun h => hjn (h ▸ hkm)
        rw [ho j h2]
        exact hrej j (by omega) h1
    · rw [e]
      have hmem := fun x => mem_set_nodup (Priority_Scheduler bs k []).acceptList low k x
        hnd hlow
      have hrmem : (Priority_Scheduler bs k []).acceptList.getD low 0 ∈
          (Priority_Scheduler bs k []).acceptList := by
        rw [List.getD_eq_getElem _ _ hlow]
        exact List.getElem_mem hlow
      have hrlen : (Priority_Scheduler bs k []).acceptList.getD low 0 <
          (Priority_Scheduler bs k []).bookings.length := by
        have := hlt _ hrmem
        omega
      refine ⟨hnd.set hkn, ?_, ?_⟩
      · intro j hj
        rcases (hmem j).mp hj with h | ⟨h1, h2⟩
        · rw [h]; exact hs
        · rw [ho j (fun e1 => hkn (e1 ▸ h1)) h2]
          exact hacc j h1
      · intro j hj hjn
        have h2 : j ≠ k := fun h => hjn ((hmem j).mpr (Or.inl h))
        by_cases hjr : j = (Priority_Scheduler bs k []).acceptList.getD low 0
        · rw [hjr, hv hrlen]
          exact ⟨rfl, rfl⟩
        · have h1 : j ∉ (Priority_Scheduler bs k []).acceptList :=
            fun h => hjn ((hmem j).mpr (Or.inr ⟨h, hjr⟩))
          rw [ho j h2 hjr]
          exact hrej j (by omega) h1
    · rw [e]
      refine ⟨hnd, ?_, ?_⟩
      · intro j hj
        rw [ho j (fun e1 => hkn (e1 ▸ hj))]
        exact hacc j hj
      · intro j hj hjn
        by_cases h2 : j = k
        · rw [h2, hs]
          exact ⟨rfl, rfl⟩
        · rw [ho j h2]
          exact hrej j (by omega) hjn

/-- The same invariant for the FCFS loop. -/
theorem FCFS_run_inv (bs : List Booking) (hP : ∀ b ∈ bs, b.status = STATUS_PENDING) :
    (FCFS_Scheduler bs bs.length []).acceptList.Nodup ∧
      (∀ j ∈ (FCFS_Scheduler bs bs.length []).acceptList,
        (nth (FCFS_Scheduler bs bs.length []).bookings j).status = STATUS_ACCEPTED) ∧
      (∀ j, j < bs.length → j ∉ (FCFS_Scheduler bs bs.length []).acceptList →
        (nth (FCFS_Scheduler bs bs.length []).bookings j).status = STATUS_REJECTED ∧
          (nth (FCFS_Scheduler bs bs.length []).bookings j).parking_slot = -1) := by
  have heq := FCFS_run_acc_eq bs hP bs.length (le_refl _)
  refine ⟨?_, ?_, ?_⟩
  · rw [heq]
    exact (List.nodup_range bs.length).filter _
  · intro j hj
    rw [heq, List.mem_filter] at hj
    simpa using hj.2
  · intro j hj hjn
    have hlen : j < (FCFS_Scheduler bs j []).bookings.length := by
      rw [FCFS_run_length]; exact hj
    have hout := FCFS_step_outcome _ j hlen (FCFS_run_pending bs hP j hj)
    rw [← FCFS_final_cell bs j hj] at hout
    rcases hout with ⟨h1, _⟩ | ⟨h1, h2, _⟩
    · exact absurd (FCFS_run_mem_acc bs hP j bs.length hj (le_refl _) h1) hjn
    · exact ⟨h1, h2⟩

/-- C28: after `FCFS_Scheduler` or `Priority_Scheduler` has run on a batch of `n` Pending
bookings from an empty accepted sequence, the accepted sequence has no duplicate, every
index in it is below `n`, booking `i` is Accepted iff `i` occurs in the sequence, and
every other booking of the batch is Rejected with slot `-1`. -/
theorem schedulers_accepted_sequence (bs : List Booking)
    (hP : ∀ b ∈ bs, b.status = STATUS_PENDING) :
    ((FCFS_Scheduler bs bs.length []).acceptList.Nodup ∧
        (∀ i ∈ (FCFS_Scheduler bs bs.length []).acceptList, i < bs.length) ∧
        (∀ i, (nth (FCFS_Scheduler bs bs.length []).bookings i).status = STATUS_ACCEPTED ↔
          i ∈ (FCFS_Scheduler bs bs.length []).acceptList) ∧
        (∀ i, i < bs.length → i ∉ (FCFS_Scheduler bs bs.length []).acceptList →
          (nth (FCFS_Scheduler bs bs.length []).bookings i).status = STATUS_REJECTED ∧
            (nth (FCFS_Scheduler bs bs.length []).bookings i).parking_slot = -1)) ∧
      ((Priority_Scheduler bs bs.length []).acceptList.Nodup ∧
        (∀ i ∈ (Priority_Scheduler bs bs.length []).acceptList, i < bs.length) ∧
        (∀ i, (nth (Priority_Scheduler bs bs.length []).bookings i).status = STATUS_ACCEPTED ↔
          i ∈ (Priority_Scheduler bs bs.length []).acceptList) ∧
        (∀ i, i < bs.length → i ∉ (Priority_Scheduler bs bs.length []).acceptList →
          (nth (Priority_Scheduler bs bs.length []).bookings i).status = STATUS_REJECTED ∧
            (nth (Priority_Scheduler bs bs.length []).bookings i).parking_slot = -1)) := by
  obtain ⟨f1, f2, f3⟩ := FCFS_run_inv bs hP
  obtain ⟨p1, p2, p3⟩ := Priority_run_inv bs hP bs.length (le_refl _)
  refine ⟨⟨f1, FCFS_run_acc_lt bs bs.length, ?_, f3⟩,
    ⟨p1, Priority_run_acc_lt bs bs.length, ?_, p3⟩⟩
  · intro i
    constructor
    · intro h
      have hi : i < bs.length := by
        have := accepted_lt_length _ i h
        rwa [FCFS_run_length] at this
      by_contra hn
      rw [(f3 i hi hn).1] at h
      exact absurd h (by decide)
    · exact f2 i
  · intro i
    constructor
    · intro h
      have hi : i < bs.length := by
        have := accepted_lt_length _ i h
        rwa [Priority_run_length] at this
      by_contra hn
      rw [(p3 i hi hn).1] at h
      exact absurd h (by decide)
    · exact p2 i

theorem schedulers_accepted_sequence_witness :
    (∀ b ∈ threeParkingsThenEvent, b.status = STATUS_PENDING) ∧
      ((Priority_Scheduler threeParkingsThenEvent threeParkingsThenEvent.length []).acceptList.Nodup
        ∧ ∀ i ∈ (Priority_Scheduler threeParkingsThenEvent
            threeParkingsThenEvent.length []).acceptList, i < threeParkingsThenEvent.length) :=
  ⟨by decide,
    ⟨(schedulers_accepted_sequence threeParkingsThenEvent (by decide)).2.1,
      (schedulers_accepted_sequence threeParkingsThenEvent (by decide)).2.2.1⟩⟩

/-- C22: the command `addParking -member_A 2025-05-10 09:00 -1.0 battery;` passes the
only duration test of `create_booking` (`duration == 0`): a booking with duration `-1`
is added, its end instant is one hour before its start instant, and the
invalid-command counter stays at 0; no buffer is overrun on the way. -/
theorem intake_accepts_negative_duration :
    (command_processor mktime_utc { allBookings := [], invalid_command_count := 0 }
        negativeDurationCommand).allBookings.map
        (fun b => (b.duration, b.start_time, b.end_time))
      = [(-1, 1746867600, 1746864000)] ∧
      (∀ b ∈ (command_processor mktime_utc { allBookings := [], invalid_command_count := 0 }
          negativeDurationCommand).allBookings,
        b.duration < 0 ∧ b.end_time < b.start_time) ∧
      (command_processor mktime_utc { allBookings := [], invalid_command_count := 0 }
        negativeDurationCommand).invalid_command_count = 0 ∧
      (command_processor mktime_utc { allBookings := [], invalid_command_count := 0 }
        negativeDurationCommand).undefined_behaviour = false := by
  decide

/-- C30: the command `addParking -member_A 2025-05-10 09:00 1.0 battery cable locker
umbrella;` makes `command_processor` collect four essentials (its bound is
`MAX_ESSENTIALS = 6`) and pass `count = 4` to `create_booking`, which copies all four:
the booking added has `essential_count = 4`, more than the 3 entries of the array, and
the fourth copy, which lands outside the array, leaves the state undefined. -/
theorem intake_essential_count_exceeds_array :
    (command_processor mktime_utc { allBookings := [], invalid_command_count := 0 }
        fourEssentialsCommand).allBookings.map (fun b => b.essential_count) = [4] ∧
      (command_processor mktime_utc { allBookings := [], invalid_command_count := 0 }
        fourEssentialsCommand).allBookings.map (fun b => b.essentials)
        = [["battery", "cable", "locker", "umbrella"]] ∧
      ¬ (∀ b ∈ (command_processor mktime_utc { allBookings := [], invalid_command_count := 0 }
          fourEssentialsCommand).allBookings, b.essential_count ≤ 3) ∧
      MAX_ESSENTIALS = 6 ∧
      (command_processor mktime_utc { allBookings := [], invalid_command_count := 0 }
        fourEssentialsCommand).undefined_behaviour = true := by
  decide

/-- C23: in a `printBookings -ALL` run over a batch of three Parking requests for
09:00-10:00, an Event request for 09:00-12:00 and three Parking requests for 10:00-11:00,
FCFS accepts six bookings, yet the count forwarded to the Analysis stage with the FCFS
list is 5, the count of the Priority run, and only five of the six FCFS indices are
forwarded; neither `write` takes cells from beyond its buffer. -/
theorem printBookings_ALL_forwards_last_count :
    scheduler_stage "fcfs" sevenBookings sevenBookings.length = [0, 1, 2, 4, 5, 6] ∧
    scheduler_stage "prio" sevenBookings sevenBookings.length = [3, 1, 2, 4, 5] ∧
    (printBookings_ALL sevenBookings initialVars 0).map
        (fun m => (m.algorithm, m.accepted_count, m.accepted_idx)) =
      [("fcfs", 5, [0, 1, 2, 4, 5]), ("prio", 5, [3, 1, 2, 4, 5])] ∧
    (printBookings_ALL sevenBookings initialVars 0).map (fun m => m.reads_past_buffer) =
      [false, false] := by
  decide

/-- C24: a run over an empty batch ends after the tag was acknowledged, leaving the
Scheduler stage waiting for a count and not for a tag; the tag of the next run, over four
Parking requests, is then answered with `ACK_READ`, so that run ends with a missing
`ACK_ALGO`, although the same run started with the stage waiting for a tag is scheduled
and leaves the stage waiting for a tag. -/
theorem run_after_empty_batch_misses_ACK_ALGO :
    coordinator_run "fcfs" [] .awaitAlgorithm 0 =
      ⟨.no_pending_bookings, .awaitCount "fcfs", 1⟩ ∧
    scheduler_stage_step (.awaitCount "fcfs") (.tag "fcfs") =
      (.desynchronized, [.ack "ACK_READ"]) ∧
    coordinator_run "fcfs" fourParkings (.awaitCount "fcfs") 1 =
      ⟨.missing_ACK_ALGO, .desynchronized, 1⟩ ∧
    coordinator_run "fcfs" fourParkings .awaitAlgorithm 1 =
      ⟨.scheduled [0, 1, 2], .awaitAlgorithm, 1⟩ := by
  decide

theorem forward_run_zero_accepted (algorithm : String) (pending_bookings : List Booking)
    (accepted_idx : List Nat) (halg : algorithm ≠ "EXIT") (hne : pending_bookings ≠ []) :
    forward_run algorithm pending_bookings 0 accepted_idx 20 forwardStart =
      { coordinator := .awaitAckIndx, stage := .awaitAlgorithm, ptoc := [], ctop := [] } := by
  have hlen : pending_bookings.length ≠ 0 := fun h => hne (List.length_eq_zero.mp h)
  simp [forward_run, forward_step, coordinator_forward_step, output_stage_step, forwardStart,
    halg, hlen]

theorem forward_run_some_accepted (algorithm : String) (pending_bookings : List Booking)
    (acceptCounter : Nat) (accepted_idx : List Nat) (halg : algorithm ≠ "EXIT")
    (hne : pending_bookings ≠ []) (hpos : acceptCounter ≠ 0) :
    forward_run algorithm pending_bookings acceptCounter accepted_idx 20 forwardStart =
      { coordinator := .done, stage := .awaitAlgorithm, ptoc := [], ctop := [] } := by
  have hlen : pending_bookings.length ≠ 0 := fun h => hne (List.length_eq_zero.mp h)
  simp [forward_run, forward_step, coordinator_forward_step, output_stage_step, forwardStart,
    halg, hlen, hpos]

/-- C25: when a scheduler accepts no booking of a non-empty batch, the forwarding of
the result to the Output stage reaches a state that is neither completed nor aborted
and in which neither side has a next step: the coordinator waits in the `read` for
`ACK_INDX`, the Output stage, whose `read` of zero bytes returned 0, waits in the `read`
for the next tag, and both pipes are empty. With a positive accepted count the same
forwarding completes. -/
theorem forward_blocks_when_none_accepted (algorithm : String)
    (pending_bookings : List Booking) (accepted_idx : List Nat)
    (halg : algorithm ∈ algorithms) (hne : pending_bookings ≠ []) :
    forward_run algorithm pending_bookings 0 accepted_idx 20 forwardStart =
        { coordinator := .awaitAckIndx, stage := .awaitAlgorithm, ptoc := [], ctop := [] } ∧
      coordinator_forward_step algorithm pending_bookings 0 accepted_idx .awaitAckIndx []
        = none ∧
      output_stage_step .awaitAlgorithm [] = none ∧
      forward_step algorithm pending_bookings 0 accepted_idx
          { coordinator := .awaitAckIndx, stage := .awaitAlgorithm, ptoc := [], ctop := [] }
        = none ∧
      ∀ acceptCounter : Nat, acceptCounter ≠ 0 →
        forward_run algorithm pending_bookings acceptCounter accepted_idx 20 forwardStart =
          { coordinator := .done, stage := .awaitAlgorithm, ptoc := [], ctop := [] } := by
  have hexit : algorithm ≠ "EXIT" := by
    intro h
    rw [h] at halg
    exact absurd halg (by decide)
  refine ⟨forward_run_zero_accepted algorithm pending_bookings accepted_idx hexit hne,
    rfl, rfl, rfl, ?_⟩
  intro acceptCounter hpos
  exact forward_run_some_accepted algorithm pending_bookings acceptCounter accepted_idx
    hexit hne hpos

theorem forward_blocks_when_none_accepted_witness :
    ("fcfs" ∈ algorithms ∧ chargerBatch ≠ []) ∧
      (scheduler_stage "fcfs" chargerBatch chargerBatch.length = [] ∧
        scheduler_stage "prio" chargerBatch chargerBatch.length = [] ∧
        coordinator_run "fcfs" chargerBatch .awaitAlgorithm 0 =
          ⟨.scheduled [], .awaitAlgorithm, 0⟩) ∧
      forward_run "fcfs" chargerBatch 0 [] 20 forwardStart =
        { coordinator := .awaitAckIndx, stage := .awaitAlgorithm, ptoc := [], ctop := [] } ∧
      forward_step "fcfs" chargerBatch 0 []
          { coordinator := .awaitAckIndx, stage := .awaitAlgorithm, ptoc := [], ctop := [] }
        = none :=
  ⟨by decide, by decide,
    (forward_blocks_when_none_accepted "fcfs" chargerBatch [] (by decide) (by decide)).1,
    (forward_blocks_when_none_accepted "fcfs" chargerBatch [] (by decide) (by decide)).2.2.2.1⟩

theorem Priority_step_rejects_iff (st : SchedState) (k i : Nat) (hik : k ≠ i)
    (hi : i < st.bookings.length) (hp : (nth st.bookings k).status = STATUS_PENDING) :
    (nth (Priority_step st k).bookings i).status = STATUS_REJECTED ↔
      ((nth st.bookings i).status = STATUS_REJECTED ∨
        (has_time_conflict (nth st.bookings k) st.bookings st.acceptList = true ∧
          ∃ low, scan_victim (nth st.bookings k) st.bookings st.acceptList = some low ∧
            st.acceptList.getD low 0 = i)) := by
  unfold Priority_step
  rw [if_neg (not_not.mpr hp)]
  by_cases hc : has_time_conflict (nth st.bookings k) st.bookings st.acceptList = false
  · rw [if_pos hc]
    dsimp only
    have hrhs : ¬ (has_time_conflict (nth st.bookings k) st.bookings st.acceptList = true ∧
          ∃ low, scan_victim (nth st.bookings k) st.bookings st.acceptList = some low ∧
            st.acceptList.getD low 0 = i) := by
      rintro ⟨h, _⟩
      rw [hc] at h
      exact absurd h (by decide)
    split_ifs
    · rw [nth_set_ne _ _ _ _ hik, nth_set_ne _ _ _ _ hik]
      exact ⟨fun h => Or.inl h, fun h => h.resolve_right hrhs⟩
    · rw [nth_set_ne _ _ _ _ hik]
      exact ⟨fun h => Or.inl h, fun h => h.resolve_right hrhs⟩
  · rw [if_neg hc]
    have hc1 : has_time_conflict (nth st.bookings k) st.bookings st.acceptList = true := by
      simpa using hc
    cases hv : scan_victim (nth st.bookings k) st.bookings st.acceptList with
    | none =>
      dsimp only
      rw [nth_set_ne _ _ _ _ hik]
      refine ⟨fun h => Or.inl h, fun h => h.resolve_right ?_⟩
      rintro ⟨_, low, hl, _⟩
      exact absurd hl (by simp)
    | some low =>
      dsimp only
      by_cases hr : st.acceptList.getD low 0 = i
      · rw [hr]
        have hlen : i < (st.bookings.set k
            { nth st.bookings k with
              parking_slot := (nth st.bookings i).parking_slot,
              status := STATUS_ACCEPTED }).length := by
          rw [List.length_set]; exact hi
        rw [nth_set_self _ _ _ hlen]
        exact ⟨fun _ => Or.inr ⟨hc1, low, rfl, hr⟩, fun _ => rfl⟩
      · rw [nth_set_ne _ _ _ _ hr, nth_set_ne _ _ _ _ hik]
        refine ⟨fun h => Or.inl h, fun h => h.resolve_right ?_⟩
        rintro ⟨_, low1, hl, hg⟩
        have : low1 = low := by
          have := hl
          simp only [Option.some.injEq] at this
          exact this.symm
        rw [this] at hg
        exact hr hg

theorem Priority_run_rejected_iff (bs : List Booking)
    (hP : ∀ b ∈ bs, b.status = STATUS_PENDING) (i : Nat) (hi : i < bs.length) (d : Nat)
    (hd : i + 1 + d ≤ bs.length) :
    (nth (Priority_Scheduler bs (i + 1 + d) []).bookings i).status = STATUS_REJECTED ↔
      ((nth (Priority_Scheduler bs (i + 1) []).bookings i).status = STATUS_REJECTED ∨
        ∃ k, i < k ∧ k < i + 1 + d ∧
          has_time_conflict (nth (Priority_Scheduler bs k []).bookings k)
            (Priority_Scheduler bs k []).bookings
            (Priority_Scheduler bs k []).acceptList = true ∧
          ∃ low, scan_victim (nth (Priority_Scheduler bs k []).bookings k)
              (Priority_Scheduler bs k []).bookings
              (Priority_Scheduler bs k []).acceptList = some low ∧
            (Priority_Scheduler bs k []).acceptList.getD low 0 = i) := by
  induction d with
  | zero =>
    constructor
    · intro h
      exact Or.inl h
    · rintro (h | ⟨k, h1, h2, _⟩)
      · exact h
      · omega
  | succ d ih =>
    have ih1 := ih (by omega)
    have hk : i + 1 + d < bs.length := by omega
    have hpend : (nth (Priority_Scheduler bs (i + 1 + d) []).bookings (i + 1 + d)).status
        = STATUS_PENDING := by
      rw [Priority_run_untouched bs (i + 1 + d) (i + 1 + d) (le_refl _)]
      exact hP _ (nth_mem bs _ hk)
    have hlen : i < (Priority_Scheduler bs (i + 1 + d) []).bookings.length := by
      rw [Priority_run_length]; exact hi
    have hstep := Priority_step_rejects_iff (Priority_Scheduler bs (i + 1 + d) [])
      (i + 1 + d) i (by omega) hlen hpend
    have hs : Priority_Scheduler bs (i + 1 + (d + 1)) [] =
        Priority_step (Priority_Scheduler bs (i + 1 + d) []) (i + 1 + d) := by
      rw [← Priority_Scheduler_succ]
      rfl
    rw [hs, hstep, ih1]
    constructor
    · rintro ((h | ⟨k, h1, h2, h3⟩) | ⟨h1, h2⟩)
      · exact Or.inl h
      · exact Or.inr ⟨k, h1, by omega, h3⟩
      · exact Or.inr ⟨i + 1 + d, by omega, by omega, h1, h2⟩
    · rintro (h | ⟨k, h1, h2, h3⟩)
      · exact Or.inl (Or.inl h)
      · by_cases hkd : k < i + 1 + d
        · exact Or.inl (Or.inr ⟨k, h1, hkd, h3⟩)
        · have hk2 : k = i + 1 + d := by omega
          rw [hk2] at h3
          exact Or.inr h3

/-- C9 as stated fails: in `threeParkingsThenEvent` the first Parking request meets no
conflict at its own iteration and is Accepted by it, yet it ends Rejected, because the
Event request processed later preempts it. -/
theorem Priority_rejects_after_accepting :
    has_time_conflict (nth (Priority_Scheduler threeParkingsThenEvent 0 []).bookings 0)
        (Priority_Scheduler threeParkingsThenEvent 0 []).bookings
        (Priority_Scheduler threeParkingsThenEvent 0 []).acceptList = false ∧
      (nth (Priority_Scheduler threeParkingsThenEvent 1 []).bookings 0).status
        = STATUS_ACCEPTED ∧
      (nth (Priority_Scheduler threeParkingsThenEvent threeParkingsThenEvent.length
        []).bookings 0).status = STATUS_REJECTED ∧
      ¬ ((nth (Priority_Scheduler threeParkingsThenEvent threeParkingsThenEvent.length
            []).bookings 0).status = STATUS_REJECTED ↔
          (has_time_conflict (nth (Priority_Scheduler threeParkingsThenEvent 0 []).bookings 0)
              (Priority_Scheduler threeParkingsThenEvent 0 []).bookings
              (Priority_Scheduler threeParkingsThenEvent 0 []).acceptList = true ∧
            ∀ idx ∈ (Priority_Scheduler threeParkingsThenEvent 0 []).acceptList,
              ¬ (time_overlap (nth threeParkingsThenEvent 0) (nth threeParkingsThenEvent idx)
                  = true ∧
                get_priority_level (nth threeParkingsThenEvent idx).type
                  < get_priority_level (nth threeParkingsThenEvent 0).type))) := by
  decide

/-- C9, amended: in a run of `Priority_Scheduler` over a Pending batch, booking `i` is
Rejected by its own iteration iff `has_time_conflict` reports a conflict against the
accepted sequence met there and no booking of that sequence both overlaps it and has
strictly lower priority, and is Accepted by it otherwise; with no conflict it is appended
at the end of the accepted sequence. It ends the run Rejected iff its own iteration
rejected it or a later candidate `k` preempts it: `k` meets a conflict and the backward
scan returns the position of `i`, which overlaps `k` and has strictly lower priority.
Otherwise it ends Accepted. -/
theorem Priority_run_verdict (bs : List Booking) (i : Nat) (hi : i < bs.length)
    (hP : ∀ b ∈ bs, b.status = STATUS_PENDING) :
    ((nth (Priority_Scheduler bs (i + 1) []).bookings i).status = STATUS_REJECTED ↔
        (has_time_conflict (nth (Priority_Scheduler bs i []).bookings i)
            (Priority_Scheduler bs i []).bookings (Priority_Scheduler bs i []).acceptList
            = true ∧
          ∀ idx ∈ (Priority_Scheduler bs i []).acceptList,
            ¬ (time_overlap (nth bs i) (nth bs idx) = true ∧
              get_priority_level (nth bs idx).type < get_priority_level (nth bs i).type))) ∧
      ((nth (Priority_Scheduler bs (i + 1) []).bookings i).status = STATUS_ACCEPTED ∨
        (nth (Priority_Scheduler bs (i + 1) []).bookings i).status = STATUS_REJECTED) ∧
      (has_time_conflict (nth (Priority_Scheduler bs i []).bookings i)
          (Priority_Scheduler bs i []).bookings (Priority_Scheduler bs i []).acceptList
          = false →
        (nth (Priority_Scheduler bs (i + 1) []).bookings i).status = STATUS_ACCEPTED ∧
          (Priority_Scheduler bs (i + 1) []).acceptList
            = (Priority_Scheduler bs i []).acceptList ++ [i]) ∧
      ((nth (Priority_Scheduler bs bs.length []).bookings i).status = STATUS_REJECTED ↔
        ((nth (Priority_Scheduler bs (i + 1) []).bookings i).status = STATUS_REJECTED ∨
          ∃ k, i < k ∧ k < bs.length ∧
            has_time_conflict (nth (Priority_Scheduler bs k []).bookings k)
              (Priority_Scheduler bs k []).bookings
              (Priority_Scheduler bs k []).acceptList = true ∧
            (∃ low, scan_victim (nth (Priority_Scheduler bs k []).bookings k)
                (Priority_Scheduler bs k []).bookings
                (Priority_Scheduler bs k []).acceptList = some low ∧
              (Priority_Scheduler bs k []).acceptList.getD low 0 = i) ∧
            time_overlap (nth bs k) (nth bs i) = true ∧
            get_priority_level (nth bs i).type < get_priority_level (nth bs k).type)) ∧
      ((nth (Priority_Scheduler bs bs.length []).bookings i).status = STATUS_ACCEPTED ∨
        (nth (Priority_Scheduler bs bs.length []).bookings i).status = STATUS_REJECTED) := by
  have hov : ∀ k a b, time_overlap (nth (Priority_Scheduler bs k []).bookings a)
      (nth (Priority_Scheduler bs k []).bookings b) = time_overlap (nth bs a) (nth bs b) :=
    fun k a b => time_overlap_frame _ _ _ _ (Priority_run_frame bs k a)
      (Priority_run_frame bs k b)
  have hty : ∀ k a, (nth (Priority_Scheduler bs k []).bookings a).type = (nth bs a).type :=
    fun k a => frame_type _ _ (Priority_run_frame bs k a)
  have hlen : i < (Priority_Scheduler bs i []).bookings.length := by
    rw [Priority_run_length]; exact hi
  have hpend : (nth (Priority_Scheduler bs i []).bookings i).status = STATUS_PENDING := by
    rw [Priority_run_untouched bs i i (le_refl _)]
    exact hP _ (nth_mem bs _ hi)
  have hown := Priority_step_verdict (Priority_Scheduler bs i []) i hlen hpend
  rw [← Priority_Scheduler_succ] at hown
  have hfin := Priority_run_rejected_iff bs hP i hi (bs.length - (i + 1)) (by omega)
  have hn : i + 1 + (bs.length - (i + 1)) = bs.length := by omega
  rw [hn] at hfin
  have hinv := Priority_run_inv bs hP bs.length (le_refl _)
  refine ⟨?_, hown.2.1, hown.2.2, ?_, ?_⟩
  · rw [hown.1]
    constructor
    · rintro ⟨h1, h2⟩
      refine ⟨h1, fun idx hidx hc => h2 idx hidx ?_⟩
      rw [hov, hty, hty]
      exact hc
    · rintro ⟨h1, h2⟩
      refine ⟨h1, fun idx hidx hc => h2 idx hidx ?_⟩
      rw [hov, hty, hty] at hc
      exact hc
  · rw [hfin]
    constructor
    · rintro (h | ⟨k, h1, h2, h3, low, h4, h5⟩)
      · exact Or.inl h
      · have hsome := scan_victim_some _ _ _ _ h4
        rw [h5, hov, hty, hty] at hsome
        exact Or.inr ⟨k, h1, h2, h3, ⟨low, h4, h5⟩, hsome.2.1, hsome.2.2⟩
    · rintro (h | ⟨k, h1, h2, h3, h4, _⟩)
      · exact Or.inl h
      · exact Or.inr ⟨k, h1, h2, h3, h4⟩
  · by_cases hmem : i ∈ (Priority_Scheduler bs bs.length []).acceptList
    · exact Or.inl (hinv.2.1 i hmem)
    · exact Or.inr (hinv.2.2 i hi hmem).1

theorem Priority_run_verdict_witness :
    (0 < threeParkingsThenEvent.length ∧
      ∀ b ∈ threeParkingsThenEvent, b.status = STATUS_PENDING) ∧
      ((nth (Priority_Scheduler threeParkingsThenEvent threeParkingsThenEvent.length
          []).bookings 0).status = STATUS_REJECTED ↔
        ((nth (Priority_Scheduler threeParkingsThenEvent (0 + 1) []).bookings 0).status
            = STATUS_REJECTED ∨
          ∃ k, 0 < k ∧ k < threeParkingsThenEvent.length ∧
            has_time_conflict (nth (Priority_Scheduler threeParkingsThenEvent k []).bookings k)
              (Priority_Scheduler threeParkingsThenEvent k []).bookings
              (Priority_Scheduler threeParkingsThenEvent k []).acceptList = true ∧
            (∃ low, scan_victim (nth (Priority_Scheduler threeParkingsThenEvent k []).bookings k)
                (Priority_Scheduler threeParkingsThenEvent k []).bookings
                (Priority_Scheduler threeParkingsThenEvent k []).acceptList = some low ∧
              (Priority_Scheduler threeParkingsThenEvent k []).acceptList.getD low 0 = 0) ∧
            time_overlap (nth threeParkingsThenEvent k) (nth threeParkingsThenEvent 0) = true ∧
            get_priority_level (nth threeParkingsThenEvent 0).type
              < get_priority_level (nth threeParkingsThenEvent k).type)) ∧
      (nth (Priority_Scheduler threeParkingsThenEvent threeParkingsThenEvent.length
        []).bookings 0).status = STATUS_REJECTED ∧
      (nth (Priority_Scheduler threeParkingsThenEvent (0 + 1) []).bookings 0).status
        = STATUS_ACCEPTED :=
  ⟨by decide,
    (Priority_run_verdict threeParkingsThenEvent 0 (by decide) (by decide)).2.2.2.1,
    by decide, by decide⟩

end SPMSG34
